import Mathlib

/-!
# q3-md3-webgl-viewer: clips, crossfades, tag matrices, node trees and the MD3 reader

A shallow embedding of `src/q3/q3-player.js`, `src/q3/animation-cfg.js`,
`src/q3/q3-object.js`, `src/q3/q3-depnode.js`, `src/util/byter.js` and the reader
classes under `src/md3/`.

Conventions of the embedding:

* JavaScript numbers that hold integers (the fields of a clip, frame indices)
  are `Int`; numbers that hold times and blend factors are rationals `ℚ`. They are
  exact, except in `Q3_Player.evalAnimFramePair64`, where a time is a double and the
  product with the frame rate is rounded to binary64 by `Js.round64`.
* JavaScript strings are lists of characters (`List Char`).
* A `Map` is an insertion-ordered association list.
* An object reference that may be `null` is an `Option`.
* Coordinates and angles are elements of an ordered field, with the functions of
  `Math` as a parameter.
* An `ArrayBuffer` is the list of its bytes, and a call that throws returns `none`.
-/

set_option autoImplicit false

/-! ## Data model -/

/-- The clip record stored in the tables of `AnimationCFG`
(`{ name, numFrames, loopFrames, fps, firstFrame }`). -/
structure AnimInfo where
  name : List Char
  numFrames : Int
  loopFrames : Int
  fps : Int
  firstFrame : Int
deriving DecidableEq, Repr

/-- The object `{ a, b, t }` returned by `Q3_Player.evalAnimFramePair`. -/
structure FramePair where
  a : Int
  b : Int
  t : ℚ
deriving DecidableEq, Repr

namespace Q3_Player

/-! ## `Q3_Player.evalAnimFramePair` (q3-player.js, lines 124-162) -/

/-- The static method `evalAnimFramePair(anim, timeSec)` with the product
`timeSec * fps` taken exactly; `evalAnimFramePair64` is the same method with the product
rounded to binary64. The remainder operator `%` of JavaScript truncates towards zero,
which is `Int.tmod`. -/
def evalAnimFramePair (anim : Option AnimInfo) (timeSec : ℚ) : FramePair :=
  match anim with
  | none => { a := 0, b := 0, t := 0 }
  | some anim =>
    let fps : Int := max 1 anim.fps
    let total : Int := max 1 anim.numFrames
    let fExact : ℚ := timeSec * fps
    let i : Int := Int.floor fExact
    let frac : ℚ := fExact - i
    let first : Int := anim.firstFrame
    let lastIndex : Int := total - 1
    if anim.loopFrames ≤ 0 then
      if i ≥ lastIndex ∨ total = 1 then
        let f := first + lastIndex
        { a := f, b := f, t := 0 }
      else
        { a := first + i, b := first + (i + 1), t := frac }
    else
      let loopFrames : Int := max 1 anim.loopFrames
      let loopStart : Int := total - loopFrames
      if i ≤ lastIndex then
        { a := first + i
          b := if i < lastIndex then first + i + 1 else first + loopStart
          t := frac }
      else
        let k : Int := Int.tmod (i - lastIndex - 1) loopFrames
        { a := first + loopStart + k
          b := first + loopStart + Int.tmod (k + 1) loopFrames
          t := frac }

/-- The clip of the concrete scenario: `{firstFrame: 10, numFrames: 5, loopFrames: 0, fps: 10}`. -/
def scenarioClip : AnimInfo :=
  { name := "TORSO_GESTURE".toList, numFrames := 5, loopFrames := 0, fps := 10, firstFrame := 10 }

/-- A looping clip: five frames, the last two of which form the cycle. -/
def loopClip : AnimInfo :=
  { name := "LEGS_RUN".toList, numFrames := 5, loopFrames := 2, fps := 10, firstFrame := 10 }

/-- A looping clip whose directory line gives the frame rate `0`. -/
def zeroFpsClip : AnimInfo :=
  { name := "LEGS_RUN".toList, numFrames := 5, loopFrames := 2, fps := 0, firstFrame := 0 }

end Q3_Player

/-! ## JavaScript string primitives used by `animation-cfg.js` -/

namespace Js

/-- The characters matched by `\s` in a regular expression, which are also the ones
removed by `String.prototype.trim` and skipped by `parseInt`: the ECMAScript
`WhiteSpace` and `LineTerminator` code points. -/
def isSpace (c : Char) : Bool :=
  let n := c.toNat
  n = 0x09 || n = 0x0A || n = 0x0B || n = 0x0C || n = 0x0D || n = 0x20 || n = 0xA0 ||
  n = 0x1680 || (0x2000 ≤ n && n ≤ 0x200A) || n = 0x2028 || n = 0x2029 || n = 0x202F ||
  n = 0x205F || n = 0x3000 || n = 0xFEFF

/-- The ECMAScript `LineTerminator` code points, which `.` does not match. -/
def isLineTerminator (c : Char) : Bool :=
  let n := c.toNat
  n = 0x0A || n = 0x0D || n = 0x2028 || n = 0x2029

/-- The call `text.split(/\r?\n/)`: the text is cut at every line feed, and a carriage
return directly before the line feed belongs to the separator. The result is never
empty (the empty text gives one empty line). -/
def splitLines : List Char → List (List Char)
  | [] => [[]]
  | '\r' :: '\n' :: rest => [] :: splitLines rest
  | '\n' :: rest => [] :: splitLines rest
  | c :: rest =>
    match splitLines rest with
    | [] => [[c]]
    | l :: ls => (c :: l) :: ls

/-- The call `l.replace(/\/\/.*$/, '')`: the first `//` that is followed, up to the end of
the string, by no line terminator is removed together with everything after it. -/
def stripComment : List Char → List Char
  | [] => []
  | c :: rest =>
    match c, rest with
    | '/', '/' :: tail =>
      if tail.all (fun d => !isLineTerminator d) then [] else c :: stripComment rest
    | _, _ => c :: stripComment rest

/-- The method `String.prototype.trim`. -/
def trim (s : List Char) : List Char :=
  ((s.dropWhile isSpace).reverse.dropWhile isSpace).reverse

/-- Scanner behind `split(/\s+/)`; the flag says whether the previous character
belonged to a separator. -/
def splitWsAux : Bool → List Char → List (List Char)
  | _, [] => [[]]
  | inSep, c :: rest =>
    if isSpace c then
      if inSep then splitWsAux true rest else [] :: splitWsAux true rest
    else
      match splitWsAux false rest with
      | [] => [[c]]
      | l :: ls => (c :: l) :: ls

/-- The call `line.split(/\s+/)`: the pieces between maximal runs of white space. -/
def splitWs (s : List Char) : List (List Char) := splitWsAux false s

/-- The method `String.prototype.toLowerCase`, restricted to the letters `A`-`Z`. The
only use is a comparison with the words `sex`, `headoffset`, `footsteps` and the prefix
`//`, whose characters have no other upper-case form. -/
def toLowerCase (s : List Char) : List Char := s.map Char.toLower

/-- The value of a run of decimal digits. -/
def digitsValue (ds : List Char) : Nat :=
  ds.foldl (fun acc d => acc * 10 + (d.toNat - 48)) 0

/-- The call `parseInt(s, 10)`: leading white space is skipped, an optional sign is read,
then the longest run of decimal digits; `none` stands for `NaN` (no digit). The value is
the exact integer. -/
def parseInt (s : List Char) : Option Int :=
  let s1 := s.dropWhile isSpace
  let signed : Bool × List Char :=
    match s1 with
    | '-' :: r => (true, r)
    | '+' :: r => (false, r)
    | _ => (false, s1)
  let ds := signed.2.takeWhile Char.isDigit
  if ds.isEmpty then none
  else if signed.1 then some (-(digitsValue ds : Int)) else some (digitsValue ds : Int)

/-- A `Map` from strings to clip records, in insertion order. A stored value may be
`undefined` (`none`). -/
abbrev ClipMap := List (List Char × Option AnimInfo)

/-- The method `Map.prototype.has`. -/
def ClipMap.has : ClipMap → List Char → Bool
  | [], _ => false
  | (k0, _) :: rest, k => if k0 = k then true else ClipMap.has rest k

/-- The method `Map.prototype.get`; `none` stands for `undefined`. -/
def ClipMap.get : ClipMap → List Char → Option AnimInfo
  | [], _ => none
  | (k0, v) :: rest, k => if k0 = k then v else ClipMap.get rest k

/-- The method `Map.prototype.set`: an existing key keeps its position and receives the
new value, a new key is appended. -/
def ClipMap.set : ClipMap → List Char → Option AnimInfo → ClipMap
  | [], k, v => [(k, v)]
  | (k0, v0) :: rest, k, v =>
    if k0 = k then (k0, v) :: rest else (k0, v0) :: ClipMap.set rest k v

/-- Every key present in the table has a defined value. -/
def ClipMap.Defined (m : ClipMap) : Prop :=
  ∀ k, ClipMap.has m k = true → (ClipMap.get m k).isSome = true

/-- The expression `a || b` on values that are a string or `undefined`: the empty string
and `undefined` are falsy. -/
def orElseStr (a b : Option (List Char)) : Option (List Char) :=
  match a with
  | some (c :: cs) => some (c :: cs)
  | _ => b

end Js

/-! ## `animation-cfg.js` -/

/-- The fixed order of clip names (`ORDER`, lines 9-21). -/
def ORDER : List (List Char) :=
  [ "BOTH_DEATH1".toList, "BOTH_DEAD1".toList, "BOTH_DEATH2".toList, "BOTH_DEAD2".toList,
    "BOTH_DEATH3".toList, "BOTH_DEAD3".toList,
    "TORSO_GESTURE".toList,
    "TORSO_ATTACK".toList, "TORSO_ATTACK2".toList,
    "TORSO_DROP".toList, "TORSO_RAISE".toList,
    "TORSO_STAND".toList, "TORSO_STAND2".toList,
    "LEGS_WALKCR".toList, "LEGS_WALK".toList, "LEGS_RUN".toList, "LEGS_BACK".toList,
    "LEGS_SWIM".toList,
    "LEGS_JUMP".toList, "LEGS_LAND".toList, "LEGS_JUMPB".toList, "LEGS_LANDB".toList,
    "LEGS_IDLE".toList, "LEGS_IDLECR".toList, "LEGS_TURN".toList ]

/-- The function `isDirective(word)`; `none` stands for `undefined`. -/
def isDirective (word : Option (List Char)) : Bool :=
  match word with
  | none => true
  | some [] => true
  | some word =>
    let w := Js.toLowerCase word
    w == "sex".toList || w == "headoffset".toList || w == "footsteps".toList ||
      "//".toList.isPrefixOf w

/-- The three results of `kindFor`. -/
inductive Kind where
  | TORSO
  | LEGS
  | BOTH
deriving DecidableEq, Repr

/-- The function `kindFor(name)`. -/
def kindFor (name : List Char) : Kind :=
  if "TORSO_".toList.isPrefixOf name then Kind.TORSO
  else if "LEGS_".toList.isPrefixOf name then Kind.LEGS
  else Kind.BOTH

/-- An element of the array `raw` in `_parse`. -/
structure RawEntry where
  firstFrame : Int
  numFrames : Int
  loopFrames : Int
  fps : Int
deriving DecidableEq, Repr

/-- An element of the array `named` in `_parse`. -/
structure NamedEntry where
  name : List Char
  firstFrame : Int
  numFrames : Int
  loopFrames : Int
  fps : Int
deriving DecidableEq, Repr

/-- The state of an `AnimationCFG` object (without `path`). -/
structure AnimationCFG where
  torso : Js.ClipMap
  legs : Js.ClipMap
  torsoNames : List (List Char)
  legsNames : List (List Char)
deriving DecidableEq, Repr

namespace AnimationCFG

/-- The state set up by the constructor. -/
def new : AnimationCFG := { torso := [], legs := [], torsoNames := [], legsNames := [] }

/-- The array `lines` of `_parse`: split, strip the comment, trim, drop empty lines. -/
def cleanLines (text : List Char) : List (List Char) :=
  ((Js.splitLines text).map (fun l => Js.trim (Js.stripComment l))).filter (fun l => !l.isEmpty)

/-- The body of the first loop of `_parse` for one line: `none` when the line is skipped
by one of the `continue` statements, the pushed entry otherwise. -/
def parseLine (line : List Char) : Option RawEntry :=
  let firstWord := (Js.splitWs line).head?
  if isDirective firstWord then none
  else
    match Js.splitWs line with
    | p0 :: p1 :: p2 :: p3 :: _ =>
      match Js.parseInt p0, Js.parseInt p1, Js.parseInt p2, Js.parseInt p3 with
      | some firstFrame, some numFrames, some loopFrames, some fps =>
        some { firstFrame := firstFrame, numFrames := numFrames, loopFrames := loopFrames,
               fps := fps }
      | _, _, _, _ => none
    | _ => none

/-- The first loop of `_parse`, with its `break` once `raw` holds `ORDER.length` entries. -/
def scanLines : List (List Char) → List RawEntry → List RawEntry
  | [], raw => raw
  | line :: rest, raw =>
    match parseLine line with
    | none => scanLines rest raw
    | some e =>
      let raw1 := raw ++ [e]
      if raw1.length ≥ ORDER.length then raw1 else scanLines rest raw1

/-- The array `named`: the first `min(raw.length, ORDER.length)` entries, each with the
name at the same index of `ORDER`. -/
def nameEntries (raw : List RawEntry) : List NamedEntry :=
  List.zipWith
    (fun name r =>
      { name := name, firstFrame := r.firstFrame, numFrames := r.numFrames,
        loopFrames := r.loopFrames, fps := r.fps : NamedEntry })
    ORDER raw

/-- The constant `torsoTotal`: over the entries named `TORSO_*`, the sum of
`Math.max(0, numFrames)`. -/
def torsoTotal (named : List NamedEntry) : Int :=
  (named.filter (fun e => "TORSO_".toList.isPrefixOf e.name)).foldl
    (fun acc e => acc + max 0 e.numFrames) 0

/-- One round of the loop `for (const e of named)` on the two tables. -/
def mapEntry (total : Int) (st : Js.ClipMap × Js.ClipMap) (e : NamedEntry) :
    Js.ClipMap × Js.ClipMap :=
  let info (ff : Int) : AnimInfo :=
    { name := e.name, numFrames := e.numFrames, loopFrames := e.loopFrames, fps := e.fps,
      firstFrame := ff }
  let kind := kindFor e.name
  let torso :=
    if kind = Kind.BOTH ∨ kind = Kind.TORSO then st.1.set e.name (some (info e.firstFrame))
    else st.1
  let legs :=
    if kind = Kind.BOTH then st.2.set e.name (some (info e.firstFrame))
    else if kind = Kind.LEGS then st.2.set e.name (some (info (max 0 (e.firstFrame - total))))
    else st.2
  (torso, legs)

/-- The expression `names.find(startsWith(own)) || names.find(startsWith('BOTH_')) || names[0]`
that chooses the stand-in for a missing default clip. -/
def pickAlt (own : List Char) (names : List (List Char)) : Option (List Char) :=
  Js.orElseStr
    (Js.orElseStr (names.find? (fun n => own.isPrefixOf n))
      (names.find? (fun n => "BOTH_".toList.isPrefixOf n)))
    names.head?

/-- The statement `if (!table.has(key)) { const alt = ...; if (alt) table.set(key, table.get(alt)); }`. -/
def aliasDefault (table : Js.ClipMap) (names : List (List Char)) (key own : List Char) :
    Js.ClipMap :=
  if table.has key then table
  else
    match pickAlt own names with
    | some (c :: cs) => table.set key (table.get (c :: cs))
    | _ => table

/-- The method `_fallback()`. -/
def _fallback (self : AnimationCFG) : AnimationCFG :=
  let torsoStand : AnimInfo :=
    { name := "TORSO_STAND".toList, firstFrame := 0, numFrames := 1, loopFrames := 0, fps := 1 }
  let legsIdle : AnimInfo :=
    { name := "LEGS_IDLE".toList, firstFrame := 0, numFrames := 1, loopFrames := 0, fps := 1 }
  { torso := self.torso.set torsoStand.name (some torsoStand)
    legs := self.legs.set legsIdle.name (some legsIdle)
    torsoNames := [torsoStand.name]
    legsNames := [legsIdle.name] }

/-- The method `_parse(text)`. -/
def _parse (self : AnimationCFG) (text : List Char) : AnimationCFG :=
  let raw := scanLines (cleanLines text) []
  if raw.length = 0 then _fallback self
  else
    let named := nameEntries raw
    let total := torsoTotal named
    let tables := named.foldl (mapEntry total) (self.torso, self.legs)
    let torsoNames := ORDER.filter (fun n => tables.1.has n)
    let legsNames := ORDER.filter (fun n => tables.2.has n)
    { torso := aliasDefault tables.1 torsoNames "TORSO_STAND".toList "TORSO_".toList
      legs := aliasDefault tables.2 legsNames "LEGS_IDLE".toList "LEGS_".toList
      torsoNames := torsoNames
      legsNames := legsNames }

/-- The method `getTorso(name)`; `none` stands for `null`. -/
def getTorso (self : AnimationCFG) (name : List Char) : Option AnimInfo := self.torso.get name

/-- The method `getLegs(name)`; `none` stands for `null`. -/
def getLegs (self : AnimationCFG) (name : List Char) : Option AnimInfo := self.legs.get name

/-- The method `getDefaultTorso()`. -/
def getDefaultTorso (self : AnimationCFG) : Option AnimInfo :=
  match self.getTorso "TORSO_STAND".toList with
  | some c => some c
  | none =>
    match self.torsoNames.head? with
    | some (c :: cs) => self.torso.get (c :: cs)
    | _ => none

/-- The method `getDefaultLegs()`. -/
def getDefaultLegs (self : AnimationCFG) : Option AnimInfo :=
  match self.getLegs "LEGS_IDLE".toList with
  | some c => some c
  | none =>
    match self.legsNames.head? with
    | some (c :: cs) => self.legs.get (c :: cs)
    | _ => none

/-- Every entry that the first loop of `_parse` would push if it had no `break`: the
usable entry lines of the text, in order. -/
def usableEntries (text : List Char) : List RawEntry :=
  (cleanLines text).filterMap parseLine

/-- A clip directory with six shared clips, seven `TORSO_*` clips of 120 frames in all and
one `LEGS_*` clip whose line gives the first frame `150`. -/
def rebaseText : List Char :=
  ("// animation config\nsex m\n\n" ++
   "0 30 0 20\n29 1 0 20\n30 30 0 20\n59 1 0 20\n60 29 0 20\n89 1 0 20\n" ++
   "90 20 0 15\n110 20 0 15\n116 20 0 15\n122 20 0 20\n127 20 0 20\n131 10 10 15\n" ++
   "132 10 10 15\n150 8 8 20\t// LEGS_WALKCR\n").toList

/-- The same clip directory, except that the line of `TORSO_STAND` and the line of
`TORSO_STAND2` give the frame counts `40` and `-20`. -/
def negTorsoText : List Char :=
  ("// animation config\nsex m\n\n" ++
   "0 30 0 20\n29 1 0 20\n30 30 0 20\n59 1 0 20\n60 29 0 20\n89 1 0 20\n" ++
   "90 20 0 15\n110 20 0 15\n116 20 0 15\n122 20 0 20\n127 20 0 20\n131 40 10 15\n" ++
   "132 -20 10 15\n150 8 8 20\t// LEGS_WALKCR\n").toList

/-- A clip directory with a single usable line. -/
def oneLineText : List Char := "0 30 0 20\n".toList

end AnimationCFG

/-! ## Crossfades of `Q3_Player` (q3-player.js, lines 35-37 and 164-188) -/

/-- A crossfade record `{ active, from, to, elapsed, duration }`; the fields `from` and
`to` of the source are `fromFrame` and `toFrame` here. -/
structure XFade where
  active : Bool
  fromFrame : Int
  toFrame : Int
  elapsed : ℚ
  duration : ℚ
deriving DecidableEq, Repr

/-- The two crossfade records of a `Q3_Player` object. -/
structure PlayerXFades where
  torsoXFade : XFade
  legsXFade : XFade
deriving DecidableEq, Repr

namespace Q3_Player

/-- The expression `x|0` (the conversion `ToInt32`) on a finite number: truncate towards
zero, then wrap into the signed 32-bit range. -/
def toInt32 (x : ℚ) : Int :=
  let n : Int := if 0 ≤ x then Int.floor x else Int.ceil x
  let m : Int := n % 4294967296
  if m ≥ 2147483648 then m - 4294967296 else m

/-- The crossfade records set up by the constructor. -/
def initialXFades : PlayerXFades :=
  { torsoXFade := { active := false, fromFrame := 0, toFrame := 0, elapsed := 0, duration := 1 / 10 }
    legsXFade := { active := false, fromFrame := 0, toFrame := 0, elapsed := 0, duration := 1 / 10 } }

/-- The method `startTorsoCrossfade(fromFrame, toFrame, duration = 0.1)`; a missing third
argument is `none`. -/
def startTorsoCrossfade (self : PlayerXFades) (fromFrame toFrame : ℚ)
    (duration : Option ℚ) : PlayerXFades :=
  let d : ℚ := duration.getD (1 / 10)
  { self with
    torsoXFade :=
      { active := true
        fromFrame := max 0 (toInt32 fromFrame)
        toFrame := max 0 (toInt32 toFrame)
        elapsed := 0
        duration := max (1 / 1000) d } }

/-- The method `startLegsCrossfade(fromFrame, toFrame, duration = 0.1)`. -/
def startLegsCrossfade (self : PlayerXFades) (fromFrame toFrame : ℚ)
    (duration : Option ℚ) : PlayerXFades :=
  let d : ℚ := duration.getD (1 / 10)
  { self with
    legsXFade :=
      { active := true
        fromFrame := max 0 (toInt32 fromFrame)
        toFrame := max 0 (toInt32 toFrame)
        elapsed := 0
        duration := max (1 / 1000) d } }

/-- The method `updateCrossfades(dt)`. -/
def updateCrossfades (self : PlayerXFades) (dt : ℚ) : PlayerXFades :=
  let torso : XFade :=
    if self.torsoXFade.active then
      let e := self.torsoXFade.elapsed + dt
      { self.torsoXFade with
        elapsed := e
        active := if e ≥ self.torsoXFade.duration then false else self.torsoXFade.active }
    else self.torsoXFade
  let legs : XFade :=
    if self.legsXFade.active then
      let e := self.legsXFade.elapsed + dt
      { self.legsXFade with
        elapsed := e
        active := if e ≥ self.legsXFade.duration then false else self.legsXFade.active }
    else self.legsXFade
  { torsoXFade := torso, legsXFade := legs }

/-- A player in the middle of two crossfades: the torso goes from frame 1 to frame 2 and the
legs from frame 3 to frame 4, each 0.05 s into a crossfade of 0.1 s. -/
def midFade : PlayerXFades :=
  { torsoXFade := { active := true, fromFrame := 1, toFrame := 2, elapsed := 1 / 20, duration := 1 / 10 }
    legsXFade := { active := true, fromFrame := 3, toFrame := 4, elapsed := 1 / 20, duration := 1 / 10 } }

end Q3_Player

/-! ## Crossfade timing (q3-player.js, lines 179-188 and 208-225) -/

/-- The blend factor `Math.min(1, elapsed / duration)` that `drawModel` gives to the node
of an active crossfade. -/
def XFade.blend (x : XFade) : ℚ := min 1 (x.elapsed / x.duration)

/-- One of the two blocks of `updateCrossfades(dt)`, on the record of one region. -/
def XFade.tick (x : XFade) (dt : ℚ) : XFade :=
  if x.active then
    { x with
      elapsed := x.elapsed + dt
      active := if x.elapsed + dt ≥ x.duration then false else x.active }
  else x

namespace Q3_Player

/-- A sequence of calls `updateCrossfades(dt)`, one for each element of `dts`. -/
def updateMany (self : PlayerXFades) (dts : List ℚ) : PlayerXFades :=
  dts.foldl updateCrossfades self

/-- The crossfade records that the constructor, `startTorsoCrossfade`, `startLegsCrossfade`
and `updateCrossfades` can produce; no other code writes these records. -/
inductive Reachable : PlayerXFades → Prop where
  | init : Reachable initialXFades
  | startTorso (s : PlayerXFades) (fromFrame toFrame : ℚ) (duration : Option ℚ) :
      Reachable s → Reachable (startTorsoCrossfade s fromFrame toFrame duration)
  | startLegs (s : PlayerXFades) (fromFrame toFrame : ℚ) (duration : Option ℚ) :
      Reachable s → Reachable (startLegsCrossfade s fromFrame toFrame duration)
  | update (s : PlayerXFades) (dt : ℚ) :
      Reachable s → Reachable (updateCrossfades s dt)

end Q3_Player

/-! ## `Q3_Player.drawModel` and `Q3_Player.setPartVariant` (q3-player.js, lines 191-291)

Only the frame state is modelled: the fields `frame_IDX_cur`, `frameA`, `frameB`, `lerp`
of the nodes, the crossfade records, the selected clips and `frame_IDX_max` of the three
meshes. Matrices, textures and the draw calls are left out. -/

/-- The fields `frame_IDX_cur`, `frameA`, `frameB`, `lerp` of a `Q3_DepNode`. -/
structure NodeFrames where
  frame_IDX_cur : Int
  frameA : Int
  frameB : Int
  lerp : ℚ
deriving DecidableEq, Repr

/-- The three nodes made by `makeNodeSystem`. -/
structure PlayerNodes where
  n_lower : NodeFrames
  n_upper : NodeFrames
  n_head : NodeFrames
deriving DecidableEq, Repr

/-- A weapon with its node and its mesh: `wCount` is `weapon.weapon.getNumberOfFrames()`. -/
structure WeaponFrames where
  wCount : Int
  n_weapon : NodeFrames
deriving DecidableEq, Repr

/-- The frame state of a `Q3_Player`. `nodes` is `none` while `node_system` is `null`;
`weapon` is `none` unless `weapon`, `weapon.n_weapon` and `weapon.weapon` are all set;
`headMax`, `upperMax`, `lowerMax` are `frame_IDX_max` of the three meshes. -/
structure PlayerFrames where
  xfades : PlayerXFades
  torsoAnim : Option AnimInfo
  legsAnim : Option AnimInfo
  headMax : Int
  upperMax : Int
  lowerMax : Int
  nodes : Option PlayerNodes
  weapon : Option WeaponFrames
  variantHead : Int
  variantUpper : Int
  variantLower : Int
deriving DecidableEq, Repr

namespace Q3_Player

/-- The value returned by `Q3_Object.setCurrentFrameIDX(frame_IDX)` (q3-object.js, lines
355-360) for a mesh with the given `frame_IDX_max`. -/
def setCurrentFrameIDX (frame_IDX_max : Int) (frame_IDX : Int) : Int :=
  let cur0 := frame_IDX
  let cur1 := if frame_IDX > frame_IDX_max then frame_IDX_max else cur0
  if frame_IDX < 0 then 0 else cur1

/-- The frame fields of a node right after the `Q3_DepNode` constructor. -/
def newNode : NodeFrames := { frame_IDX_cur := -1, frameA := 0, frameB := 0, lerp := 0 }

/-- The frame part of `drawModel(program, timeUpperSec, timeLowerSec)`, up to the call of
`updateTransformation`. -/
def drawModel (self : PlayerFrames) (timeUpperSec timeLowerSec : ℚ) : PlayerFrames :=
  match self.nodes with
  | none => self
  | some _ =>
    let U := evalAnimFramePair self.torsoAnim timeUpperSec
    let L := evalAnimFramePair self.legsAnim timeLowerSec
    let H : FramePair := { a := 0, b := 0, t := 0 }
    let lower0 : NodeFrames :=
      { frame_IDX_cur := setCurrentFrameIDX self.lowerMax L.a, frameA := L.a, frameB := L.b,
        lerp := L.t }
    let upper0 : NodeFrames :=
      { frame_IDX_cur := setCurrentFrameIDX self.upperMax U.a, frameA := U.a, frameB := U.b,
        lerp := U.t }
    let head0 : NodeFrames :=
      { frame_IDX_cur := setCurrentFrameIDX self.headMax H.a, frameA := H.a, frameB := H.b,
        lerp := H.t }
    let upper1 : NodeFrames :=
      if self.xfades.torsoXFade.active then
        { frame_IDX_cur := self.xfades.torsoXFade.fromFrame
          frameA := self.xfades.torsoXFade.fromFrame
          frameB := self.xfades.torsoXFade.toFrame
          lerp := min 1 (self.xfades.torsoXFade.elapsed / self.xfades.torsoXFade.duration) }
      else upper0
    let lower1 : NodeFrames :=
      if self.xfades.legsXFade.active then
        { frame_IDX_cur := self.xfades.legsXFade.fromFrame
          frameA := self.xfades.legsXFade.fromFrame
          frameB := self.xfades.legsXFade.toFrame
          lerp := min 1 (self.xfades.legsXFade.elapsed / self.xfades.legsXFade.duration) }
      else lower0
    let weapon1 : Option WeaponFrames :=
      match self.weapon with
      | none => none
      | some w =>
        if w.wCount > 0 then
          some { w with
            n_weapon :=
              { frame_IDX_cur := Int.tmod U.a w.wCount
                frameA := Int.tmod U.a w.wCount
                frameB := Int.tmod U.b w.wCount
                lerp := U.t } }
        else
          some { w with n_weapon := { frame_IDX_cur := 0, frameA := 0, frameB := 0, lerp := 0 } }
    { self with
      nodes := some { n_lower := lower1, n_upper := upper1, n_head := head0 }
      weapon := weapon1 }

/-- The method `setPartVariant(part, variant)` once the new mesh is loaded; `newMax` is
`frame_IDX_max` of the new mesh. -/
def setPartVariant (self : PlayerFrames) (part : List Char) (variant : ℚ) (newMax : Int) :
    PlayerFrames :=
  let v : Int := max 0 (min 2 (toInt32 variant))
  if ¬ (part = "head".toList ∨ part = "upper".toList ∨ part = "lower".toList) then self
  else
    let xf : PlayerXFades :=
      if part = "upper".toList then
        let pose : Int := match self.nodes with
          | some n => n.n_upper.frameA
          | none => 0
        startTorsoCrossfade self.xfades pose pose (some (2 / 25))
      else if part = "lower".toList then
        let pose : Int := match self.nodes with
          | some n => n.n_lower.frameA
          | none => 0
        startLegsCrossfade self.xfades pose pose (some (2 / 25))
      else self.xfades
    if part = "head".toList then
      { self with xfades := xf, headMax := newMax, variantHead := v }
    else if part = "upper".toList then
      { self with xfades := xf, upperMax := newMax, variantUpper := v }
    else
      { self with xfades := xf, lowerMax := newMax, variantLower := v }

/-- The frame state at the end of `load()`: the default clips of the clip directory are
selected and `makeNodeSystem` has made the three nodes. -/
def afterLoad (cfg : AnimationCFG) (headMax upperMax lowerMax : Int) : PlayerFrames :=
  { xfades := initialXFades
    torsoAnim := cfg.getDefaultTorso
    legsAnim := cfg.getDefaultLegs
    headMax := headMax
    upperMax := upperMax
    lowerMax := lowerMax
    nodes := some { n_lower := newNode, n_upper := newNode, n_head := newNode }
    weapon := none
    variantHead := 0
    variantUpper := 0
    variantLower := 0 }

/-- A clip directory whose single usable line gives the first frame `-5`. -/
def negFrameText : List Char := "-5 10 0 10\n".toList

/-- A player loaded with `negFrameText`, with meshes of 20 frames. -/
def negFramePlayer : PlayerFrames :=
  afterLoad (AnimationCFG.new._parse negFrameText) 19 19 19

/-- A player loaded with `rebaseText`, with meshes of 200 frames. -/
def samplePlayer : PlayerFrames :=
  afterLoad (AnimationCFG.new._parse AnimationCFG.rebaseText) 199 199 199

end Q3_Player

/-! ## Vectors, tags and tag matrices (q3-object.js, lines 6-25 and 362-419)

JavaScript numbers that hold coordinates are elements of a linearly ordered field `K`
(the real numbers are the intended reading); rounding of doubles and of `Float32Array` is
not modelled. The functions of the `Math` object are a parameter. -/

/-- The functions and constants of the JavaScript `Math` object that the code uses:
`Math.hypot` on three arguments, `Math.sin`, `Math.cos` and `Math.PI`. -/
structure JsMath (K : Type) where
  hypot : K → K → K → K
  sin : K → K
  cos : K → K
  PI : K

/-- The square of `Math.hypot(a, b, c)` is `a² + b² + c²` and the value is not negative. -/
def JsMath.Exact {K : Type} [LinearOrderedField K] (M : JsMath K) : Prop :=
  ∀ a b c : K, 0 ≤ M.hypot a b c ∧ M.hypot a b c * M.hypot a b c = a * a + b * b + c * c

/-- A three-element array `[v0, v1, v2]`. -/
structure Vec3 (K : Type) where
  x : K
  y : K
  z : K
deriving DecidableEq, Repr

/-- A 4x4 matrix. A gl-matrix `mat4` is a column-major array `m`; the entry in row `i` and
column `j` is `m[4*j + i]`. -/
abbrev Mat4 (K : Type) := Matrix (Fin 4) (Fin 4) K

/-- The decoded fields of an `MD3_Tag`. -/
structure MD3_Tag (K : Type) where
  STR_NAME : List Char
  VEC3_ORIGIN : Vec3 K
  VEC3_X_AXIS : Vec3 K
  VEC3_Y_AXIS : Vec3 K
  VEC3_Z_AXIS : Vec3 K
deriving DecidableEq, Repr

/-- The part of a `Q3_Object` that the tag lookup reads: `MD3_FILE.tag_frames`, one array
of tags for each frame; `none` when `MD3_FILE` or `tag_frames` is missing. -/
structure Q3_Object (K : Type) where
  tag_frames : Option (List (List (MD3_Tag K)))

/-- The three vectors `{ X, Y, Z }` returned by `orthonormalizeBasis`. -/
structure Basis3 (K : Type) where
  X : Vec3 K
  Y : Vec3 K
  Z : Vec3 K
deriving DecidableEq, Repr

namespace Vec3

variable {K : Type} [LinearOrderedField K]

/-- The scalar product. -/
def dot (a b : Vec3 K) : K := a.x * b.x + a.y * b.y + a.z * b.z

/-- The vector `[a1*b2 - a2*b1, a2*b0 - a0*b2, a0*b1 - a1*b0]` that `orthonormalizeBasis`
writes out three times. -/
def cross (a b : Vec3 K) : Vec3 K :=
  { x := a.y * b.z - a.z * b.y, y := a.z * b.x - a.x * b.z, z := a.x * b.y - a.y * b.x }

/-- The function `vlen(v)`. -/
def vlen (M : JsMath K) (v : Vec3 K) : K := M.hypot v.x v.y v.z

/-- The function `vnorm(v)`. -/
def vnorm (M : JsMath K) (v : Vec3 K) : Vec3 K :=
  let l := vlen M v
  if l > 1 / 100000000 then { x := v.x / l, y := v.y / l, z := v.z / l }
  else { x := 0, y := 0, z := 1 }

/-- The function `vlerp(a, b, t)`. -/
def vlerp (a b : Vec3 K) (t : K) : Vec3 K :=
  { x := a.x + (b.x - a.x) * t, y := a.y + (b.y - a.y) * t, z := a.z + (b.z - a.z) * t }

/-- The function `orthonormalizeBasis(X, Y, Z)`. -/
def orthonormalizeBasis (M : JsMath K) (X Y Z : Vec3 K) : Basis3 K :=
  let x := vnorm M X
  let z0 := vnorm M Z
  let z1 :=
    if vlen M z0 < 1 / 1000000 then
      let zc := vnorm M (cross x Y)
      if vlen M zc < 1 / 1000000 then { x := 0, y := 0, z := 1 } else zc
    else z0
  let y := vnorm M (cross z1 x)
  let z2 := vnorm M (cross x y)
  { X := x, Y := y, Z := z2 }

end Vec3

namespace Q3_Object

variable {K : Type} [LinearOrderedField K]

/-- The method `getTagByName(tag_name, frame_idx)` with a numeric `frame_idx`; `none` stands
for `null`. -/
def getTagByName (self : Q3_Object K) (tag_name : List Char) (frame_idx : Int) :
    Option (MD3_Tag K) :=
  match self.tag_frames with
  | none => none
  | some tag_frames =>
    let i0 : Int := if frame_idx < 0 then 0 else frame_idx
    let i1 : Int := if i0 ≥ (tag_frames.length : Int) then (tag_frames.length : Int) - 1 else i0
    if i1 < 0 then none
    else
      match tag_frames[i1.toNat]? with
      | none => none
      | some tags => tags.find? (fun tag => tag.STR_NAME = tag_name)

/-- The static method `tagToMat4(tag)`: the columns are the three axes and the origin. -/
def tagToMat4 (tag : MD3_Tag K) : Mat4 K :=
  Matrix.of
    ![![tag.VEC3_X_AXIS.x, tag.VEC3_Y_AXIS.x, tag.VEC3_Z_AXIS.x, tag.VEC3_ORIGIN.x],
      ![tag.VEC3_X_AXIS.y, tag.VEC3_Y_AXIS.y, tag.VEC3_Z_AXIS.y, tag.VEC3_ORIGIN.y],
      ![tag.VEC3_X_AXIS.z, tag.VEC3_Y_AXIS.z, tag.VEC3_Z_AXIS.z, tag.VEC3_ORIGIN.z],
      ![0, 0, 0, 1]]

/-- The method `getLerpedTagMatrix(tag_name, frameA, frameB, t)`; `none` stands for `null`. -/
def getLerpedTagMatrix (M : JsMath K) (self : Q3_Object K) (tag_name : List Char)
    (frameA frameB : Int) (t : K) : Option (Mat4 K) :=
  match getTagByName self tag_name frameA, getTagByName self tag_name frameB with
  | none, none => none
  | some tagA, none => some (tagToMat4 tagA)
  | none, some tagB => some (tagToMat4 tagB)
  | some tagA, some tagB =>
    let xL := Vec3.vlerp tagA.VEC3_X_AXIS tagB.VEC3_X_AXIS t
    let yL := Vec3.vlerp tagA.VEC3_Y_AXIS tagB.VEC3_Y_AXIS t
    let zL := Vec3.vlerp tagA.VEC3_Z_AXIS tagB.VEC3_Z_AXIS t
    let pL := Vec3.vlerp tagA.VEC3_ORIGIN tagB.VEC3_ORIGIN t
    let onb := Vec3.orthonormalizeBasis M xL yL zL
    some (Matrix.of
      ![![onb.X.x, onb.Y.x, onb.Z.x, pL.x],
        ![onb.X.y, onb.Y.y, onb.Z.y, pL.y],
        ![onb.X.z, onb.Y.z, onb.Z.z, pL.z],
        ![0, 0, 0, 1]])

end Q3_Object

/-! ## `Q3_DepNode` (q3-depnode.js)

Node objects live in a store indexed by natural numbers; a reference to a node is its
index and `null` is `none`. The functions of gl-matrix are read as matrix operations:
`mat4.create` and `mat4.identity` give the unit matrix, `mat4.copy` copies, and
`mat4.multiply(out, a, b)` stores the product `a · b`. -/

/-- The fields of a `Q3_DepNode`. -/
structure Q3_DepNode (K : Type) where
  parent_node : Option Nat
  child_nodes : List Nat
  q3_object : Q3_Object K
  tag_name : List Char
  frame_IDX_cur : Int
  frameA : Int
  frameB : Int
  lerp : K
  localMatrix : Mat4 K
  worldMatrix : Mat4 K
  baseTransform : Mat4 K
  characterTransform : Mat4 K
  baseOffsetY : K

/-- All node objects, by index. -/
abbrev NodeStore (K : Type) := Nat → Q3_DepNode K

/-- A call of one of the two methods that change the parent link. -/
inductive LinkCall where
  | setParentNode (node : Nat) (new_parent_node : Option Nat) (tag_name : Option (List Char))
  | setAsTopLevelNode (node : Nat)

namespace Mat4

variable {K : Type} [LinearOrderedField K]

/-- The matrix of `mat4.fromXRotation(out, rad)`: with `s = sin(rad)` and `c = cos(rad)`,
`out[5] = c`, `out[6] = s`, `out[9] = -s`, `out[10] = c`. -/
def fromXRotation (M : JsMath K) (rad : K) : Mat4 K :=
  Matrix.of
    ![![1, 0, 0, 0],
      ![0, M.cos rad, -(M.sin rad), 0],
      ![0, M.sin rad, M.cos rad, 0],
      ![0, 0, 0, 1]]

/-- The matrix of `mat4.fromTranslation(out, [v0, v1, v2])`. -/
def fromTranslation (v : Vec3 K) : Mat4 K :=
  Matrix.of
    ![![1, 0, 0, v.x],
      ![0, 1, 0, v.y],
      ![0, 0, 1, v.z],
      ![0, 0, 0, 1]]

end Mat4

namespace Q3_DepNode

variable {K : Type} [LinearOrderedField K]

/-- The constructor `new Q3_DepNode(q3_object)`. -/
def new (q3_object : Q3_Object K) : Q3_DepNode K :=
  { parent_node := none
    child_nodes := []
    q3_object := q3_object
    tag_name := []
    frame_IDX_cur := -1
    frameA := 0
    frameB := 0
    lerp := 0
    localMatrix := 1
    worldMatrix := 1
    baseTransform := 1
    characterTransform := 1
    baseOffsetY := 0 }

/-- The method `setParentNode(new_parent_node, tag_name)` of the node `self`; a `tag_name`
that is `null` or missing is `none`. -/
def setParentNode (s : NodeStore K) (self : Nat) (new_parent_node : Option Nat)
    (tag_name : Option (List Char)) : NodeStore K :=
  let s1 : NodeStore K :=
    match (s self).parent_node with
    | some p => Function.update s p { s p with child_nodes := (s p).child_nodes.erase self }
    | none => s
  let s2 : NodeStore K :=
    Function.update s1 self
      { s1 self with parent_node := new_parent_node, tag_name := tag_name.getD [] }
  match new_parent_node with
  | some q => Function.update s2 q { s2 q with child_nodes := (s2 q).child_nodes ++ [self] }
  | none => s2

/-- The method `setAsTopLevelNode()` of the node `self`. -/
def setAsTopLevelNode (M : JsMath K) (s : NodeStore K) (self : Nat) : NodeStore K :=
  let s1 : NodeStore K :=
    match (s self).parent_node with
    | some p =>
      let sp : NodeStore K :=
        Function.update s p
          { s p with child_nodes := (s p).child_nodes.filter (fun n => n ≠ self) }
      Function.update sp self { sp self with parent_node := none, tag_name := [] }
    | none => s
  Function.update s1 self
    { s1 self with
      baseTransform := Mat4.fromXRotation M (-M.PI / 2)
      characterTransform := 1 }

/-- The method `setBaseOffsetY(y)` of the node `self`. -/
def setBaseOffsetY (s : NodeStore K) (self : Nat) (y : K) : NodeStore K :=
  Function.update s self { s self with baseOffsetY := y }

/-- The method `setCharacterTransform(transform)` of the node `self`. -/
def setCharacterTransform (s : NodeStore K) (self : Nat) (transform : Option (Mat4 K)) :
    NodeStore K :=
  match transform with
  | some m => Function.update s self { s self with characterTransform := m }
  | none => Function.update s self { s self with characterTransform := 1 }

/-- The value that `updateTransformation` stores in `this.localMatrix` (lines 66-83). -/
def localMatrixOf (M : JsMath K) (s : NodeStore K) (self : Nat) : Mat4 K :=
  let top : Mat4 K :=
    let t := Mat4.fromTranslation { x := 0, y := (s self).baseOffsetY, z := 0 }
    let temp := t * (s self).baseTransform
    temp * (s self).characterTransform
  match (s self).parent_node with
  | some parent =>
    if (s self).tag_name ≠ [] then
      match Q3_Object.getLerpedTagMatrix M (s parent).q3_object (s self).tag_name
          (s parent).frameA (s parent).frameB (s parent).lerp with
      | some mTag => mTag
      | none => 1
    else top
  | none => top

/-- The value that `updateTransformation` stores in `this.worldMatrix` (lines 86-90). -/
def worldMatrixOf (parentWorldMatrix : Option (Mat4 K)) (localMatrix : Mat4 K) : Mat4 K :=
  match parentWorldMatrix with
  | some pw => pw * localMatrix
  | none => localMatrix

/-- The loop `for (const child of this.child_nodes) child.updateTransformation(world)`,
given the function for one child. -/
def forChildren (step : NodeStore K → Nat → Option (NodeStore K)) :
    List Nat → NodeStore K → Option (NodeStore K)
  | [], s => some s
  | child :: rest, s =>
    match step s child with
    | none => none
    | some s1 => forChildren step rest s1

/-- The method `updateTransformation(parentWorldMatrix)` of the node `self`. The recursion
of the source is bounded by `fuel`; `none` means that the bound was reached. -/
def updateTransformation (M : JsMath K) :
    Nat → NodeStore K → Nat → Option (Mat4 K) → Option (NodeStore K)
  | 0, _, _, _ => none
  | fuel + 1, s, self, parentWorldMatrix =>
    let localMatrix := localMatrixOf M s self
    let worldMatrix := worldMatrixOf parentWorldMatrix localMatrix
    let s1 : NodeStore K :=
      Function.update s self
        { s self with localMatrix := localMatrix, worldMatrix := worldMatrix }
    forChildren (fun st child => updateTransformation M fuel st child (some worldMatrix))
      (s1 self).child_nodes s1

/-- The store in which every node is fresh from the constructor. -/
def freshStore (q3_object : Q3_Object K) : NodeStore K := fun _ => new q3_object

/-- One call of `setParentNode` or `setAsTopLevelNode`. -/
def applyCall (M : JsMath K) (s : NodeStore K) : LinkCall → NodeStore K
  | LinkCall.setParentNode node new_parent_node tag_name =>
    setParentNode s node new_parent_node tag_name
  | LinkCall.setAsTopLevelNode node => setAsTopLevelNode M s node

/-- A sequence of calls, in order. -/
def applyCalls (M : JsMath K) (s : NodeStore K) (calls : List LinkCall) : NodeStore K :=
  calls.foldl (applyCall M) s

/-- The link invariant: `c` is in `p.child_nodes` if and only if `c.parent_node` is `p`, and
no child list holds a node twice. -/
def LinkInv (s : NodeStore K) : Prop :=
  (∀ c p : Nat, c ∈ (s p).child_nodes ↔ (s c).parent_node = some p) ∧
  (∀ p : Nat, (s p).child_nodes.Nodup)

/-- The lists of visited nodes of the nodes in a child list, one after the other. -/
def visitAll (visit : Nat → Option (List Nat)) : List Nat → Option (List Nat)
  | [] => some []
  | child :: rest =>
    match visit child, visitAll visit rest with
    | some l, some ls => some (l ++ ls)
    | _, _ => none

/-- The nodes visited by `updateTransformation` from `self`, in the order of the visits;
`none` when the bound `fuel` is reached. The nodes below `self` form a finite tree when
this list exists and holds no node twice. -/
def visitOrder (s : NodeStore K) : Nat → Nat → Option (List Nat)
  | 0, _ => none
  | fuel + 1, self =>
    (visitAll (fun child => visitOrder s fuel child) (s self).child_nodes).map
      (fun ls => self :: ls)

/-- Two states of a node that differ at most in `localMatrix` and `worldMatrix`. -/
def SameButMatrices (a b : Q3_DepNode K) : Prop :=
  b = { a with localMatrix := b.localMatrix, worldMatrix := b.worldMatrix }

end Q3_DepNode

/-! ## Sample tags and nodes -/

namespace Q3_Object

variable {K : Type} [LinearOrderedField K]

/-- A tag `tag_torso` at the origin whose three axes have length two. -/
def scaledTag : MD3_Tag K :=
  { STR_NAME := "tag_torso".toList
    VEC3_ORIGIN := { x := 0, y := 0, z := 0 }
    VEC3_X_AXIS := { x := 2, y := 0, z := 0 }
    VEC3_Y_AXIS := { x := 0, y := 2, z := 0 }
    VEC3_Z_AXIS := { x := 0, y := 0, z := 2 } }

/-- A tag `tag_torso` at `(1, 2, 3)` whose axes are the unit vectors. -/
def unitTag : MD3_Tag K :=
  { STR_NAME := "tag_torso".toList
    VEC3_ORIGIN := { x := 1, y := 2, z := 3 }
    VEC3_X_AXIS := { x := 1, y := 0, z := 0 }
    VEC3_Y_AXIS := { x := 0, y := 1, z := 0 }
    VEC3_Z_AXIS := { x := 0, y := 0, z := 1 } }

/-- A mesh with one frame that holds `scaledTag`. -/
def scaledObject : Q3_Object K := { tag_frames := some [[scaledTag]] }

/-- A mesh with two frames: frame 0 holds `unitTag`, frame 1 holds no tag. -/
def oneSidedObject : Q3_Object K := { tag_frames := some [[unitTag], []] }

/-- A mesh with two frames: frame 0 holds `scaledTag`, frame 1 holds `unitTag`. -/
def twoTagObject : Q3_Object K := { tag_frames := some [[scaledTag], [unitTag]] }

/-- A mesh with one frame that holds no tag. -/
def bareObject : Q3_Object K := { tag_frames := some [[]] }

end Q3_Object

namespace Q3_DepNode

variable {K : Type} [LinearOrderedField K]

/-- The calls of `Q3_Player.makeNodeSystem` (q3-player.js, lines 70-73) on fresh nodes:
node 0 is `n_lower`, node 1 is `n_upper`, node 2 is `n_head`. -/
def makeNodeSystem (M : JsMath K) (obj : Q3_Object K) : NodeStore K :=
  applyCalls M (freshStore obj)
    [LinkCall.setParentNode 0 none none,
     LinkCall.setParentNode 1 (some 0) (some "tag_torso".toList),
     LinkCall.setParentNode 2 (some 1) (some "tag_head".toList),
     LinkCall.setAsTopLevelNode 0]

/-- A store in which node 0 has been made its own parent. -/
def selfParentStore : NodeStore ℚ :=
  setParentNode (freshStore Q3_Object.bareObject) 0 (some 0) (some "tag_torso".toList)

end Q3_DepNode


/-! ## Typed arrays and `Byter` (util/byter.js)

An `ArrayBuffer` is the list of its bytes, each a natural number below 256 (the readers
reduce every byte modulo 256). A typed-array view is the list of its elements. The
elements are read in little-endian byte order, the order of the MD3 format and of the
platforms the viewer runs on. An exception (`RangeError`) is the result `none`. -/

namespace Js

/-- The unsigned value of a little-endian group of bytes. -/
def leValue : List Nat → Nat
  | [] => 0
  | b :: bs => b % 256 + 256 * leValue bs

/-- The two's complement reading of an unsigned value of `bits` bits. -/
def toSigned (bits : Nat) (u : Nat) : Int :=
  if u % 2 ^ bits ≥ 2 ^ (bits - 1) then ((u % 2 ^ bits : Nat) : Int) - 2 ^ bits
  else ((u % 2 ^ bits : Nat) : Int)

/-- The value of a 32-bit pattern read as an IEEE 754 single. Patterns of infinities
and NaN have no value in an ordered field and are read as `0`; no statement below
depends on the value of a decoded float. -/
def float32 (w : Nat) : ℚ :=
  let sign : ℚ := if w / 2 ^ 31 % 2 = 1 then -1 else 1
  let e : Nat := w / 2 ^ 23 % 256
  let m : Nat := w % 2 ^ 23
  if e = 0 then sign * (m : ℚ) * (2 : ℚ) ^ (-149 : Int)
  else if e = 255 then 0
  else sign * ((2 ^ 23 + m : Nat) : ℚ) * (2 : ℚ) ^ ((e : Int) - 150)

/-- The constructor `new TypedArray(buffer, byteOffset, length)` for an element width of
`w` bytes, for integer arguments. It throws a `RangeError` when `byteOffset` is negative
or not a multiple of `w`, when `length` is negative, and when
`byteOffset + length * w` exceeds the length of the buffer. The view is returned as the
list of the byte groups of its elements. -/
def typedArray (buffer : List Nat) (byteOffset : Int) (w : Nat) (length : Int) :
    Option (List (List Nat)) :=
  if byteOffset < 0 ∨ byteOffset % (w : Int) ≠ 0 ∨ length < 0 ∨
      byteOffset + length * (w : Int) > (buffer.length : Int) then none
  else
    some ((List.range length.toNat).map
      (fun i => (buffer.drop (byteOffset.toNat + i * w)).take w))

/-- The signed 32-bit integer that a buffer holds, low byte first, in the four bytes
from byte offset `pos`: the value of a count or an offset that a file declares there. -/
def int32At (buffer : List Nat) (pos : Int) : Int :=
  toSigned 32 (leValue ((buffer.drop pos.toNat).take 4))

/-- The constructor `new Array(n)` for an integer `n`: the length of the new array, or a
`RangeError` for a negative `n`. -/
def newArray (n : Int) : Option Nat :=
  if n < 0 then none else some n.toNat

end Js

/-- The state of a `Byter`: the buffer `bytearray` and the cursor `idx`. The field
`total_size` is the length of `bytearray`. -/
structure Byter where
  bytearray : List Nat
  idx : Int
deriving DecidableEq, Repr

/-- A piece of code that works on the `Byter` of the file being read: from the state
before, either an exception (`none`) or a value and the state after. -/
def Decoder (α : Type) : Type := Byter → Option (α × Byter)

namespace Decoder

/-- Return a value without touching the `Byter`. -/
def ret {α : Type} (a : α) : Decoder α := fun b => some (a, b)

/-- Sequencing: an exception in the first part ends the whole. -/
def andThen {α β : Type} (r : Decoder α) (f : α → Decoder β) : Decoder β := fun b =>
  match r b with
  | none => none
  | some (a, b1) => f a b1

instance : Monad Decoder where
  pure := ret
  bind := andThen

/-- A statement that throws. -/
def throw {α : Type} : Decoder α := fun _ => none

/-- An exception of a computation that does not touch the `Byter`. -/
def lift {α : Type} : Option α → Decoder α
  | none => throw
  | some a => ret a

/-- The loop `for (let i = 0; i < n; i++) arr[i] = new T(...)`: the objects built by `n`
runs of the constructor, in order. -/
def forRange {α : Type} (r : Decoder α) : Nat → Decoder (List α)
  | 0 => ret []
  | n + 1 => andThen r (fun a => andThen (forRange r n) (fun rest => ret (a :: rest)))

/-- The statement `arr = new Array(n)` followed by the loop that fills every slot with
a new object. -/
def arrayOf {α : Type} (n : Int) (r : Decoder α) : Decoder (List α) :=
  andThen (lift (Js.newArray n)) (fun len => forRange r len)

end Decoder

namespace Byter

variable {K : Type} [LinearOrderedField K]

/-- The constructor `new Byter(arraybuffer)` on an `ArrayBuffer`. -/
def new (arraybuffer : List Nat) : Byter := { bytearray := arraybuffer, idx := 0 }

/-- The method `totalSize()`. -/
def totalSize (b : Byter) : Nat := b.bytearray.length

/-- The method `setPos(newpos)`. -/
def setPos (newpos : Int) : Decoder Unit := fun b => some ((), { b with idx := newpos })

/-- The method `getPos()`. -/
def getPos : Decoder Int := fun b => some (b.idx, b)

/-- The common body of the five `get...Array(offset, number_of_elements)` methods for an
element width of `w` bytes: add `offset` to the cursor, build the view at the cursor,
move the cursor past the view. -/
def getArray {α : Type} (w : Nat) (value : List Nat → α) (offset number_of_elements : Int) :
    Decoder (List α) := fun b =>
  let idx := b.idx + offset
  match Js.typedArray b.bytearray idx w number_of_elements with
  | none => none
  | some values =>
    some (values.map value, { b with idx := idx + (w : Int) * number_of_elements })

/-- The method `getFloat32Array(offset, number_of_elements)`. -/
def getFloat32Array (offset number_of_elements : Int) : Decoder (List K) :=
  getArray 4 (fun bs => ((Js.float32 (Js.leValue bs) : ℚ) : K)) offset number_of_elements

/-- The method `getInt32Array(offset, number_of_elements)`. -/
def getInt32Array (offset number_of_elements : Int) : Decoder (List Int) :=
  getArray 4 (fun bs => Js.toSigned 32 (Js.leValue bs)) offset number_of_elements

/-- The method `getInt16Array(offset, number_of_elements)`. -/
def getInt16Array (offset number_of_elements : Int) : Decoder (List Int) :=
  getArray 2 (fun bs => Js.toSigned 16 (Js.leValue bs)) offset number_of_elements

/-- The method `getUint16Array(offset, number_of_elements)`. -/
def getUint16Array (offset number_of_elements : Int) : Decoder (List Nat) :=
  getArray 2 Js.leValue offset number_of_elements

/-- The method `getUint8Array(offset, number_of_elements)`. -/
def getUint8Array (offset number_of_elements : Int) : Decoder (List Nat) :=
  getArray 1 Js.leValue offset number_of_elements

/-- The method `getFloat32Value(offset)`: element `0` of a view of one element. -/
def getFloat32Value (offset : Int) : Decoder K :=
  Decoder.andThen (getFloat32Array offset 1) (fun a => Decoder.ret (a.headD 0))

/-- The method `getInt32Value(offset)`: element `0` of a view of one element. -/
def getInt32Value (offset : Int) : Decoder Int :=
  Decoder.andThen (getInt32Array offset 1) (fun a => Decoder.ret (a.headD 0))

/-- The method `getString(offset, number_of_elements, lastchar)`: the characters with the
codes of the bytes read, cut before the first `"\0"` when `lastchar` is a non-empty
string (`none` is a missing argument). -/
def getString (offset number_of_elements : Int) (lastchar : Option (List Char)) :
    Decoder (List Char) :=
  Decoder.andThen (getUint8Array offset number_of_elements) (fun chars =>
    let str := chars.map Char.ofNat
    match lastchar with
    | some (_ :: _) => Decoder.ret (str.takeWhile (fun c => c ≠ Char.ofNat 0))
    | _ => Decoder.ret str)

/-- The kinds of read that `Byter` offers. -/
inductive ReadKind where
  | int32
  | int16
  | uint16
  | float32
  | uint8
  | string
deriving DecidableEq, Repr

/-- The width in bytes of one element of a read. -/
def ReadKind.width : ReadKind → Nat
  | .int32 => 4
  | .int16 => 2
  | .uint16 => 2
  | .float32 => 4
  | .uint8 => 1
  | .string => 1

/-- The cursor after the read of `n` elements of the given kind with offset `0`, or
`none` when the read throws and so returns no value. -/
def cursorAfter (k : ReadKind) (n : Int) (b : Byter) : Option Int :=
  match k with
  | .int32 => (getInt32Array 0 n b).map (fun r => r.2.idx)
  | .int16 => (getInt16Array 0 n b).map (fun r => r.2.idx)
  | .uint16 => (getUint16Array 0 n b).map (fun r => r.2.idx)
  | .float32 => ((getFloat32Array 0 n : Decoder (List ℚ)) b).map (fun r => r.2.idx)
  | .uint8 => (getUint8Array 0 n b).map (fun r => r.2.idx)
  | .string => (getString 0 n (some [Char.ofNat 0]) b).map (fun r => r.2.idx)

end Byter

/-! ## The MD3 reader (md3/md3-header.js, md3-frame.js, md3-tag.js, md3-tagframe.js,
md3-shader.js, md3-surfaceframe.js, md3-surface.js, md3-file.js)

Every constructor reads at the cursor of the `Byter` of the file. The back references
`md3_reader`, `parent_surface`, `parent_tag_frame` and the field `INDEX` of the objects
are left out. A `Float32Array` of three elements is a `Vec3`. -/

/-- The fields of an `MD3_Header`. -/
structure MD3_Header where
  _start_pos : Int
  IDENT : List Char
  VERSION : Int
  NAME : List Char
  S32_FLAGS : Int
  S32_NUM_FRAMES : Int
  S32_NUM_TAGS : Int
  S32_NUM_SURFACES : Int
  S32_NUM_SKINS : Int
  S32_OFS_FRAMES : Int
  S32_OFS_TAGS : Int
  S32_OFS_SURFACES : Int
  S32_OFS_EOF : Int
  _end_pos : Int
deriving DecidableEq, Repr

/-- The fields of an `MD3_Frame`. -/
structure MD3_Frame (K : Type) where
  _start_pos : Int
  VEC3_MIN_BOUNDS : Vec3 K
  VEC3_MAX_BOUNDS : Vec3 K
  VEC3_LOCAL_ORIGIN : Vec3 K
  F32_RADIUS : K
  STR_NAME : List Char
  _end_pos : Int

/-- The fields of an `MD3_TagFrame`. Its tags are the `MD3_Tag` records of the tag
lookup, which hold the decoded fields of a tag and not its two cursor fields. -/
structure MD3_TagFrame (K : Type) where
  _start_pos : Int
  tags : List (MD3_Tag K)
  _end_pos : Int

/-- The fields of an `MD3_Shader`. -/
structure MD3_Shader where
  _start_pos : Int
  STR_NAME : List Char
  S32_SHADER_INDEX : Int
  _end_pos : Int
deriving DecidableEq, Repr

/-- The fields of an `MD3_SurfaceFrame`. -/
structure MD3_SurfaceFrame (K : Type) where
  num_vertices : Int
  _start_pos : Int
  xyz_normals : List Int
  _end_pos : Int
  vertexbuffer_xyzn : List K

/-- The fields of an `MD3_Surface`. -/
structure MD3_Surface (K : Type) where
  _start_pos : Int
  STR_IDENT : List Char
  STR_NAME : List Char
  S32_FLAGS : Int
  S32_NUM_FRAMES : Int
  S32_NUM_SHADERS : Int
  S32_NUM_VERTS : Int
  S32_NUM_TRIANGLES : Int
  S32_OFS_TRIANGLES : Int
  S32_OFS_SHADERS : Int
  S32_OFS_ST : Int
  S32_OFS_XYZNORMAL : Int
  S32_OFS_END : Int
  _end_pos : Int
  shaders : List MD3_Shader
  S32_3_INDICES : List Int
  Uint16_3_INDICES : List Nat
  S32_2_ST : List K
  surface_frames : List (MD3_SurfaceFrame K)

/-- The fields that `loadFileContent` sets on an `MD3_File`. -/
structure MD3_File (K : Type) where
  header : MD3_Header
  frames : List (MD3_Frame K)
  tag_frames : List (MD3_TagFrame K)
  surfaces : List (MD3_Surface K)

namespace Vec3

variable {K : Type} [LinearOrderedField K]

/-- The `Float32Array` of three elements `[v0, v1, v2]` as a `Vec3`. -/
def ofArray (a : List K) : Vec3 K :=
  { x := a.getD 0 0, y := a.getD 1 0, z := a.getD 2 0 }

end Vec3

namespace MD3_Header

/-- The constant `MD3_Header.MAX_QPATH`. -/
def MAX_QPATH : Int := 64

/-- The constant `MD3_Header.MAX_IDENT`. -/
def MAX_IDENT : Int := 4

/-- The constructor `new MD3_Header(md3_reader)`. -/
def new : Decoder MD3_Header := do
  let start_pos ← Byter.getPos
  let ident ← Byter.getString 0 MAX_IDENT none
  let version ← Byter.getInt32Value 0
  let name ← Byter.getString 0 MAX_QPATH (some [Char.ofNat 0])
  let flags ← Byter.getInt32Value 0
  let num_frames ← Byter.getInt32Value 0
  let num_tags ← Byter.getInt32Value 0
  let num_surfaces ← Byter.getInt32Value 0
  let num_skins ← Byter.getInt32Value 0
  let ofs_frames ← Byter.getInt32Value 0
  let ofs_tags ← Byter.getInt32Value 0
  let ofs_surfaces ← Byter.getInt32Value 0
  let ofs_eof ← Byter.getInt32Value 0
  let end_pos ← Byter.getPos
  pure
    { _start_pos := start_pos, IDENT := ident, VERSION := version, NAME := name,
      S32_FLAGS := flags, S32_NUM_FRAMES := num_frames, S32_NUM_TAGS := num_tags,
      S32_NUM_SURFACES := num_surfaces, S32_NUM_SKINS := num_skins,
      S32_OFS_FRAMES := ofs_frames, S32_OFS_TAGS := ofs_tags,
      S32_OFS_SURFACES := ofs_surfaces, S32_OFS_EOF := ofs_eof, _end_pos := end_pos }

end MD3_Header

namespace MD3_Frame

variable {K : Type} [LinearOrderedField K]

/-- The constant `MD3_Frame.STR_NAME_MAX_LENGTH`. -/
def STR_NAME_MAX_LENGTH : Int := 16

/-- The constructor `new MD3_Frame(md3_reader, index)`. -/
def new : Decoder (MD3_Frame K) := do
  let start_pos ← Byter.getPos
  let min_bounds ← Byter.getFloat32Array 0 3
  let max_bounds ← Byter.getFloat32Array 0 3
  let local_origin ← Byter.getFloat32Array 0 3
  let radius ← Byter.getFloat32Value 0
  let name ← Byter.getString 0 STR_NAME_MAX_LENGTH (some [Char.ofNat 0])
  let end_pos ← Byter.getPos
  pure
    { _start_pos := start_pos, VEC3_MIN_BOUNDS := Vec3.ofArray min_bounds,
      VEC3_MAX_BOUNDS := Vec3.ofArray max_bounds,
      VEC3_LOCAL_ORIGIN := Vec3.ofArray local_origin, F32_RADIUS := radius,
      STR_NAME := name, _end_pos := end_pos }

end MD3_Frame

namespace MD3_Tag

variable {K : Type} [LinearOrderedField K]

/-- The constant `MD3_Tag.MAX_QPATH`. -/
def MAX_QPATH : Int := 64

/-- The constructor `new MD3_Tag(md3_reader, parent_tag_frame, index)`. -/
def new : Decoder (MD3_Tag K) := do
  let name ← Byter.getString 0 MAX_QPATH (some [Char.ofNat 0])
  let origin ← Byter.getFloat32Array 0 3
  let x_axis ← Byter.getFloat32Array 0 3
  let y_axis ← Byter.getFloat32Array 0 3
  let z_axis ← Byter.getFloat32Array 0 3
  pure
    { STR_NAME := name, VEC3_ORIGIN := Vec3.ofArray origin,
      VEC3_X_AXIS := Vec3.ofArray x_axis, VEC3_Y_AXIS := Vec3.ofArray y_axis,
      VEC3_Z_AXIS := Vec3.ofArray z_axis }

end MD3_Tag

namespace MD3_TagFrame

variable {K : Type} [LinearOrderedField K]

/-- The constructor `new MD3_TagFrame(md3_reader, index)`, which reads
`md3_reader.header.S32_NUM_TAGS` tags. -/
def new (header : MD3_Header) : Decoder (MD3_TagFrame K) := do
  let start_pos ← Byter.getPos
  let tags ← Decoder.arrayOf header.S32_NUM_TAGS MD3_Tag.new
  let end_pos ← Byter.getPos
  pure { _start_pos := start_pos, tags := tags, _end_pos := end_pos }

end MD3_TagFrame

namespace MD3_Shader

/-- The constant `MD3_Shader.MAX_QPATH`. -/
def MAX_QPATH : Int := 64

/-- The constructor `new MD3_Shader(md3_reader, parent_surface, index)`. -/
def new : Decoder MD3_Shader := do
  let start_pos ← Byter.getPos
  let name ← Byter.getString 0 MAX_QPATH (some [Char.ofNat 0])
  let shader_index ← Byter.getInt32Value 0
  let end_pos ← Byter.getPos
  pure
    { _start_pos := start_pos, STR_NAME := name, S32_SHADER_INDEX := shader_index,
      _end_pos := end_pos }

end MD3_Shader

namespace MD3_SurfaceFrame

variable {K : Type} [LinearOrderedField K]

/-- The constant `MD3_SurfaceFrame.MD3_XYZ_SCALE`. -/
def MD3_XYZ_SCALE : K := 64

/-- The constant `MD3_SurfaceFrame.MD3_XYZ_SCALE_INV`. -/
def MD3_XYZ_SCALE_INV : K := 1 / MD3_XYZ_SCALE

/-- The byte `(n >> 8) & 0xFF`. On a 32-bit integer `>> 8` is the floor of the quotient
by 256 and `& 0xFF` is the residue modulo 256. -/
def latByte (n : Int) : Int := (n / 256) % 256

/-- The byte `n & 0xFF`. -/
def lngByte (n : Int) : Int := n % 256

/-- The angle `lat = ((n >> 8) & 0xFF) * (2 * Math.PI / 255)`. -/
def lat (M : JsMath K) (n : Int) : K := (latByte n : K) * (2 * M.PI / 255)

/-- The angle `lng = (n & 0xFF) * (2 * Math.PI / 255)`. -/
def lng (M : JsMath K) (n : Int) : K := (lngByte n : K) * (2 * M.PI / 255)

/-- The normal decoded from the packed value `n`:
`[cos(lat) * sin(lng), sin(lat) * sin(lng), cos(lng)]`. -/
def normal (M : JsMath K) (n : Int) : Vec3 K :=
  { x := M.cos (lat M n) * M.sin (lng M n)
    y := M.sin (lat M n) * M.sin (lng M n)
    z := M.cos (lng M n) }

/-- The six floats that one pass of the unpacking loop stores for vertex `i`. -/
def unpackVertex (M : JsMath K) (xyz_normals : List Int) (i : Nat) : List K :=
  let idx_src := i * 4
  let x := xyz_normals.getD (idx_src + 0) 0
  let y := xyz_normals.getD (idx_src + 1) 0
  let z := xyz_normals.getD (idx_src + 2) 0
  let n := xyz_normals.getD (idx_src + 3) 0
  [(x : K) * MD3_XYZ_SCALE_INV, (y : K) * MD3_XYZ_SCALE_INV, (z : K) * MD3_XYZ_SCALE_INV,
    (normal M n).x, (normal M n).y, (normal M n).z]

/-- The constructor `new MD3_SurfaceFrame(md3_reader, parent_surface, index)`;
`S32_NUM_VERTS` is the field of the parent surface. `new Float32Array(n)` throws for a
negative `n`, like `new Array(n)`; the loop fills all of its `num_vertices * 6` slots. -/
def new (M : JsMath K) (S32_NUM_VERTS : Int) : Decoder (MD3_SurfaceFrame K) := do
  let num_vertices := S32_NUM_VERTS
  let start_pos ← Byter.getPos
  let xyz_normals ← Byter.getInt16Array 0 (num_vertices * 4)
  let end_pos ← Byter.getPos
  let _ ← Decoder.lift (Js.newArray (num_vertices * 6))
  let vertexbuffer_xyzn :=
    (List.range num_vertices.toNat).flatMap (unpackVertex M xyz_normals)
  pure
    { num_vertices := num_vertices, _start_pos := start_pos, xyz_normals := xyz_normals,
      _end_pos := end_pos, vertexbuffer_xyzn := vertexbuffer_xyzn }

end MD3_SurfaceFrame

namespace MD3_Surface

variable {K : Type} [LinearOrderedField K]

/-- The constant `MD3_Surface.MAX_QPATH`. -/
def MAX_QPATH : Int := 64

/-- The constructor `new MD3_Surface(md3_reader, index)`. `new Uint16Array(n)` throws
for a negative `n`; a store into it keeps the low 16 bits of the value. -/
def new (M : JsMath K) : Decoder (MD3_Surface K) := do
  let start_pos ← Byter.getPos
  let ident ← Byter.getString 0 4 none
  let name ← Byter.getString 0 MAX_QPATH (some [Char.ofNat 0])
  let flags ← Byter.getInt32Value 0
  let num_frames ← Byter.getInt32Value 0
  let num_shaders ← Byter.getInt32Value 0
  let num_verts ← Byter.getInt32Value 0
  let num_triangles ← Byter.getInt32Value 0
  let ofs_triangles ← Byter.getInt32Value 0
  let ofs_shaders ← Byter.getInt32Value 0
  let ofs_st ← Byter.getInt32Value 0
  let ofs_xyznormal ← Byter.getInt32Value 0
  let ofs_end ← Byter.getInt32Value 0
  let end_pos ← Byter.getPos
  Byter.setPos (start_pos + ofs_shaders)
  let shaders ← Decoder.arrayOf num_shaders MD3_Shader.new
  Byter.setPos (start_pos + ofs_triangles)
  let num_indices := num_triangles * 3
  let indices ← Byter.getInt32Array 0 num_indices
  let len16 ← Decoder.lift (Js.newArray num_indices)
  let indices16 := (List.range len16).map (fun i => ((indices.getD i 0) % 65536).toNat)
  Byter.setPos (start_pos + ofs_st)
  let st ← Byter.getFloat32Array 0 (num_verts * 2)
  Byter.setPos (start_pos + ofs_xyznormal)
  let surface_frames ← Decoder.arrayOf num_frames (MD3_SurfaceFrame.new M num_verts)
  pure
    { _start_pos := start_pos, STR_IDENT := ident, STR_NAME := name, S32_FLAGS := flags,
      S32_NUM_FRAMES := num_frames, S32_NUM_SHADERS := num_shaders,
      S32_NUM_VERTS := num_verts, S32_NUM_TRIANGLES := num_triangles,
      S32_OFS_TRIANGLES := ofs_triangles, S32_OFS_SHADERS := ofs_shaders,
      S32_OFS_ST := ofs_st, S32_OFS_XYZNORMAL := ofs_xyznormal, S32_OFS_END := ofs_end,
      _end_pos := end_pos, shaders := shaders, S32_3_INDICES := indices,
      Uint16_3_INDICES := indices16, S32_2_ST := st, surface_frames := surface_frames }

/-- The cursor after the last vertex block of a surface:
`_start_pos + S32_OFS_XYZNORMAL + S32_NUM_FRAMES * S32_NUM_VERTS * 8`. -/
def endOfVertexBlocks (s : MD3_Surface K) : Int :=
  s._start_pos + s.S32_OFS_XYZNORMAL + s.S32_NUM_FRAMES * s.S32_NUM_VERTS * 8

end MD3_Surface

namespace MD3_File

variable {K : Type} [LinearOrderedField K]

/-- The body of `loadFileContent` after the `Byter` is made. -/
def readContent (M : JsMath K) : Decoder (MD3_File K) := do
  let header ← MD3_Header.new
  Byter.setPos header.S32_OFS_FRAMES
  let frames ← Decoder.arrayOf header.S32_NUM_FRAMES MD3_Frame.new
  Byter.setPos header.S32_OFS_TAGS
  let tag_frames ← Decoder.arrayOf header.S32_NUM_FRAMES (MD3_TagFrame.new header)
  Byter.setPos header.S32_OFS_SURFACES
  let surfaces ← Decoder.arrayOf header.S32_NUM_SURFACES (MD3_Surface.new M)
  pure { header := header, frames := frames, tag_frames := tag_frames, surfaces := surfaces }

/-- The method `loadFileContent(arraybuffer)`: the fields it sets, or `none` when it
throws. -/
def loadFileContent (M : JsMath K) (arraybuffer : List Nat) : Option (MD3_File K) :=
  (readContent M (Byter.new arraybuffer)).map Prod.fst

/-- The four bytes of a 32-bit value, low byte first. -/
def int32Bytes (v : Nat) : List Nat :=
  [v % 256, v / 256 % 256, v / 65536 % 256, v / 16777216 % 256]

/-- The bytes of the identifier `IDP3`. -/
def identBytes : List Nat := [73, 68, 80, 51]

/-- A file with `headerFrames` frames of one tag and with one surface of one shader, one
triangle and three vertices, whose surface header declares `surfaceFrames` frames and is
followed by that many vertex blocks. All names, floats and vertices are zero bytes. -/
def sampleBuffer (headerFrames surfaceFrames : Nat) : List Nat :=
  identBytes ++ int32Bytes 15 ++ List.replicate 64 0 ++ int32Bytes 0 ++
    int32Bytes headerFrames ++ int32Bytes 1 ++ int32Bytes 1 ++ int32Bytes 0 ++
    int32Bytes 108 ++ int32Bytes (108 + 56 * headerFrames) ++
    int32Bytes (108 + 168 * headerFrames) ++
    int32Bytes (108 + 168 * headerFrames + 212 + 24 * surfaceFrames) ++
  List.replicate (56 * headerFrames) 0 ++
  List.replicate (112 * headerFrames) 0 ++
  (identBytes ++ List.replicate 64 0 ++ int32Bytes 0 ++
    int32Bytes surfaceFrames ++ int32Bytes 1 ++ int32Bytes 3 ++ int32Bytes 1 ++
    int32Bytes 176 ++ int32Bytes 108 ++ int32Bytes 188 ++ int32Bytes 212 ++
    int32Bytes (212 + 24 * surfaceFrames)) ++
  List.replicate 68 0 ++
  (int32Bytes 0 ++ int32Bytes 1 ++ int32Bytes 2) ++
  List.replicate 24 0 ++
  List.replicate (24 * surfaceFrames) 0

/-- A file with one frame, no tags and two surfaces. Each surface has one frame, one
vertex, no shader and no triangle, and takes 124 bytes: its header, one pair of texture
coordinates and one vertex block. Both surface headers declare `ofsEnd` as their
`S32_OFS_END`. -/
def twoSurfaceBuffer (ofsEnd : Nat) : List Nat :=
  identBytes ++ int32Bytes 15 ++ List.replicate 64 0 ++ int32Bytes 0 ++
    int32Bytes 1 ++ int32Bytes 0 ++ int32Bytes 2 ++ int32Bytes 0 ++
    int32Bytes 108 ++ int32Bytes 164 ++ int32Bytes 164 ++ int32Bytes 412 ++
  List.replicate 56 0 ++
  (identBytes ++ List.replicate 64 0 ++ int32Bytes 0 ++
    int32Bytes 1 ++ int32Bytes 0 ++ int32Bytes 1 ++ int32Bytes 0 ++
    int32Bytes 108 ++ int32Bytes 108 ++ int32Bytes 108 ++ int32Bytes 116 ++
    int32Bytes ofsEnd) ++
  List.replicate 16 0 ++
  (identBytes ++ List.replicate 64 0 ++ int32Bytes 0 ++
    int32Bytes 1 ++ int32Bytes 0 ++ int32Bytes 1 ++ int32Bytes 0 ++
    int32Bytes 108 ++ int32Bytes 108 ++ int32Bytes 108 ++ int32Bytes 116 ++
    int32Bytes ofsEnd) ++
  List.replicate 16 0

end MD3_File

namespace MD3_Surface

variable {K : Type} [LinearOrderedField K]

/-- What holds of a surface object once its constructor has returned on a buffer of `L`
bytes, in one statement for the lemmas below: the header of 108 bytes and every
non-empty section lie inside the buffer, and every array has the declared length. -/
def ReadFacts (L : Int) (s : MD3_Surface K) : Prop :=
  (0 ≤ s._start_pos ∧ s._start_pos + 108 ≤ L ∧ s._end_pos = s._start_pos + 108) ∧
  (0 ≤ s.S32_NUM_SHADERS ∧ (s.shaders.length : Int) = s.S32_NUM_SHADERS ∧
    (0 < s.S32_NUM_SHADERS → 0 ≤ s._start_pos + s.S32_OFS_SHADERS ∧
      s._start_pos + s.S32_OFS_SHADERS + s.S32_NUM_SHADERS * 68 ≤ L)) ∧
  (0 ≤ s.S32_NUM_TRIANGLES ∧ (s.S32_3_INDICES.length : Int) = s.S32_NUM_TRIANGLES * 3 ∧
    (s.Uint16_3_INDICES.length : Int) = s.S32_NUM_TRIANGLES * 3 ∧
    0 ≤ s._start_pos + s.S32_OFS_TRIANGLES ∧
    s._start_pos + s.S32_OFS_TRIANGLES + s.S32_NUM_TRIANGLES * 12 ≤ L) ∧
  (0 ≤ s.S32_NUM_VERTS ∧ (s.S32_2_ST.length : Int) = s.S32_NUM_VERTS * 2 ∧
    0 ≤ s._start_pos + s.S32_OFS_ST ∧
    s._start_pos + s.S32_OFS_ST + s.S32_NUM_VERTS * 8 ≤ L) ∧
  (0 ≤ s.S32_NUM_FRAMES ∧ (s.surface_frames.length : Int) = s.S32_NUM_FRAMES ∧
    (∀ sf ∈ s.surface_frames,
      (sf.vertexbuffer_xyzn.length : Int) = s.S32_NUM_VERTS * 6 ∧
      (sf.xyz_normals.length : Int) = s.S32_NUM_VERTS * 4) ∧
    (0 < s.S32_NUM_FRAMES → 0 < s.S32_NUM_VERTS →
      0 ≤ s._start_pos + s.S32_OFS_XYZNORMAL ∧
      s._start_pos + s.S32_OFS_XYZNORMAL + s.S32_NUM_FRAMES * (s.S32_NUM_VERTS * 8) ≤ L))

/-- The counts and offsets of a surface object are the integers that the buffer holds
behind the identifier and the name of the surface header, from byte 72 of the surface
on. -/
def FieldsAt (buffer : List Nat) (s : MD3_Surface K) : Prop :=
  s.S32_NUM_FRAMES = Js.int32At buffer (s._start_pos + 72) ∧
  s.S32_NUM_SHADERS = Js.int32At buffer (s._start_pos + 76) ∧
  s.S32_NUM_VERTS = Js.int32At buffer (s._start_pos + 80) ∧
  s.S32_NUM_TRIANGLES = Js.int32At buffer (s._start_pos + 84) ∧
  s.S32_OFS_TRIANGLES = Js.int32At buffer (s._start_pos + 88) ∧
  s.S32_OFS_SHADERS = Js.int32At buffer (s._start_pos + 92) ∧
  s.S32_OFS_ST = Js.int32At buffer (s._start_pos + 96) ∧
  s.S32_OFS_XYZNORMAL = Js.int32At buffer (s._start_pos + 100) ∧
  s.S32_OFS_END = Js.int32At buffer (s._start_pos + 104)

end MD3_Surface

/-! ## Binary64 arithmetic and `Q3_Player.evalAnimFramePair` on doubles

A finite double is the rational number it stands for. A product, sum, difference or
quotient of doubles is the exact result rounded to the nearest double, ties to the even
significand (IEEE 754 round-to-nearest-even, the only rounding mode of JavaScript).
Overflow to `Infinity` is not modelled: the functions below are the arithmetic of
JavaScript for results below `2^1024` in magnitude. -/

namespace Js

/-- The nearest integer to `q`, a tie going to the even one. -/
def roundHalfEven (q : ℚ) : Int :=
  let f : Int := Int.floor q
  let r : ℚ := q - (f : ℚ)
  if r < 1 / 2 then f
  else if 1 / 2 < r then f + 1
  else if f % 2 = 0 then f else f + 1

/-- The number of binary digits of `n`, computed with `fuel` halvings at most; `fuel = n`
is always enough. -/
def bitLen : Nat → Nat → Nat
  | 0, _ => 0
  | fuel + 1, n => if n = 0 then 0 else bitLen fuel (n / 2) + 1

/-- The integer `e` with `2^e <= |x| < 2^(e+1)`, for `x` other than `0`: the difference
of the bit lengths of numerator and denominator, or one less. -/
def floorLog2 (x : ℚ) : Int :=
  let e0 : Int :=
    (bitLen x.num.natAbs x.num.natAbs : Int) - (bitLen x.den x.den : Int)
  if (2 : ℚ) ^ e0 ≤ |x| then e0 else e0 - 1

/-- The double nearest to the rational `x`: a significand of 53 bits, or, in the
subnormal range, a multiple of `2^-1074`. -/
def round64 (x : ℚ) : ℚ :=
  if x = 0 then 0
  else
    let e : Int := max (floorLog2 x - 52) (-1074)
    (roundHalfEven (x / (2 : ℚ) ^ e) : ℚ) * (2 : ℚ) ^ e

/-- The product `a * b` of two doubles. -/
def mul64 (a b : ℚ) : ℚ := round64 (a * b)

/-- The sum `a + b` of two doubles. -/
def add64 (a b : ℚ) : ℚ := round64 (a + b)

/-- The difference `a - b` of two doubles. -/
def sub64 (a b : ℚ) : ℚ := round64 (a - b)

/-- The quotient `a / b` of two doubles, for `b` other than `0`. -/
def div64 (a b : ℚ) : ℚ := round64 (a / b)

end Js

namespace Q3_Player

/-- The static method `evalAnimFramePair(anim, timeSec)` for a time that is a double:
the product `timeSec * fps` and the difference `fExact - i` are binary64 operations. The
numbers that hold integers (`fps`, `total`, `i`, the frames) are `Int`, exact as long as
they stay below `2^53` in magnitude. -/
def evalAnimFramePair64 (anim : Option AnimInfo) (timeSec : ℚ) : FramePair :=
  match anim with
  | none => { a := 0, b := 0, t := 0 }
  | some anim =>
    let fps : Int := max 1 anim.fps
    let total : Int := max 1 anim.numFrames
    let fExact : ℚ := Js.mul64 timeSec fps
    let i : Int := Int.floor fExact
    let frac : ℚ := Js.sub64 fExact i
    let first : Int := anim.firstFrame
    let lastIndex : Int := total - 1
    if anim.loopFrames ≤ 0 then
      if i ≥ lastIndex ∨ total = 1 then
        let f := first + lastIndex
        { a := f, b := f, t := 0 }
      else
        { a := first + i, b := first + (i + 1), t := frac }
    else
      let loopFrames : Int := max 1 anim.loopFrames
      let loopStart : Int := total - loopFrames
      if i ≤ lastIndex then
        { a := first + i
          b := if i < lastIndex then first + i + 1 else first + loopStart
          t := frac }
      else
        let k : Int := Int.tmod (i - lastIndex - 1) loopFrames
        { a := first + loopStart + k
          b := first + loopStart + Int.tmod (k + 1) loopFrames
          t := frac }

/-- A non-looping clip of 30 frames at 25 frames per second. -/
def clip25 : AnimInfo :=
  { name := "TORSO_ATTACK".toList, numFrames := 30, loopFrames := 0, fps := 25, firstFrame := 0 }

/-- A looping clip of 10 frames at 10 frames per second whose last two frames cycle. -/
def loopClip10 : AnimInfo :=
  { name := "LEGS_WALK".toList, numFrames := 10, loopFrames := 2, fps := 10, firstFrame := 0 }

/-- A non-looping clip of 10 frames at 10 frames per second. -/
def clip10 : AnimInfo :=
  { name := "TORSO_DROP".toList, numFrames := 10, loopFrames := 0, fps := 10, firstFrame := 0 }

end Q3_Player
/-! ## Theorems about `Q3_Player.evalAnimFramePair` -/

namespace Q3_Player

/-- Unfolding of the non-looping branch when the clip has at least one frame and
a positive frame rate. -/
theorem evalAnimFramePair_noloop (c : AnimInfo) (t : ℚ)
    (hloop : c.loopFrames = 0) (hn : 1 ≤ c.numFrames) (hfps : 1 ≤ c.fps) :
    evalAnimFramePair (some c) t =
      if Int.floor (t * (c.fps : ℚ)) ≥ c.numFrames - 1 ∨ c.numFrames = 1 then
        { a := c.firstFrame + (c.numFrames - 1), b := c.firstFrame + (c.numFrames - 1), t := 0 }
      else
        { a := c.firstFrame + Int.floor (t * (c.fps : ℚ))
          b := c.firstFrame + (Int.floor (t * (c.fps : ℚ)) + 1)
          t := t * (c.fps : ℚ) - (Int.floor (t * (c.fps : ℚ)) : ℚ) } := by
  simp only [evalAnimFramePair, max_eq_right hfps, max_eq_right hn, hloop, le_refl, if_true]

/-- Unfolding of the looping branch, for every clip with `loopFrames > 0`, in terms
of the clamped rate `max 1 fps` and the clamped length `max 1 numFrames`. -/
theorem evalAnimFramePair_loop (c : AnimInfo) (t : ℚ) (hloop : 0 < c.loopFrames) :
    evalAnimFramePair (some c) t =
      if Int.floor (t * ((max 1 c.fps : Int) : ℚ)) ≤ max 1 c.numFrames - 1 then
        { a := c.firstFrame + Int.floor (t * ((max 1 c.fps : Int) : ℚ))
          b := if Int.floor (t * ((max 1 c.fps : Int) : ℚ)) < max 1 c.numFrames - 1
               then c.firstFrame + Int.floor (t * ((max 1 c.fps : Int) : ℚ)) + 1
               else c.firstFrame + (max 1 c.numFrames - c.loopFrames)
          t := t * ((max 1 c.fps : Int) : ℚ) - (Int.floor (t * ((max 1 c.fps : Int) : ℚ)) : ℚ) }
      else
        { a := c.firstFrame + (max 1 c.numFrames - c.loopFrames) +
                 Int.tmod (Int.floor (t * ((max 1 c.fps : Int) : ℚ)) - (max 1 c.numFrames - 1) - 1)
                   c.loopFrames
          b := c.firstFrame + (max 1 c.numFrames - c.loopFrames) +
                 Int.tmod
                   (Int.tmod (Int.floor (t * ((max 1 c.fps : Int) : ℚ)) - (max 1 c.numFrames - 1) - 1)
                     c.loopFrames + 1)
                   c.loopFrames
          t := t * ((max 1 c.fps : Int) : ℚ) - (Int.floor (t * ((max 1 c.fps : Int) : ℚ)) : ℚ) } := by
  have h1 : ¬ c.loopFrames ≤ 0 := by omega
  have h2 : max 1 c.loopFrames = c.loopFrames := max_eq_right (by omega)
  simp only [evalAnimFramePair, h1, if_false, h2]

/-- C2: for a clip with `loopFrames == 0`, `numFrames >= 2`, `fps >= 1` and a time `t`
whose frame index `i = floor(t*fps)` satisfies `i < numFrames - 1`, the result is
`(firstFrame + i, firstFrame + i + 1, t*fps - i)`; the clip
`{firstFrame 10, numFrames 5, loopFrames 0, fps 10}` gives `(13, 14, 0.5)` at `t = 0.35`
and `(14, 14, 0)` at `t = 1.0`. -/
theorem evalAnimFramePair_noloop_inrange :
    (∀ (c : AnimInfo) (t : ℚ), c.loopFrames = 0 → 2 ≤ c.numFrames → 1 ≤ c.fps →
      Int.floor (t * (c.fps : ℚ)) < c.numFrames - 1 →
      evalAnimFramePair (some c) t =
        { a := c.firstFrame + Int.floor (t * (c.fps : ℚ))
          b := c.firstFrame + Int.floor (t * (c.fps : ℚ)) + 1
          t := t * (c.fps : ℚ) - (Int.floor (t * (c.fps : ℚ)) : ℚ) }) ∧
    evalAnimFramePair
        (some { name := [], numFrames := 5, loopFrames := 0, fps := 10, firstFrame := 10 })
        (35 / 100) = { a := 13, b := 14, t := 1 / 2 } ∧
    evalAnimFramePair
        (some { name := [], numFrames := 5, loopFrames := 0, fps := 10, firstFrame := 10 })
        1 = { a := 14, b := 14, t := 0 } := by
  refine ⟨?_, ?_, ?_⟩
  · intro c t hloop hn hfps hi
    rw [evalAnimFramePair_noloop c t hloop (by omega) hfps,
      if_neg (by intro h; rcases h with h | h <;> omega)]
    simp [add_assoc]
  · have h : Int.floor ((35 : ℚ) / 100 * ((10 : Int) : ℚ)) = 3 := by
      rw [Int.floor_eq_iff]; norm_num
    rw [evalAnimFramePair_noloop _ _ rfl (by decide) (by decide)]
    norm_num [h]
  · have h : Int.floor ((1 : ℚ) * ((10 : Int) : ℚ)) = 10 := by
      rw [Int.floor_eq_iff]; norm_num
    rw [evalAnimFramePair_noloop _ _ rfl (by decide) (by decide)]
    norm_num [h]

/-- Witness for C2: the scenario clip at `t = 7/20`, whose frame index is `3 < 5 - 1`. -/
theorem evalAnimFramePair_noloop_inrange_witness :
    evalAnimFramePair (some scenarioClip) (7 / 20) =
      { a := scenarioClip.firstFrame + Int.floor ((7 / 20 : ℚ) * (scenarioClip.fps : ℚ))
        b := scenarioClip.firstFrame + Int.floor ((7 / 20 : ℚ) * (scenarioClip.fps : ℚ)) + 1
        t := (7 / 20 : ℚ) * (scenarioClip.fps : ℚ) -
              (Int.floor ((7 / 20 : ℚ) * (scenarioClip.fps : ℚ)) : ℚ) } :=
  evalAnimFramePair_noloop_inrange.1 scenarioClip (7 / 20) rfl (by decide) (by decide)
    (by
      have h : Int.floor ((7 / 20 : ℚ) * ((10 : Int) : ℚ)) = 3 := by
        rw [Int.floor_eq_iff]; norm_num
      show Int.floor ((7 / 20 : ℚ) * ((10 : Int) : ℚ)) < 5 - 1
      rw [h]; decide)

/-- Counterexample to C4 as stated: the clip `{firstFrame 0, numFrames 5, loopFrames 2, fps 0}`
at `t = 2.5` has `floor(t*fps) = 0 <= numFrames - 1`, but the code clamps the rate to `1`
and returns frameA `2`, frameB `3` and blend `0.5`, not `firstFrame + 0` and blend `0`. -/
theorem evalAnimFramePair_first_pass_counterexample :
    0 < zeroFpsClip.loopFrames ∧ (0 : ℚ) ≤ 5 / 2 ∧
    Int.floor ((5 / 2 : ℚ) * (zeroFpsClip.fps : ℚ)) ≤ zeroFpsClip.numFrames - 1 ∧
    (evalAnimFramePair (some zeroFpsClip) (5 / 2)).a ≠
      zeroFpsClip.firstFrame + Int.floor ((5 / 2 : ℚ) * (zeroFpsClip.fps : ℚ)) ∧
    (evalAnimFramePair (some zeroFpsClip) (5 / 2)).t ≠
      (5 / 2 : ℚ) * (zeroFpsClip.fps : ℚ) - (Int.floor ((5 / 2 : ℚ) * (zeroFpsClip.fps : ℚ)) : ℚ) ∧
    evalAnimFramePair (some zeroFpsClip) (5 / 2) = { a := 2, b := 3, t := 1 / 2 } := by
  have h0 : Int.floor ((5 / 2 : ℚ) * ((0 : Int) : ℚ)) = 0 := by
    rw [Int.floor_eq_iff]; norm_num
  have h1 : Int.floor ((5 / 2 : ℚ) * ((max 1 (0 : Int) : Int) : ℚ)) = 2 := by
    rw [Int.floor_eq_iff]; norm_num
  have he : evalAnimFramePair (some zeroFpsClip) (5 / 2) = { a := 2, b := 3, t := 1 / 2 } := by
    rw [evalAnimFramePair_loop _ _ (by decide)]
    simp only [zeroFpsClip, h1]
    norm_num
  refine ⟨by decide, by norm_num, ?_, ?_, ?_, he⟩
  · show Int.floor ((5 / 2 : ℚ) * ((0 : Int) : ℚ)) ≤ 5 - 1
    rw [h0]; decide
  · rw [he]
    show (2 : Int) ≠ 0 + Int.floor ((5 / 2 : ℚ) * ((0 : Int) : ℚ))
    rw [h0]; decide
  · rw [he]
    show (1 / 2 : ℚ) ≠ (5 / 2 : ℚ) * ((0 : Int) : ℚ) - (Int.floor ((5 / 2 : ℚ) * ((0 : Int) : ℚ)) : ℚ)
    rw [h0]; norm_num

/-- C4 (amended): for a clip with `loopFrames > 0` and a time `t >= 0` whose frame index
`i = floor(t * max(1, fps))` satisfies `i <= numFrames - 1`, the result has
frameA `= firstFrame + i`, blend `= t * max(1, fps) - i`, frameB `= firstFrame + i + 1` when
`i < numFrames - 1` and frameB `= firstFrame + (numFrames - loopFrames)` when
`i == numFrames - 1`. -/
theorem evalAnimFramePair_first_pass (c : AnimInfo) (t : ℚ)
    (hloop : 0 < c.loopFrames) (ht : 0 ≤ t)
    (hi : Int.floor (t * ((max 1 c.fps : Int) : ℚ)) ≤ c.numFrames - 1) :
    (evalAnimFramePair (some c) t).a = c.firstFrame + Int.floor (t * ((max 1 c.fps : Int) : ℚ)) ∧
    (evalAnimFramePair (some c) t).t =
      t * ((max 1 c.fps : Int) : ℚ) - (Int.floor (t * ((max 1 c.fps : Int) : ℚ)) : ℚ) ∧
    (Int.floor (t * ((max 1 c.fps : Int) : ℚ)) < c.numFrames - 1 →
      (evalAnimFramePair (some c) t).b =
        c.firstFrame + Int.floor (t * ((max 1 c.fps : Int) : ℚ)) + 1) ∧
    (Int.floor (t * ((max 1 c.fps : Int) : ℚ)) = c.numFrames - 1 →
      (evalAnimFramePair (some c) t).b = c.firstFrame + (c.numFrames - c.loopFrames)) := by
  have hfq : (0 : ℚ) ≤ ((max 1 c.fps : Int) : ℚ) := by
    exact_mod_cast (by omega : (0:Int) ≤ max 1 c.fps)
  have hi0 : 0 ≤ Int.floor (t * ((max 1 c.fps : Int) : ℚ)) := Int.floor_nonneg.mpr (mul_nonneg ht hfq)
  have hn : 1 ≤ c.numFrames := by omega
  rw [evalAnimFramePair_loop c t hloop]
  simp only [max_eq_right hn]
  rw [if_pos hi]
  refine ⟨rfl, rfl, ?_, ?_⟩
  · intro h
    simp only [if_pos h]
  · intro h
    have : ¬ Int.floor (t * ((max 1 c.fps : Int) : ℚ)) < c.numFrames - 1 := by omega
    simp only [if_neg this]

/-- Witness for C4 (amended): the clip with rate `0` at `t = 2.5`, frame index `2 <= 5 - 1`. -/
theorem evalAnimFramePair_first_pass_witness :
    (evalAnimFramePair (some zeroFpsClip) (5 / 2)).a =
      zeroFpsClip.firstFrame + Int.floor ((5 / 2 : ℚ) * ((max 1 zeroFpsClip.fps : Int) : ℚ)) :=
  (evalAnimFramePair_first_pass zeroFpsClip (5 / 2) (by decide) (by norm_num)
    (by
      have h1 : Int.floor ((5 / 2 : ℚ) * ((max 1 (0 : Int) : Int) : ℚ)) = 2 := by
        rw [Int.floor_eq_iff]; norm_num
      show Int.floor ((5 / 2 : ℚ) * ((max 1 (0 : Int) : Int) : ℚ)) ≤ 5 - 1
      rw [h1]; decide)).1

/-- The looping phase in terms of the clamped rate: for a clip with
`1 <= loopFrames <= numFrames` and a time `t` whose frame index `i = floor(t * max(1, fps))`
satisfies `i > numFrames - 1`, the result has
frameA `= firstFrame + loopStart + ((i - numFrames) mod loopFrames)` and frameB its cyclic
successor `firstFrame + loopStart + (((i - numFrames) mod loopFrames + 1) mod loopFrames)`,
so both frames lie in `[firstFrame + loopStart, firstFrame + numFrames)` where
`loopStart = numFrames - loopFrames`. -/
theorem evalAnimFramePair_loop_phase_clamped (c : AnimInfo) (t : ℚ)
    (hl1 : 1 ≤ c.loopFrames) (hl2 : c.loopFrames ≤ c.numFrames)
    (hi : Int.floor (t * ((max 1 c.fps : Int) : ℚ)) > c.numFrames - 1) :
    (evalAnimFramePair (some c) t).a =
      c.firstFrame + (c.numFrames - c.loopFrames) +
        (Int.floor (t * ((max 1 c.fps : Int) : ℚ)) - c.numFrames) % c.loopFrames ∧
    (evalAnimFramePair (some c) t).b =
      c.firstFrame + (c.numFrames - c.loopFrames) +
        ((Int.floor (t * ((max 1 c.fps : Int) : ℚ)) - c.numFrames) % c.loopFrames + 1)
          % c.loopFrames ∧
    (c.firstFrame + (c.numFrames - c.loopFrames) ≤ (evalAnimFramePair (some c) t).a ∧
      (evalAnimFramePair (some c) t).a < c.firstFrame + c.numFrames) ∧
    (c.firstFrame + (c.numFrames - c.loopFrames) ≤ (evalAnimFramePair (some c) t).b ∧
      (evalAnimFramePair (some c) t).b < c.firstFrame + c.numFrames) := by
  have hn : 1 ≤ c.numFrames := by omega
  have hL : c.loopFrames ≠ 0 := by omega
  have hLpos : 0 < c.loopFrames := by omega
  have hx : Int.floor (t * ((max 1 c.fps : Int) : ℚ)) - (c.numFrames - 1) - 1
      = Int.floor (t * ((max 1 c.fps : Int) : ℚ)) - c.numFrames := by ring
  have hk0 := Int.emod_nonneg (Int.floor (t * ((max 1 c.fps : Int) : ℚ)) - c.numFrames) hL
  have hk1 := Int.emod_lt_of_pos (Int.floor (t * ((max 1 c.fps : Int) : ℚ)) - c.numFrames) hLpos
  have hs0 := Int.emod_nonneg
    ((Int.floor (t * ((max 1 c.fps : Int) : ℚ)) - c.numFrames) % c.loopFrames + 1) hL
  have hs1 := Int.emod_lt_of_pos
    ((Int.floor (t * ((max 1 c.fps : Int) : ℚ)) - c.numFrames) % c.loopFrames + 1) hLpos
  have ha : (evalAnimFramePair (some c) t).a =
      c.firstFrame + (c.numFrames - c.loopFrames) +
        (Int.floor (t * ((max 1 c.fps : Int) : ℚ)) - c.numFrames) % c.loopFrames := by
    rw [evalAnimFramePair_loop c t hLpos]
    simp only [max_eq_right hn]
    rw [if_neg (by omega), hx, Int.tmod_eq_emod (by omega) (by omega)]
  have hb : (evalAnimFramePair (some c) t).b =
      c.firstFrame + (c.numFrames - c.loopFrames) +
        ((Int.floor (t * ((max 1 c.fps : Int) : ℚ)) - c.numFrames) % c.loopFrames + 1)
          % c.loopFrames := by
    rw [evalAnimFramePair_loop c t hLpos]
    simp only [max_eq_right hn]
    rw [if_neg (by omega), hx, Int.tmod_eq_emod (by omega) (by omega),
      Int.tmod_eq_emod (by omega) (by omega)]
  refine ⟨ha, hb, ?_, ?_⟩
  · rw [ha]; constructor <;> omega
  · rw [hb]; constructor <;> omega

end Q3_Player

/-! ## Lemmas about the tables of `AnimationCFG` -/

namespace Js

theorem ClipMap.get_set (m : ClipMap) (k k1 : List Char) (v : Option AnimInfo) :
    ClipMap.get (ClipMap.set m k v) k1 = if k = k1 then v else ClipMap.get m k1 := by
  induction m with
  | nil => simp [ClipMap.set, ClipMap.get]
  | cons p rest ih =>
    obtain ⟨k0, v0⟩ := p
    by_cases h0 : k0 = k
    · subst h0
      by_cases h1 : k0 = k1 <;> simp [ClipMap.set, ClipMap.get, h1]
    · by_cases h1 : k0 = k1
      · subst h1
        have : ¬ k = k0 := fun h => h0 h.symm
        simp [ClipMap.set, ClipMap.get, h0, this]
      · simp [ClipMap.set, ClipMap.get, h0, h1, ih]

theorem ClipMap.has_set (m : ClipMap) (k k1 : List Char) (v : Option AnimInfo) :
    ClipMap.has (ClipMap.set m k v) k1 = true ↔ (k = k1 ∨ ClipMap.has m k1 = true) := by
  induction m with
  | nil => simp [ClipMap.set, ClipMap.has]
  | cons p rest ih =>
    obtain ⟨k0, v0⟩ := p
    by_cases h0 : k0 = k
    · subst h0
      by_cases h1 : k0 = k1 <;> simp [ClipMap.set, ClipMap.has, h1]
    · by_cases h1 : k0 = k1
      · subst h1
        simp [ClipMap.set, ClipMap.has, h0]
      · simp [ClipMap.set, ClipMap.has, h0, h1, ih]

theorem ClipMap.get_of_not_has (m : ClipMap) (k : List Char) (h : ClipMap.has m k = false) :
    ClipMap.get m k = none := by
  induction m with
  | nil => rfl
  | cons p rest ih =>
    obtain ⟨k0, v0⟩ := p
    by_cases h0 : k0 = k
    · simp [ClipMap.has, h0] at h
    · simp only [ClipMap.has, h0, if_false] at h
      simp only [ClipMap.get, h0, if_false]
      exact ih h

theorem ClipMap.has_of_get_some (m : ClipMap) (k : List Char) (c : AnimInfo)
    (h : ClipMap.get m k = some c) : ClipMap.has m k = true := by
  by_contra hc
  have := ClipMap.get_of_not_has m k (by simpa using hc)
  rw [this] at h
  exact Option.noConfusion h

theorem ClipMap.defined_nil : ClipMap.Defined [] := by
  intro k h
  simp [ClipMap.has] at h

theorem ClipMap.defined_set (m : ClipMap) (k : List Char) (c : AnimInfo)
    (hm : ClipMap.Defined m) : ClipMap.Defined (ClipMap.set m k (some c)) := by
  intro k1 h
  rw [ClipMap.get_set]
  by_cases hk : k = k1
  · simp [hk]
  · simp only [hk, if_false]
    rw [ClipMap.has_set] at h
    rcases h with h | h
    · exact absurd h hk
    · exact hm k1 h

end Js

namespace AnimationCFG

open Js

theorem ORDER_length : ORDER.length = 25 := by decide

theorem ORDER_nodup : ORDER.Nodup := by decide

/-- A round of the table loop leaves every other name alone. -/
theorem mapEntry_other (T : Int) (st : ClipMap × ClipMap) (e : NamedEntry) (n : List Char)
    (hne : e.name ≠ n) :
    ClipMap.get (mapEntry T st e).1 n = ClipMap.get st.1 n ∧
    ClipMap.get (mapEntry T st e).2 n = ClipMap.get st.2 n ∧
    ClipMap.has (mapEntry T st e).1 n = ClipMap.has st.1 n ∧
    ClipMap.has (mapEntry T st e).2 n = ClipMap.has st.2 n := by
  have hset : ∀ (m : ClipMap) (v : Option AnimInfo),
      ClipMap.has (ClipMap.set m e.name v) n = ClipMap.has m n := by
    intro m v
    have := ClipMap.has_set m e.name n v
    cases h1 : ClipMap.has (ClipMap.set m e.name v) n <;> cases h2 : ClipMap.has m n <;>
      simp_all
  have hget : ∀ (m : ClipMap) (v : Option AnimInfo),
      ClipMap.get (ClipMap.set m e.name v) n = ClipMap.get m n := by
    intro m v
    rw [ClipMap.get_set, if_neg hne]
  unfold mapEntry
  refine ⟨?_, ?_, ?_, ?_⟩
  · dsimp only; split <;> simp [hget]
  · dsimp only; split
    · simp [hget]
    · split <;> simp [hget]
  · dsimp only; split <;> simp [hset]
  · dsimp only; split
    · simp [hset]
    · split <;> simp [hset]

/-- What a round of the table loop stores under its own name. -/
theorem mapEntry_self (T : Int) (st : ClipMap × ClipMap) (e : NamedEntry) :
    (kindFor e.name ≠ Kind.LEGS →
      ClipMap.get (mapEntry T st e).1 e.name =
        some { name := e.name, numFrames := e.numFrames, loopFrames := e.loopFrames,
               fps := e.fps, firstFrame := e.firstFrame }) ∧
    (kindFor e.name = Kind.BOTH →
      ClipMap.get (mapEntry T st e).2 e.name =
        some { name := e.name, numFrames := e.numFrames, loopFrames := e.loopFrames,
               fps := e.fps, firstFrame := e.firstFrame }) ∧
    (kindFor e.name = Kind.LEGS →
      ClipMap.get (mapEntry T st e).2 e.name =
        some { name := e.name, numFrames := e.numFrames, loopFrames := e.loopFrames,
               fps := e.fps, firstFrame := max 0 (e.firstFrame - T) }) := by
  unfold mapEntry
  refine ⟨?_, ?_, ?_⟩
  · intro hk
    have : kindFor e.name = Kind.BOTH ∨ kindFor e.name = Kind.TORSO := by
      cases h : kindFor e.name <;> simp_all
    simp [this, ClipMap.get_set]
  · intro hk
    simp [hk, ClipMap.get_set]
  · intro hk
    simp [hk, ClipMap.get_set]

/-- A round of the table loop keeps every stored value defined. -/
theorem mapEntry_defined (T : Int) (st : ClipMap × ClipMap) (e : NamedEntry)
    (h1 : ClipMap.Defined st.1) (h2 : ClipMap.Defined st.2) :
    ClipMap.Defined (mapEntry T st e).1 ∧ ClipMap.Defined (mapEntry T st e).2 := by
  unfold mapEntry
  constructor
  · dsimp only; split
    · exact ClipMap.defined_set _ _ _ h1
    · exact h1
  · dsimp only; split
    · exact ClipMap.defined_set _ _ _ h2
    · split
      · exact ClipMap.defined_set _ _ _ h2
      · exact h2

theorem loop_other (T : Int) (named : List NamedEntry) (st : ClipMap × ClipMap) (n : List Char)
    (hn : n ∉ named.map (fun e => e.name)) :
    ClipMap.get (named.foldl (mapEntry T) st).1 n = ClipMap.get st.1 n ∧
    ClipMap.get (named.foldl (mapEntry T) st).2 n = ClipMap.get st.2 n ∧
    ClipMap.has (named.foldl (mapEntry T) st).1 n = ClipMap.has st.1 n ∧
    ClipMap.has (named.foldl (mapEntry T) st).2 n = ClipMap.has st.2 n := by
  induction named generalizing st with
  | nil => simp
  | cons e rest ih =>
    simp only [List.map_cons, List.mem_cons, not_or] at hn
    have hne : e.name ≠ n := fun h => hn.1 h.symm
    obtain ⟨a1, a2, a3, a4⟩ := mapEntry_other T st e n hne
    obtain ⟨b1, b2, b3, b4⟩ := ih (mapEntry T st e) hn.2
    simp only [List.foldl_cons]
    exact ⟨b1.trans a1, b2.trans a2, b3.trans a3, b4.trans a4⟩

theorem loop_defined (T : Int) (named : List NamedEntry) (st : ClipMap × ClipMap)
    (h1 : ClipMap.Defined st.1) (h2 : ClipMap.Defined st.2) :
    ClipMap.Defined (named.foldl (mapEntry T) st).1 ∧
    ClipMap.Defined (named.foldl (mapEntry T) st).2 := by
  induction named generalizing st with
  | nil => exact ⟨h1, h2⟩
  | cons e rest ih =>
    obtain ⟨a1, a2⟩ := mapEntry_defined T st e h1 h2
    simp only [List.foldl_cons]
    exact ih (mapEntry T st e) a1 a2

/-- With distinct names, the table loop leaves under each name what its own round stored. -/
theorem loop_self (T : Int) (named : List NamedEntry) (st : ClipMap × ClipMap) (e : NamedEntry)
    (hnd : (named.map (fun e => e.name)).Nodup) (he : e ∈ named) :
    (kindFor e.name ≠ Kind.LEGS →
      ClipMap.get (named.foldl (mapEntry T) st).1 e.name =
        some { name := e.name, numFrames := e.numFrames, loopFrames := e.loopFrames,
               fps := e.fps, firstFrame := e.firstFrame }) ∧
    (kindFor e.name = Kind.BOTH →
      ClipMap.get (named.foldl (mapEntry T) st).2 e.name =
        some { name := e.name, numFrames := e.numFrames, loopFrames := e.loopFrames,
               fps := e.fps, firstFrame := e.firstFrame }) ∧
    (kindFor e.name = Kind.LEGS →
      ClipMap.get (named.foldl (mapEntry T) st).2 e.name =
        some { name := e.name, numFrames := e.numFrames, loopFrames := e.loopFrames,
               fps := e.fps, firstFrame := max 0 (e.firstFrame - T) }) := by
  induction named generalizing st with
  | nil => simp at he
  | cons x rest ih =>
    simp only [List.map_cons, List.nodup_cons] at hnd
    simp only [List.foldl_cons]
    rcases List.mem_cons.mp he with hx | hx
    · subst hx
      obtain ⟨b1, b2, _, _⟩ := loop_other T rest (mapEntry T st e) e.name hnd.1
      obtain ⟨c1, c2, c3⟩ := mapEntry_self T st e
      exact ⟨fun h => b1.trans (c1 h), fun h => b2.trans (c2 h), fun h => b2.trans (c3 h)⟩
    · exact ih (mapEntry T st x) hnd.2 hx

end AnimationCFG

namespace AnimationCFG

open Js

/-- The first loop of `_parse` collects the usable lines and stops at `ORDER.length` of them. -/
theorem scanLines_eq (ls : List (List Char)) (acc : List RawEntry) (hacc : acc.length < 25) :
    scanLines ls acc = acc ++ (ls.filterMap parseLine).take (25 - acc.length) := by
  induction ls generalizing acc with
  | nil => simp [scanLines]
  | cons line rest ih =>
    cases hp : parseLine line with
    | none =>
      simp only [scanLines, hp, List.filterMap_cons]
      exact ih acc hacc
    | some e =>
      simp only [scanLines, hp, List.filterMap_cons, ORDER_length, List.length_append,
        List.length_singleton]
      by_cases hfull : acc.length + 1 ≥ 25
      · have h24 : 25 - acc.length = 1 := by omega
        simp [hfull, h24]
      · have hlt : (acc ++ [e]).length < 25 := by simp; omega
        have hstep : 25 - acc.length = (25 - (acc.length + 1)) + 1 := by omega
        rw [if_neg hfull, ih (acc ++ [e]) hlt, hstep, List.take_succ_cons]
        simp

theorem scanLines_cleanLines (text : List Char) :
    scanLines (cleanLines text) [] = (usableEntries text).take 25 := by
  rw [scanLines_eq _ _ (by simp)]
  simp [usableEntries]

theorem zipWith_names (names : List (List Char)) (raw : List RawEntry) :
    (List.zipWith
      (fun name r =>
        { name := name, firstFrame := r.firstFrame, numFrames := r.numFrames,
          loopFrames := r.loopFrames, fps := r.fps : NamedEntry })
      names raw).map (fun e => e.name) = names.take raw.length := by
  induction names generalizing raw with
  | nil => simp
  | cons n ns ih =>
    cases raw with
    | nil => simp
    | cons r rs => simp [ih]

theorem nameEntries_names (raw : List RawEntry) :
    (nameEntries raw).map (fun e => e.name) = ORDER.take raw.length :=
  zipWith_names ORDER raw

theorem nameEntries_nodup (raw : List RawEntry) :
    ((nameEntries raw).map (fun e => e.name)).Nodup := by
  rw [nameEntries_names]
  exact List.Nodup.sublist (List.take_sublist _ _) ORDER_nodup

theorem nameEntries_mem (raw : List RawEntry) (i : Nat) (h1 : i < ORDER.length)
    (h2 : i < raw.length) :
    ({ name := ORDER[i], firstFrame := raw[i].firstFrame, numFrames := raw[i].numFrames,
       loopFrames := raw[i].loopFrames, fps := raw[i].fps } : NamedEntry) ∈ nameEntries raw := by
  have hlen : i < (nameEntries raw).length := by
    simp [nameEntries, List.length_zipWith]
    omega
  have hget : (nameEntries raw)[i] =
      ({ name := ORDER[i], firstFrame := raw[i].firstFrame, numFrames := raw[i].numFrames,
         loopFrames := raw[i].loopFrames, fps := raw[i].fps } : NamedEntry) := by
    simp [nameEntries]
  rw [← hget]
  exact List.getElem_mem hlen

/-- A name of `ORDER` at or after position `k` is not among the first `k` names. -/
theorem ORDER_not_mem_take (j k : Nat) (hj : j < ORDER.length) (hk : k ≤ j) :
    ORDER[j] ∉ ORDER.take k := by
  intro hmem
  obtain ⟨i, hi, heq⟩ := List.getElem_of_mem hmem
  have hik : i < k := by
    simp [List.length_take] at hi
    omega
  have hi2 : i < ORDER.length := by
    simp [List.length_take] at hi
    omega
  rw [List.getElem_take] at heq
  have := (List.Nodup.getElem_inj_iff ORDER_nodup).mp heq
  omega

/-- The sum computed by `torsoTotal`, written over the pairs of a name and its line. -/
theorem torsoTotal_eq (raw : List RawEntry) :
    torsoTotal (nameEntries raw) =
      (((ORDER.zip raw).filter (fun p => "TORSO_".toList.isPrefixOf p.1)).map
        (fun p => max 0 p.2.numFrames)).sum := by
  have hfold : ∀ (l : List NamedEntry) (acc : Int),
      l.foldl (fun acc e => acc + max 0 e.numFrames) acc
        = acc + (l.map (fun e => max 0 e.numFrames)).sum := by
    intro l
    induction l with
    | nil => intro acc; simp
    | cons x xs ih => intro acc; simp [ih, add_assoc]
  have hzip : ∀ (names : List (List Char)) (raw : List RawEntry),
      (((List.zipWith
          (fun name r =>
            { name := name, firstFrame := r.firstFrame, numFrames := r.numFrames,
              loopFrames := r.loopFrames, fps := r.fps : NamedEntry })
          names raw).filter (fun e => "TORSO_".toList.isPrefixOf e.name)).map
        (fun e => max 0 e.numFrames))
      = (((names.zip raw).filter (fun p => "TORSO_".toList.isPrefixOf p.1)).map
          (fun p => max 0 p.2.numFrames)) := by
    intro names
    induction names with
    | nil => intro raw; simp
    | cons n ns ih =>
      intro raw
      cases raw with
      | nil => simp
      | cons r rs =>
        simp only [List.zipWith_cons_cons, List.zip_cons_cons, List.filter_cons]
        cases hp : "TORSO_".toList.isPrefixOf n
        · simp only [Bool.false_eq_true, if_false, ih rs]
        · simp only [if_true, List.map_cons, ih rs]
  unfold torsoTotal
  rw [hfold, zero_add]
  exact congrArg List.sum (hzip ORDER raw)

/-- The stand-in rule does not touch any name other than the default one. -/
theorem aliasDefault_get_other (m : ClipMap) (names : List (List Char)) (key own n : List Char)
    (hne : key ≠ n) :
    ClipMap.get (aliasDefault m names key own) n = ClipMap.get m n := by
  unfold aliasDefault
  split
  · rfl
  · split
    · rw [ClipMap.get_set, if_neg hne]
    · rfl

/-- A default clip already in the table is kept. -/
theorem aliasDefault_of_has (m : ClipMap) (names : List (List Char)) (key own : List Char)
    (h : ClipMap.has m key = true) : aliasDefault m names key own = m := by
  simp [aliasDefault, h]

/-- The stand-in choice succeeds as soon as a shared clip is listed. -/
theorem pickAlt_of_both (own : List Char) (names : List (List Char)) (hown : own ≠ [])
    (b : List Char) (hb : b ∈ names) (hpre : "BOTH_".toList.isPrefixOf b = true) :
    ∃ c cs, pickAlt own names = some (c :: cs) ∧ (c :: cs) ∈ names := by
  unfold pickAlt
  cases h1 : names.find? (fun n => own.isPrefixOf n) with
  | some x =>
    have hx : own.isPrefixOf x = true := by
      have := List.find?_some h1
      simpa using this
    have hmem : x ∈ names := List.mem_of_find?_eq_some h1
    cases x with
    | nil =>
      cases own with
      | nil => exact absurd rfl hown
      | cons o os => simp [List.isPrefixOf] at hx
    | cons c cs => exact ⟨c, cs, by simp [orElseStr], hmem⟩
  | none =>
    cases h2 : names.find? (fun n => "BOTH_".toList.isPrefixOf n) with
    | none =>
      exact absurd hpre (List.find?_eq_none.mp h2 b hb)
    | some y =>
      have hy : "BOTH_".toList.isPrefixOf y = true := by
        have := List.find?_some h2
        simpa using this
      have hmem : y ∈ names := List.mem_of_find?_eq_some h2
      cases y with
      | nil => simp [List.isPrefixOf] at hy
      | cons c cs => exact ⟨c, cs, by simp [orElseStr], hmem⟩

/-- After the stand-in rule the default name has a defined clip, as soon as a shared clip
is in the table. -/
theorem aliasDefault_get_key (m : ClipMap) (key own : List Char) (hown : own ≠ [])
    (hdef : ClipMap.Defined m) (b : List Char) (hbO : b ∈ ORDER)
    (hbm : ClipMap.has m b = true) (hpre : "BOTH_".toList.isPrefixOf b = true) :
    (ClipMap.get (aliasDefault m (ORDER.filter (fun n => ClipMap.has m n)) key own) key).isSome
      = true := by
  by_cases hk : ClipMap.has m key = true
  · rw [aliasDefault_of_has _ _ _ _ hk]
    exact hdef key hk
  · have hb : b ∈ ORDER.filter (fun n => ClipMap.has m n) := by
      simp [List.mem_filter, hbO, hbm]
    obtain ⟨c, cs, hpick, hmem⟩ := pickAlt_of_both own _ hown b hb hpre
    have hhas : ClipMap.has m (c :: cs) = true := by
      have := (List.mem_filter.mp hmem).2
      simpa using this
    unfold aliasDefault
    rw [if_neg hk]
    simp only [hpick]
    rw [ClipMap.get_set, if_pos rfl]
    exact hdef _ hhas

theorem zip_take_length (names : List (List Char)) (raw : List RawEntry) :
    names.zip (raw.take names.length) = names.zip raw := by
  induction names generalizing raw with
  | nil => simp
  | cons n ns ih =>
    cases raw with
    | nil => simp
    | cons r rs => simp [ih]

theorem aliasDefault_get_of_has (m : ClipMap) (names : List (List Char)) (key own n : List Char)
    (h : ClipMap.has m n = true) :
    ClipMap.get (aliasDefault m names key own) n = ClipMap.get m n := by
  by_cases hk : key = n
  · subst hk
    rw [aliasDefault_of_has _ _ _ _ h]
  · exact aliasDefault_get_other m names key own n hk

/-- The two tables at the end of the table loop of `_parse`, for the array `raw`. -/
theorem parse_of_usable (text : List Char) (h : usableEntries text ≠ []) :
    AnimationCFG.new._parse text =
      { torso := aliasDefault
          ((nameEntries ((usableEntries text).take 25)).foldl
            (mapEntry (torsoTotal (nameEntries ((usableEntries text).take 25)))) ([], [])).1
          (ORDER.filter (fun n => ClipMap.has
            ((nameEntries ((usableEntries text).take 25)).foldl
              (mapEntry (torsoTotal (nameEntries ((usableEntries text).take 25)))) ([], [])).1 n))
          "TORSO_STAND".toList "TORSO_".toList
        legs := aliasDefault
          ((nameEntries ((usableEntries text).take 25)).foldl
            (mapEntry (torsoTotal (nameEntries ((usableEntries text).take 25)))) ([], [])).2
          (ORDER.filter (fun n => ClipMap.has
            ((nameEntries ((usableEntries text).take 25)).foldl
              (mapEntry (torsoTotal (nameEntries ((usableEntries text).take 25)))) ([], [])).2 n))
          "LEGS_IDLE".toList "LEGS_".toList
        torsoNames := ORDER.filter (fun n => ClipMap.has
            ((nameEntries ((usableEntries text).take 25)).foldl
              (mapEntry (torsoTotal (nameEntries ((usableEntries text).take 25)))) ([], [])).1 n)
        legsNames := ORDER.filter (fun n => ClipMap.has
            ((nameEntries ((usableEntries text).take 25)).foldl
              (mapEntry (torsoTotal (nameEntries ((usableEntries text).take 25)))) ([], [])).2 n) } := by
  have hlen : ¬ ((usableEntries text).take 25).length = 0 := by
    cases hu : usableEntries text with
    | nil => exact absurd hu h
    | cons x xs => simp
  unfold _parse
  rw [scanLines_cleanLines]
  simp only [hlen, if_false]
  rfl

/-- The clip stored for the `i`-th usable line, by the kind of its name. -/
theorem parse_entry (text : List Char) (i : Nat) (h1 : i < ORDER.length)
    (h2 : i < (usableEntries text).length) :
    (kindFor ORDER[i] ≠ Kind.LEGS →
      (AnimationCFG.new._parse text).getTorso ORDER[i] =
        some { name := ORDER[i], numFrames := (usableEntries text)[i].numFrames,
               loopFrames := (usableEntries text)[i].loopFrames,
               fps := (usableEntries text)[i].fps,
               firstFrame := (usableEntries text)[i].firstFrame }) ∧
    (kindFor ORDER[i] = Kind.BOTH →
      (AnimationCFG.new._parse text).getLegs ORDER[i] =
        some { name := ORDER[i], numFrames := (usableEntries text)[i].numFrames,
               loopFrames := (usableEntries text)[i].loopFrames,
               fps := (usableEntries text)[i].fps,
               firstFrame := (usableEntries text)[i].firstFrame }) ∧
    (kindFor ORDER[i] = Kind.LEGS →
      (AnimationCFG.new._parse text).getLegs ORDER[i] =
        some { name := ORDER[i], numFrames := (usableEntries text)[i].numFrames,
               loopFrames := (usableEntries text)[i].loopFrames,
               fps := (usableEntries text)[i].fps,
               firstFrame := max 0 ((usableEntries text)[i].firstFrame -
                 (((ORDER.zip (usableEntries text)).filter
                     (fun p => "TORSO_".toList.isPrefixOf p.1)).map
                   (fun p => max 0 p.2.numFrames)).sum) }) := by
  have hne : usableEntries text ≠ [] := by
    intro h0
    rw [h0] at h2
    simp at h2
  have h25 : i < 25 := by rw [← ORDER_length]; exact h1
  have h3 : i < ((usableEntries text).take 25).length := by
    simp [List.length_take]; omega
  have hget : ((usableEntries text).take 25)[i] = (usableEntries text)[i] := by
    simp [List.getElem_take]
  have hmem := nameEntries_mem ((usableEntries text).take 25) i h1 h3
  rw [hget] at hmem
  have hT : torsoTotal (nameEntries ((usableEntries text).take 25)) =
      (((ORDER.zip (usableEntries text)).filter
          (fun p => "TORSO_".toList.isPrefixOf p.1)).map
        (fun p => max 0 p.2.numFrames)).sum := by
    rw [torsoTotal_eq]
    have := zip_take_length ORDER (usableEntries text)
    rw [ORDER_length] at this
    rw [this]
  obtain ⟨a1, a2, a3⟩ := loop_self (torsoTotal (nameEntries ((usableEntries text).take 25)))
    (nameEntries ((usableEntries text).take 25)) ([], []) _
    (nameEntries_nodup _) hmem
  rw [parse_of_usable text hne]
  refine ⟨?_, ?_, ?_⟩
  · intro hk
    have := a1 hk
    show ClipMap.get (aliasDefault _ _ _ _) _ = _
    rw [aliasDefault_get_of_has _ _ _ _ _ (ClipMap.has_of_get_some _ _ _ this)]
    exact this
  · intro hk
    have := a2 hk
    show ClipMap.get (aliasDefault _ _ _ _) _ = _
    rw [aliasDefault_get_of_has _ _ _ _ _ (ClipMap.has_of_get_some _ _ _ this)]
    exact this
  · intro hk
    have := a3 hk
    rw [hT] at this ⊢
    show ClipMap.get (aliasDefault _ _ _ _) _ = _
    rw [aliasDefault_get_of_has _ _ _ _ _ (ClipMap.has_of_get_some _ _ _ this)]
    exact this

/-- Counterexample to C6 as stated: in `negTorsoText` the `TORSO_*` lines have frame counts
`20, 20, 20, 20, 20, 40, -20`, whose sum is `120`, and the line of `LEGS_WALKCR` gives the
first frame `150`; the code adds `Math.max(0, numFrames)`, finds `140` and stores the first
frame `10`, not `max(0, 150 - 120) = 30`. -/
theorem parse_legs_rebased_counterexample :
    (((ORDER.zip (usableEntries negTorsoText)).filter
        (fun p => "TORSO_".toList.isPrefixOf p.1)).map (fun p => p.2.numFrames)).sum = 120 ∧
    (usableEntries negTorsoText)[13]?.map (fun r => r.firstFrame) = some 150 ∧
    ((AnimationCFG.new._parse negTorsoText).getLegs "LEGS_WALKCR".toList).map
        (fun c => c.firstFrame) = some 10 ∧
    ((AnimationCFG.new._parse negTorsoText).getLegs "LEGS_WALKCR".toList).map
        (fun c => c.firstFrame) ≠ some (max 0 (150 - 120)) := by
  decide

/-- C6 (amended): after `_parse`, the clip stored in the legs table for a usable line whose
name is lower-exclusive (`LEGS_*`) has `firstFrame = max(0, rawFirstFrame - torsoTotal)`,
where `torsoTotal` is the sum of `max(0, numFrames)` over the upper-exclusive (`TORSO_*`)
clips that were parsed; with `torsoTotal = 120` and raw `firstFrame = 150` it is `30`. -/
theorem parse_legs_rebased :
    (∀ (text : List Char) (i : Nat) (h1 : i < ORDER.length)
        (h2 : i < (usableEntries text).length),
      kindFor ORDER[i] = Kind.LEGS →
      (AnimationCFG.new._parse text).getLegs ORDER[i] =
        some { name := ORDER[i], numFrames := (usableEntries text)[i].numFrames,
               loopFrames := (usableEntries text)[i].loopFrames,
               fps := (usableEntries text)[i].fps,
               firstFrame := max 0 ((usableEntries text)[i].firstFrame -
                 (((ORDER.zip (usableEntries text)).filter
                     (fun p => "TORSO_".toList.isPrefixOf p.1)).map
                   (fun p => max 0 p.2.numFrames)).sum) }) ∧
    ((((ORDER.zip (usableEntries rebaseText)).filter
        (fun p => "TORSO_".toList.isPrefixOf p.1)).map (fun p => max 0 p.2.numFrames)).sum = 120 ∧
      (usableEntries rebaseText)[13]?.map (fun r => r.firstFrame) = some 150 ∧
      ((AnimationCFG.new._parse rebaseText).getLegs "LEGS_WALKCR".toList).map
        (fun c => c.firstFrame) = some 30) := by
  refine ⟨?_, ?_⟩
  · intro text i h1 h2 hk
    exact (parse_entry text i h1 h2).2.2 hk
  · decide

/-- Witness for C6 (amended): line 13 of `rebaseText`, named `LEGS_WALKCR`. -/
theorem parse_legs_rebased_witness :
    kindFor "LEGS_WALKCR".toList = Kind.LEGS ∧
    ((AnimationCFG.new._parse rebaseText).getLegs "LEGS_WALKCR".toList).map
      (fun c => c.firstFrame) = some 30 :=
  ⟨by decide,
   (congrArg (Option.map (fun c => c.firstFrame))
      (parse_legs_rebased.1 rebaseText 13 (by decide) (by decide) (by decide))).trans
    (by decide)⟩

/-- With at least one usable line, both tables end up with a defined default clip. -/
theorem parse_default_some (text : List Char) (h : usableEntries text ≠ []) :
    ((AnimationCFG.new._parse text).getTorso "TORSO_STAND".toList).isSome = true ∧
    ((AnimationCFG.new._parse text).getLegs "LEGS_IDLE".toList).isSome = true := by
  have hlen : 0 < ((usableEntries text).take 25).length := by
    cases hu : usableEntries text with
    | nil => exact absurd hu h
    | cons x xs => simp
  have hmem := nameEntries_mem ((usableEntries text).take 25) 0 (by decide) hlen
  obtain ⟨a1, a2, _⟩ := loop_self (torsoTotal (nameEntries ((usableEntries text).take 25)))
    (nameEntries ((usableEntries text).take 25)) ([], []) _
    (nameEntries_nodup _) hmem
  have hkind : kindFor ORDER[0] = Kind.BOTH := by decide
  have hpre : "BOTH_".toList.isPrefixOf ORDER[0] = true := by decide
  have hO : ORDER[0] ∈ ORDER := List.getElem_mem _
  have b1 := ClipMap.has_of_get_some _ _ _ (a1 (by rw [hkind]; decide))
  have b2 := ClipMap.has_of_get_some _ _ _ (a2 hkind)
  obtain ⟨d1, d2⟩ := loop_defined (torsoTotal (nameEntries ((usableEntries text).take 25)))
    (nameEntries ((usableEntries text).take 25)) ([], [])
    ClipMap.defined_nil ClipMap.defined_nil
  rw [parse_of_usable text h]
  exact ⟨aliasDefault_get_key _ "TORSO_STAND".toList "TORSO_".toList (by decide) d1 ORDER[0] hO b1 hpre,
    aliasDefault_get_key _ "LEGS_IDLE".toList "LEGS_".toList (by decide) d2 ORDER[0] hO b2 hpre⟩

/-- A name of `ORDER` beyond the usable lines is in neither table at the end of the table
loop, so only the stand-in rule can map it. -/
theorem parse_trailing (text : List Char) (j : Nat) (hj : j < ORDER.length)
    (hk1 : 1 ≤ (usableEntries text).length) (hkj : (usableEntries text).length ≤ j) :
    (ORDER[j] ≠ "TORSO_STAND".toList → (AnimationCFG.new._parse text).getTorso ORDER[j] = none) ∧
    (ORDER[j] ≠ "LEGS_IDLE".toList → (AnimationCFG.new._parse text).getLegs ORDER[j] = none) := by
  have hne : usableEntries text ≠ [] := by
    intro h0
    rw [h0] at hk1
    simp at hk1
  have hnot : ORDER[j] ∉ (nameEntries ((usableEntries text).take 25)).map (fun e => e.name) := by
    rw [nameEntries_names]
    apply ORDER_not_mem_take j _ hj
    simp [List.length_take]
    omega
  obtain ⟨a1, a2, _, _⟩ := loop_other (torsoTotal (nameEntries ((usableEntries text).take 25)))
    (nameEntries ((usableEntries text).take 25)) ([], []) ORDER[j] hnot
  rw [parse_of_usable text hne]
  constructor
  · intro hn
    show ClipMap.get (aliasDefault _ _ _ _) _ = _
    rw [aliasDefault_get_other _ _ _ _ _ (fun h => hn h.symm), a1]
    rfl
  · intro hn
    show ClipMap.get (aliasDefault _ _ _ _) _ = _
    rw [aliasDefault_get_other _ _ _ _ _ (fun h => hn h.symm), a2]
    rfl

/-- C7: for a clip-directory text with `k` usable entry lines and each `i < min(k, 25)`, the
clip named `ORDER[i]` carries the `numFrames`, `loopFrames` and `fps` of the `i`-th usable
line; `BOTH_*` clips are in both tables with the raw `firstFrame`, `TORSO_*` clips are in
the torso table with the raw `firstFrame`; usable lines after the 25th are ignored. -/
theorem parse_entries_in_order :
    (∀ (text : List Char) (i : Nat) (h1 : i < ORDER.length)
        (h2 : i < (usableEntries text).length),
      (kindFor ORDER[i] = Kind.BOTH →
        (AnimationCFG.new._parse text).getTorso ORDER[i] =
          some { name := ORDER[i], numFrames := (usableEntries text)[i].numFrames,
                 loopFrames := (usableEntries text)[i].loopFrames,
                 fps := (usableEntries text)[i].fps,
                 firstFrame := (usableEntries text)[i].firstFrame } ∧
        (AnimationCFG.new._parse text).getLegs ORDER[i] =
          some { name := ORDER[i], numFrames := (usableEntries text)[i].numFrames,
                 loopFrames := (usableEntries text)[i].loopFrames,
                 fps := (usableEntries text)[i].fps,
                 firstFrame := (usableEntries text)[i].firstFrame }) ∧
      (kindFor ORDER[i] = Kind.TORSO →
        (AnimationCFG.new._parse text).getTorso ORDER[i] =
          some { name := ORDER[i], numFrames := (usableEntries text)[i].numFrames,
                 loopFrames := (usableEntries text)[i].loopFrames,
                 fps := (usableEntries text)[i].fps,
                 firstFrame := (usableEntries text)[i].firstFrame }) ∧
      (kindFor ORDER[i] = Kind.LEGS →
        ∃ ff : Int, (AnimationCFG.new._parse text).getLegs ORDER[i] =
          some { name := ORDER[i], numFrames := (usableEntries text)[i].numFrames,
                 loopFrames := (usableEntries text)[i].loopFrames,
                 fps := (usableEntries text)[i].fps,
                 firstFrame := ff })) ∧
    (∀ (text1 text2 : List Char),
      (usableEntries text1).take 25 = (usableEntries text2).take 25 →
      AnimationCFG.new._parse text1 = AnimationCFG.new._parse text2) := by
  refine ⟨?_, ?_⟩
  · intro text i h1 h2
    obtain ⟨a1, a2, a3⟩ := parse_entry text i h1 h2
    refine ⟨fun hk => ⟨a1 (by rw [hk]; decide), a2 hk⟩, fun hk => a1 (by rw [hk]; decide),
      fun hk => ⟨_, a3 hk⟩⟩
  · intro text1 text2 h
    unfold _parse
    rw [scanLines_cleanLines, scanLines_cleanLines, h]

/-- Witness for C7: line 0 of `rebaseText`, named `BOTH_DEATH1`. -/
theorem parse_entries_in_order_witness :
    kindFor "BOTH_DEATH1".toList = Kind.BOTH ∧
    (AnimationCFG.new._parse rebaseText).getTorso "BOTH_DEATH1".toList =
      some { name := "BOTH_DEATH1".toList, numFrames := 30, loopFrames := 0, fps := 20,
             firstFrame := 0 } :=
  ⟨by decide,
   ((parse_entries_in_order.1 rebaseText 0 (by decide) (by decide)).1 (by decide)).1.trans
    (by decide)⟩

/-- Counterexample to C8 as stated: `oneLineText` has `k = 1` usable line and `TORSO_STAND`
is `ORDER[11]`, a trailing name, yet `getTorso('TORSO_STAND')` returns the clip of
`BOTH_DEATH1` (and `getLegs('LEGS_IDLE')`, for `ORDER[22]`, returns it as well). -/
theorem parse_trailing_unmapped_counterexample :
    (usableEntries oneLineText).length = 1 ∧
    ORDER[11]? = some "TORSO_STAND".toList ∧ ORDER[22]? = some "LEGS_IDLE".toList ∧
    (AnimationCFG.new._parse oneLineText).getTorso "TORSO_STAND".toList =
      some { name := "BOTH_DEATH1".toList, numFrames := 30, loopFrames := 0, fps := 20,
             firstFrame := 0 } ∧
    (AnimationCFG.new._parse oneLineText).getLegs "LEGS_IDLE".toList =
      some { name := "BOTH_DEATH1".toList, numFrames := 30, loopFrames := 0, fps := 20,
             firstFrame := 0 } := by
  decide

/-- C8 (amended): for a clip-directory text with `k` usable entry lines, `1 <= k < 25`, every
trailing name `ORDER[j]` with `j >= k` is left unmapped, except the two default names:
`getTorso(ORDER[j])` is `null` unless `ORDER[j]` is `TORSO_STAND`, `getLegs(ORDER[j])` is
`null` unless `ORDER[j]` is `LEGS_IDLE`, and `getTorso('TORSO_STAND')` and
`getLegs('LEGS_IDLE')` return a stand-in clip. -/
theorem parse_trailing_unmapped (text : List Char) (j : Nat) (hj : j < ORDER.length)
    (hk1 : 1 ≤ (usableEntries text).length) (_hk2 : (usableEntries text).length < 25)
    (hkj : (usableEntries text).length ≤ j) :
    (ORDER[j] ≠ "TORSO_STAND".toList → (AnimationCFG.new._parse text).getTorso ORDER[j] = none) ∧
    (ORDER[j] ≠ "LEGS_IDLE".toList → (AnimationCFG.new._parse text).getLegs ORDER[j] = none) ∧
    (AnimationCFG.new._parse text).getTorso "TORSO_STAND".toList ≠ none ∧
    (AnimationCFG.new._parse text).getLegs "LEGS_IDLE".toList ≠ none := by
  have hne : usableEntries text ≠ [] := by
    intro h0
    rw [h0] at hk1
    simp at hk1
  obtain ⟨a1, a2⟩ := parse_trailing text j hj hk1 hkj
  obtain ⟨b1, b2⟩ := parse_default_some text hne
  refine ⟨a1, a2, ?_, ?_⟩
  · intro h0; rw [h0] at b1; exact Bool.noConfusion b1
  · intro h0; rw [h0] at b2; exact Bool.noConfusion b2

/-- Witness for C8 (amended): `oneLineText` and the trailing name `ORDER[1] = BOTH_DEAD1`. -/
theorem parse_trailing_unmapped_witness :
    (AnimationCFG.new._parse oneLineText).getTorso "BOTH_DEAD1".toList = none ∧
    (AnimationCFG.new._parse oneLineText).getLegs "BOTH_DEAD1".toList = none :=
  ⟨(parse_trailing_unmapped oneLineText 1 (by decide) (by decide) (by decide) (by decide)).1
      (by decide),
   (parse_trailing_unmapped oneLineText 1 (by decide) (by decide) (by decide) (by decide)).2.1
      (by decide)⟩

/-- C9: for every input text, after `_parse` both `getDefaultTorso()` and `getDefaultLegs()`
return a clip (never `null`); when the text has no usable entry line the torso table holds
exactly one clip `TORSO_STAND` and the legs table exactly one clip `LEGS_IDLE`, each with
`firstFrame 0`, `numFrames 1`, `loopFrames 0`, `fps 1`. -/
theorem parse_defaults (text : List Char) :
    (AnimationCFG.new._parse text).getDefaultTorso ≠ none ∧
    (AnimationCFG.new._parse text).getDefaultLegs ≠ none ∧
    (usableEntries text = [] →
      (AnimationCFG.new._parse text).torso =
        [("TORSO_STAND".toList,
          some { name := "TORSO_STAND".toList, numFrames := 1, loopFrames := 0, fps := 1,
                 firstFrame := 0 })] ∧
      (AnimationCFG.new._parse text).legs =
        [("LEGS_IDLE".toList,
          some { name := "LEGS_IDLE".toList, numFrames := 1, loopFrames := 0, fps := 1,
                 firstFrame := 0 })]) := by
  have hfb : usableEntries text = [] →
      AnimationCFG.new._parse text = AnimationCFG.new._fallback := by
    intro hu
    unfold _parse
    rw [scanLines_cleanLines, hu]
    rfl
  by_cases hu : usableEntries text = []
  · rw [hfb hu]
    exact ⟨by decide, by decide, fun _ => ⟨rfl, rfl⟩⟩
  · obtain ⟨b1, b2⟩ := parse_default_some text hu
    refine ⟨?_, ?_, fun h => absurd h hu⟩
    · unfold getDefaultTorso
      cases hg : (AnimationCFG.new._parse text).getTorso "TORSO_STAND".toList with
      | none => rw [hg] at b1; exact Bool.noConfusion b1
      | some c => simp
    · unfold getDefaultLegs
      cases hg : (AnimationCFG.new._parse text).getLegs "LEGS_IDLE".toList with
      | none => rw [hg] at b2; exact Bool.noConfusion b2
      | some c => simp

/-- Witness for C9: the empty text has no usable entry line. -/
theorem parse_defaults_witness :
    usableEntries [] = [] ∧
    (AnimationCFG.new._parse []).torso =
      [("TORSO_STAND".toList,
        some { name := "TORSO_STAND".toList, numFrames := 1, loopFrames := 0, fps := 1,
               firstFrame := 0 })] ∧
    (AnimationCFG.new._parse []).legs =
      [("LEGS_IDLE".toList,
        some { name := "LEGS_IDLE".toList, numFrames := 1, loopFrames := 0, fps := 1,
               firstFrame := 0 })] :=
  ⟨by decide, (parse_defaults []).2.2 (by decide)⟩

end AnimationCFG

/-! ## Theorems about the crossfades -/

namespace Q3_Player

theorem toInt32_five : toInt32 5 = 5 := by
  simp [toInt32]

theorem toInt32_seven : toInt32 7 = 7 := by
  simp [toInt32]

/-- Counterexample to C10 as stated: while the torso (resp. legs) crossfade of `midFade` is
active, `startTorsoCrossfade(5, 7, 0.3)` (resp. `startLegsCrossfade`) is not ignored: it
replaces `from`, `to`, `elapsed` and `duration` by `5`, `7`, `0` and `0.3`. -/
theorem startCrossfade_while_active_counterexample :
    midFade.torsoXFade.active = true ∧ midFade.legsXFade.active = true ∧
    (startTorsoCrossfade midFade 5 7 (some (3 / 10))).torsoXFade =
      { active := true, fromFrame := 5, toFrame := 7, elapsed := 0, duration := 3 / 10 } ∧
    (startTorsoCrossfade midFade 5 7 (some (3 / 10))).torsoXFade.fromFrame ≠
      midFade.torsoXFade.fromFrame ∧
    (startTorsoCrossfade midFade 5 7 (some (3 / 10))).torsoXFade.toFrame ≠
      midFade.torsoXFade.toFrame ∧
    (startTorsoCrossfade midFade 5 7 (some (3 / 10))).torsoXFade.elapsed ≠
      midFade.torsoXFade.elapsed ∧
    (startTorsoCrossfade midFade 5 7 (some (3 / 10))).torsoXFade.duration ≠
      midFade.torsoXFade.duration ∧
    (startLegsCrossfade midFade 5 7 (some (3 / 10))).legsXFade =
      { active := true, fromFrame := 5, toFrame := 7, elapsed := 0, duration := 3 / 10 } ∧
    (startLegsCrossfade midFade 5 7 (some (3 / 10))).legsXFade ≠ midFade.legsXFade := by
  have ht : (startTorsoCrossfade midFade 5 7 (some (3 / 10))).torsoXFade =
      { active := true, fromFrame := 5, toFrame := 7, elapsed := 0, duration := 3 / 10 } := by
    norm_num [startTorsoCrossfade, toInt32_five, toInt32_seven]
  have hl : (startLegsCrossfade midFade 5 7 (some (3 / 10))).legsXFade =
      { active := true, fromFrame := 5, toFrame := 7, elapsed := 0, duration := 3 / 10 } := by
    norm_num [startLegsCrossfade, toInt32_five, toInt32_seven]
  refine ⟨rfl, rfl, ht, ?_, ?_, ?_, ?_, hl, ?_⟩
  · rw [ht]; simp [midFade]
  · rw [ht]; simp [midFade]
  · rw [ht]; simp [midFade]
  · rw [ht]; norm_num [midFade]
  · rw [hl]; simp [midFade]

/-- C10 (amended): a start request is never ignored. In every state, whether or not the
region's crossfade is active, `startTorsoCrossfade(from, to, duration)` (resp.
`startLegsCrossfade`) leaves that crossfade active with `from = max(0, from|0)`,
`to = max(0, to|0)`, `elapsed = 0` and `duration = max(0.001, duration)` (`0.1` when the
argument is missing), and leaves the crossfade of the other region unchanged. -/
theorem startCrossfade_restarts (s : PlayerXFades) (fromFrame toFrame : ℚ)
    (duration : Option ℚ) :
    (startTorsoCrossfade s fromFrame toFrame duration).torsoXFade =
      { active := true, fromFrame := max 0 (toInt32 fromFrame),
        toFrame := max 0 (toInt32 toFrame), elapsed := 0,
        duration := max (1 / 1000) (duration.getD (1 / 10)) } ∧
    (startTorsoCrossfade s fromFrame toFrame duration).legsXFade = s.legsXFade ∧
    (startLegsCrossfade s fromFrame toFrame duration).legsXFade =
      { active := true, fromFrame := max 0 (toInt32 fromFrame),
        toFrame := max 0 (toInt32 toFrame), elapsed := 0,
        duration := max (1 / 1000) (duration.getD (1 / 10)) } ∧
    (startLegsCrossfade s fromFrame toFrame duration).torsoXFade = s.torsoXFade :=
  ⟨rfl, rfl, rfl, rfl⟩

end Q3_Player

/-! ## Theorems about crossfade timing -/

namespace Q3_Player

theorem updateCrossfades_torso (s : PlayerXFades) (dt : ℚ) :
    (updateCrossfades s dt).torsoXFade = s.torsoXFade.tick dt := by
  simp only [updateCrossfades, XFade.tick]

theorem updateCrossfades_legs (s : PlayerXFades) (dt : ℚ) :
    (updateCrossfades s dt).legsXFade = s.legsXFade.tick dt := by
  simp only [updateCrossfades, XFade.tick]

theorem updateMany_torso (s : PlayerXFades) (dts : List ℚ) :
    (updateMany s dts).torsoXFade = dts.foldl XFade.tick s.torsoXFade := by
  induction dts generalizing s with
  | nil => rfl
  | cons dt rest ih =>
    simp only [updateMany, List.foldl_cons] at ih ⊢
    rw [ih, updateCrossfades_torso]

theorem updateMany_legs (s : PlayerXFades) (dts : List ℚ) :
    (updateMany s dts).legsXFade = dts.foldl XFade.tick s.legsXFade := by
  induction dts generalizing s with
  | nil => rfl
  | cons dt rest ih =>
    simp only [updateMany, List.foldl_cons] at ih ⊢
    rw [ih, updateCrossfades_legs]

/-- The state of a crossfade that was started with duration `D > 0` and then ticked with
non-negative steps: while active its `elapsed` is the sum of the steps and below `D`;
once inactive its `elapsed` is frozen at or above `D`. -/
theorem tick_run (x0 : XFade) (D : ℚ) (h0 : x0.active = true) (he : x0.elapsed = 0)
    (hd : x0.duration = D) (hD : 0 < D) (dts : List ℚ) (hpos : ∀ dt ∈ dts, 0 ≤ dt) :
    (dts.foldl XFade.tick x0).duration = D ∧
    ((dts.foldl XFade.tick x0).active = true →
      (dts.foldl XFade.tick x0).elapsed = dts.sum ∧ dts.sum < D) ∧
    ((dts.foldl XFade.tick x0).active = false →
      D ≤ (dts.foldl XFade.tick x0).elapsed ∧ (dts.foldl XFade.tick x0).elapsed ≤ dts.sum) := by
  induction dts using List.reverseRecOn with
  | nil =>
    refine ⟨hd, fun _ => ⟨by simpa using he, by simpa using hD⟩, fun h => ?_⟩
    simp only [List.foldl_nil] at h
    rw [h0] at h
    exact absurd h (by decide)
  | append_singleton l dt ih =>
    have hl : ∀ d ∈ l, 0 ≤ d := fun d hd' => hpos d (List.mem_append_left _ hd')
    have hdt : 0 ≤ dt := hpos dt (by simp)
    obtain ⟨i1, i2, i3⟩ := ih hl
    simp only [List.foldl_append, List.foldl_cons, List.foldl_nil, List.sum_append,
      List.sum_cons, List.sum_nil, add_zero]
    cases hact : (l.foldl XFade.tick x0).active with
    | false =>
      have hx : (l.foldl XFade.tick x0).tick dt = l.foldl XFade.tick x0 := by
        simp [XFade.tick, hact]
      rw [hx]
      obtain ⟨j1, j2⟩ := i3 hact
      refine ⟨i1, fun h => ?_, fun _ => ⟨j1, by linarith⟩⟩
      rw [hact] at h
      exact absurd h (by decide)
    | true =>
      obtain ⟨j1, j2⟩ := i2 hact
      by_cases hge : (l.foldl XFade.tick x0).elapsed + dt ≥ (l.foldl XFade.tick x0).duration
      · have hx : (l.foldl XFade.tick x0).tick dt =
            { l.foldl XFade.tick x0 with
              elapsed := (l.foldl XFade.tick x0).elapsed + dt, active := false } := by
          simp [XFade.tick, hact, hge]
        rw [hx]
        refine ⟨i1, fun h => absurd h (by simp), fun _ => ?_⟩
        simp only
        rw [i1] at hge
        exact ⟨hge, by rw [j1]⟩
      · have hx : (l.foldl XFade.tick x0).tick dt =
            { l.foldl XFade.tick x0 with
              elapsed := (l.foldl XFade.tick x0).elapsed + dt, active := true } := by
          simp [XFade.tick, hact, hge]
        rw [hx]
        refine ⟨i1, fun _ => ?_, fun h => absurd h (by simp)⟩
        simp only
        rw [i1] at hge
        exact ⟨by rw [j1], by rw [← j1]; linarith [not_le.mp hge]⟩

/-- The blend factor of a crossfade started with duration `D > 0`: it starts at `0`, never
decreases under non-negative steps, and is `1` exactly when the steps add up to `D`. -/
theorem tick_ramp (x0 : XFade) (D : ℚ) (h0 : x0.active = true) (he : x0.elapsed = 0)
    (hd : x0.duration = D) (hD : 0 < D) :
    x0.blend = 0 ∧
    (∀ (dts : List ℚ) (dt : ℚ), (∀ x ∈ dts, 0 ≤ x) → 0 ≤ dt →
      (dts.foldl XFade.tick x0).blend ≤ ((dts ++ [dt]).foldl XFade.tick x0).blend) ∧
    (∀ (dts : List ℚ), (∀ x ∈ dts, 0 ≤ x) →
      ((dts.foldl XFade.tick x0).blend = 1 ↔ D ≤ dts.sum)) := by
  refine ⟨?_, ?_, ?_⟩
  · simp [XFade.blend, he]
  · intro dts dt hpos hdt
    obtain ⟨i1, _, _⟩ := tick_run x0 D h0 he hd hD dts hpos
    simp only [List.foldl_append, List.foldl_cons, List.foldl_nil]
    cases hact : (dts.foldl XFade.tick x0).active with
    | false =>
      have hx : (dts.foldl XFade.tick x0).tick dt = dts.foldl XFade.tick x0 := by
        simp [XFade.tick, hact]
      rw [hx]
    | true =>
      have hdur : ((dts.foldl XFade.tick x0).tick dt).duration = D := by
        simp only [XFade.tick, hact, if_true]
        exact i1
      have hel : ((dts.foldl XFade.tick x0).tick dt).elapsed =
          (dts.foldl XFade.tick x0).elapsed + dt := by
        simp only [XFade.tick, hact, if_true]
      simp only [XFade.blend, hdur, hel, i1]
      exact min_le_min le_rfl (div_le_div_of_nonneg_right (by linarith) (le_of_lt hD))
  · intro dts hpos
    obtain ⟨i1, i2, i3⟩ := tick_run x0 D h0 he hd hD dts hpos
    have hb : (dts.foldl XFade.tick x0).blend = 1 ↔ D ≤ (dts.foldl XFade.tick x0).elapsed := by
      simp only [XFade.blend, i1]
      rw [min_eq_left_iff, le_div_iff₀ hD, one_mul]
    rw [hb]
    cases hact : (dts.foldl XFade.tick x0).active with
    | false =>
      obtain ⟨j1, j2⟩ := i3 hact
      exact ⟨fun _ => le_trans j1 j2, fun _ => j1⟩
    | true =>
      obtain ⟨j1, j2⟩ := i2 hact
      rw [j1]

/-- Counterexample to C11 as stated: a crossfade started with `d = 0.0005 > 0` gets the
duration `Math.max(1e-3, d) = 0.001`; after `updateCrossfades(0.0005)` the accumulated
time is `d`, but the blend factor is `0.5`, not `1`. -/
theorem crossfade_blend_ramp_counterexample :
    (0 : ℚ) < 1 / 2000 ∧ ([1 / 2000] : List ℚ).sum = 1 / 2000 ∧
    (updateMany (startTorsoCrossfade initialXFades 0 1 (some (1 / 2000)))
        [1 / 2000]).torsoXFade.blend = 1 / 2 ∧
    (updateMany (startTorsoCrossfade initialXFades 0 1 (some (1 / 2000)))
        [1 / 2000]).torsoXFade.blend ≠ 1 := by
  have h : (updateMany (startTorsoCrossfade initialXFades 0 1 (some (1 / 2000)))
      [1 / 2000]).torsoXFade.blend = 1 / 2 := by
    rw [updateMany_torso]
    norm_num [startTorsoCrossfade, XFade.tick, XFade.blend]
  refine ⟨by norm_num, by norm_num, h, ?_⟩
  rw [h]
  norm_num

/-- C11 (amended): a crossfade started with `start*Crossfade(from, to, d)` has the duration
`D = max(0.001, d)` (`d = 0.1` when the argument is missing). Its blend factor
`min(1, elapsed/duration)` is `0` immediately after the start, non-decreasing under any
sequence of `updateCrossfades(dt)` calls with `dt >= 0`, and equal to `1` exactly when the
accumulated time has reached `D` seconds (which is `d` whenever `d >= 0.001`). -/
theorem crossfade_blend_ramp (s : PlayerXFades) (fromFrame toFrame : ℚ) (d : Option ℚ) :
    ((startTorsoCrossfade s fromFrame toFrame d).torsoXFade.blend = 0 ∧
      (∀ (dts : List ℚ) (dt : ℚ), (∀ x ∈ dts, 0 ≤ x) → 0 ≤ dt →
        (updateMany (startTorsoCrossfade s fromFrame toFrame d) dts).torsoXFade.blend ≤
        (updateMany (startTorsoCrossfade s fromFrame toFrame d) (dts ++ [dt])).torsoXFade.blend) ∧
      (∀ (dts : List ℚ), (∀ x ∈ dts, 0 ≤ x) →
        ((updateMany (startTorsoCrossfade s fromFrame toFrame d) dts).torsoXFade.blend = 1 ↔
          max (1 / 1000) (d.getD (1 / 10)) ≤ dts.sum))) ∧
    ((startLegsCrossfade s fromFrame toFrame d).legsXFade.blend = 0 ∧
      (∀ (dts : List ℚ) (dt : ℚ), (∀ x ∈ dts, 0 ≤ x) → 0 ≤ dt →
        (updateMany (startLegsCrossfade s fromFrame toFrame d) dts).legsXFade.blend ≤
        (updateMany (startLegsCrossfade s fromFrame toFrame d) (dts ++ [dt])).legsXFade.blend) ∧
      (∀ (dts : List ℚ), (∀ x ∈ dts, 0 ≤ x) →
        ((updateMany (startLegsCrossfade s fromFrame toFrame d) dts).legsXFade.blend = 1 ↔
          max (1 / 1000) (d.getD (1 / 10)) ≤ dts.sum))) := by
  have hD : (0 : ℚ) < max (1 / 1000) (d.getD (1 / 10)) :=
    lt_of_lt_of_le (by norm_num) (le_max_left _ _)
  constructor
  · obtain ⟨a, b, c⟩ := tick_ramp (startTorsoCrossfade s fromFrame toFrame d).torsoXFade
      (max (1 / 1000) (d.getD (1 / 10))) rfl rfl rfl hD
    refine ⟨a, ?_, ?_⟩
    · intro dts dt h1 h2
      rw [updateMany_torso, updateMany_torso]
      exact b dts dt h1 h2
    · intro dts h1
      rw [updateMany_torso]
      exact c dts h1
  · obtain ⟨a, b, c⟩ := tick_ramp (startLegsCrossfade s fromFrame toFrame d).legsXFade
      (max (1 / 1000) (d.getD (1 / 10))) rfl rfl rfl hD
    refine ⟨a, ?_, ?_⟩
    · intro dts dt h1 h2
      rw [updateMany_legs, updateMany_legs]
      exact b dts dt h1 h2
    · intro dts h1
      rw [updateMany_legs]
      exact c dts h1

/-- Witness for C11 (amended): a torso crossfade of `0.1` s after the steps `0.05, 0.05`. -/
theorem crossfade_blend_ramp_witness :
    (updateMany (startTorsoCrossfade initialXFades 3 4 (some (1 / 10)))
        [1 / 20, 1 / 20]).torsoXFade.blend = 1 :=
  ((crossfade_blend_ramp initialXFades 3 4 (some (1 / 10))).1.2.2 [1 / 20, 1 / 20]
    (by intro x hx; simp only [List.mem_cons, List.mem_singleton, List.not_mem_nil, or_false, or_self] at hx; rw [hx]; norm_num)).mpr
    (by norm_num)

/-- C12: after `updateCrossfades(dt)` a crossfade that was active is still active if and
only if its new `elapsed` is below `duration`; in every reachable state an active
crossfade has `elapsed < duration`; and an inactive crossfade is left unchanged by
`updateCrossfades`, so it never re-activates without a new `start*Crossfade` call. -/
theorem updateCrossfades_active_iff :
    (∀ (s : PlayerXFades) (dt : ℚ),
      (s.torsoXFade.active = true →
        ((updateCrossfades s dt).torsoXFade.active = true ↔
          (updateCrossfades s dt).torsoXFade.elapsed <
            (updateCrossfades s dt).torsoXFade.duration)) ∧
      (s.legsXFade.active = true →
        ((updateCrossfades s dt).legsXFade.active = true ↔
          (updateCrossfades s dt).legsXFade.elapsed <
            (updateCrossfades s dt).legsXFade.duration))) ∧
    (∀ (s : PlayerXFades), Reachable s →
      (s.torsoXFade.active = true → s.torsoXFade.elapsed < s.torsoXFade.duration) ∧
      (s.legsXFade.active = true → s.legsXFade.elapsed < s.legsXFade.duration)) ∧
    (∀ (s : PlayerXFades) (dt : ℚ),
      (s.torsoXFade.active = false → (updateCrossfades s dt).torsoXFade = s.torsoXFade) ∧
      (s.legsXFade.active = false → (updateCrossfades s dt).legsXFade = s.legsXFade)) := by
  have htick : ∀ (x : XFade) (dt : ℚ), x.active = true →
      ((x.tick dt).active = true ↔ (x.tick dt).elapsed < (x.tick dt).duration) := by
    intro x dt hx
    by_cases hge : x.elapsed + dt ≥ x.duration
    · simp only [XFade.tick, hx, if_true, hge]
      constructor
      · intro h; exact absurd h (by simp)
      · intro h; exact absurd hge (not_le.mpr h)
    · simp only [XFade.tick, hx, if_true, hge, if_false]
      exact ⟨fun _ => not_le.mp hge, fun _ => trivial⟩
  have hidle : ∀ (x : XFade) (dt : ℚ), x.active = false → x.tick dt = x := by
    intro x dt hx
    simp [XFade.tick, hx]
  have hpos : ∀ d : Option ℚ, (0 : ℚ) < max (1 / 1000) (d.getD (1 / 10)) := fun d =>
    lt_of_lt_of_le (by norm_num) (le_max_left _ _)
  refine ⟨?_, ?_, ?_⟩
  · intro s dt
    rw [updateCrossfades_torso, updateCrossfades_legs]
    exact ⟨htick _ dt, htick _ dt⟩
  · intro s hs
    induction hs with
    | init => exact ⟨fun h => absurd h (by decide), fun h => absurd h (by decide)⟩
    | startTorso s f t d _ ih => exact ⟨fun _ => hpos d, ih.2⟩
    | startLegs s f t d _ ih => exact ⟨ih.1, fun _ => hpos d⟩
    | update s dt _ ih =>
      rw [updateCrossfades_torso, updateCrossfades_legs]
      constructor
      · intro h
        cases hact : s.torsoXFade.active with
        | false =>
          rw [hidle _ dt hact] at h ⊢
          exact ih.1 h
        | true => exact (htick _ dt hact).mp h
      · intro h
        cases hact : s.legsXFade.active with
        | false =>
          rw [hidle _ dt hact] at h ⊢
          exact ih.2 h
        | true => exact (htick _ dt hact).mp h
  · intro s dt
    rw [updateCrossfades_torso, updateCrossfades_legs]
    exact ⟨hidle _ dt, hidle _ dt⟩

/-- Witness for C12: `midFade` stays active after `updateCrossfades(0.01)`, and the state
right after the constructor is reachable and left unchanged. -/
theorem updateCrossfades_active_iff_witness :
    ((updateCrossfades midFade (1 / 100)).torsoXFade.active = true ↔
      (updateCrossfades midFade (1 / 100)).torsoXFade.elapsed <
        (updateCrossfades midFade (1 / 100)).torsoXFade.duration) ∧
    (updateCrossfades initialXFades (1 / 100)).torsoXFade = initialXFades.torsoXFade :=
  ⟨(updateCrossfades_active_iff.1 midFade (1 / 100)).1 rfl,
   (updateCrossfades_active_iff.2.2 initialXFades (1 / 100)).1 rfl⟩

end Q3_Player

/-! ## Theorems about `drawModel` and `setPartVariant` -/

namespace Q3_Player

/-- The nodes after `drawModel`, when the node system exists. -/
theorem drawModel_nodes (s : PlayerFrames) (n : PlayerNodes) (hn : s.nodes = some n)
    (tU tL : ℚ) :
    (drawModel s tU tL).nodes =
      some
        { n_lower :=
            if s.xfades.legsXFade.active then
              { frame_IDX_cur := s.xfades.legsXFade.fromFrame
                frameA := s.xfades.legsXFade.fromFrame
                frameB := s.xfades.legsXFade.toFrame
                lerp := min 1 (s.xfades.legsXFade.elapsed / s.xfades.legsXFade.duration) }
            else
              { frame_IDX_cur := setCurrentFrameIDX s.lowerMax (evalAnimFramePair s.legsAnim tL).a
                frameA := (evalAnimFramePair s.legsAnim tL).a
                frameB := (evalAnimFramePair s.legsAnim tL).b
                lerp := (evalAnimFramePair s.legsAnim tL).t }
          n_upper :=
            if s.xfades.torsoXFade.active then
              { frame_IDX_cur := s.xfades.torsoXFade.fromFrame
                frameA := s.xfades.torsoXFade.fromFrame
                frameB := s.xfades.torsoXFade.toFrame
                lerp := min 1 (s.xfades.torsoXFade.elapsed / s.xfades.torsoXFade.duration) }
            else
              { frame_IDX_cur := setCurrentFrameIDX s.upperMax (evalAnimFramePair s.torsoAnim tU).a
                frameA := (evalAnimFramePair s.torsoAnim tU).a
                frameB := (evalAnimFramePair s.torsoAnim tU).b
                lerp := (evalAnimFramePair s.torsoAnim tU).t }
          n_head :=
            { frame_IDX_cur := setCurrentFrameIDX s.headMax 0, frameA := 0, frameB := 0,
              lerp := 0 } } := by
  simp only [drawModel, hn]

/-- The frames that `drawModel` leaves in the upper and the lower node. -/
theorem drawModel_frames (s : PlayerFrames) (n : PlayerNodes) (hn : s.nodes = some n)
    (tU tL : ℚ) :
    ∃ m : PlayerNodes, (drawModel s tU tL).nodes = some m ∧
      (s.xfades.torsoXFade.active = true →
        m.n_upper.frameA = s.xfades.torsoXFade.fromFrame ∧
        m.n_upper.frameB = s.xfades.torsoXFade.toFrame ∧
        m.n_upper.lerp = min 1 (s.xfades.torsoXFade.elapsed / s.xfades.torsoXFade.duration)) ∧
      (s.xfades.torsoXFade.active = false →
        m.n_upper.frameA = (evalAnimFramePair s.torsoAnim tU).a ∧
        m.n_upper.frameB = (evalAnimFramePair s.torsoAnim tU).b ∧
        m.n_upper.lerp = (evalAnimFramePair s.torsoAnim tU).t) ∧
      (s.xfades.legsXFade.active = true →
        m.n_lower.frameA = s.xfades.legsXFade.fromFrame ∧
        m.n_lower.frameB = s.xfades.legsXFade.toFrame ∧
        m.n_lower.lerp = min 1 (s.xfades.legsXFade.elapsed / s.xfades.legsXFade.duration)) ∧
      (s.xfades.legsXFade.active = false →
        m.n_lower.frameA = (evalAnimFramePair s.legsAnim tL).a ∧
        m.n_lower.frameB = (evalAnimFramePair s.legsAnim tL).b ∧
        m.n_lower.lerp = (evalAnimFramePair s.legsAnim tL).t) ∧
      (∀ x : XFade,
        (drawModel { s with xfades := { s.xfades with torsoXFade := x } } tU tL).nodes.map
          (fun k => k.n_lower) = some m.n_lower) ∧
      (∀ x : XFade,
        (drawModel { s with xfades := { s.xfades with legsXFade := x } } tU tL).nodes.map
          (fun k => k.n_upper) = some m.n_upper) := by
  refine ⟨_, drawModel_nodes s n hn tU tL, ?_, ?_, ?_, ?_, ?_, ?_⟩
  · intro h; simp only [h, if_true, and_self]
  · intro h; simp [h]
  · intro h; simp only [h, if_true, and_self]
  · intro h; simp [h]
  · intro x
    rw [drawModel_nodes { s with xfades := { s.xfades with torsoXFade := x } } n hn tU tL]
    rfl
  · intro x
    rw [drawModel_nodes { s with xfades := { s.xfades with legsXFade := x } } n hn tU tL]
    rfl

/-- C13: in `drawModel`, for each body region, while its crossfade is active the owning
node's `(frameA, frameB, lerp)` is `(from, to, min(1, elapsed/duration))` of that crossfade;
when it is not active the node's `(frameA, frameB, lerp)` is `evalAnimFramePair` of the
region's selected clip at the region's clock; the torso crossfade never changes the lower
node and the legs crossfade never changes the upper node. -/
theorem drawModel_node_frames (s : PlayerFrames) (n : PlayerNodes) (hn : s.nodes = some n)
    (tU tL : ℚ) :
    ∃ m : PlayerNodes, (drawModel s tU tL).nodes = some m ∧
      (s.xfades.torsoXFade.active = true →
        m.n_upper.frameA = s.xfades.torsoXFade.fromFrame ∧
        m.n_upper.frameB = s.xfades.torsoXFade.toFrame ∧
        m.n_upper.lerp = min 1 (s.xfades.torsoXFade.elapsed / s.xfades.torsoXFade.duration)) ∧
      (s.xfades.torsoXFade.active = false →
        m.n_upper.frameA = (evalAnimFramePair s.torsoAnim tU).a ∧
        m.n_upper.frameB = (evalAnimFramePair s.torsoAnim tU).b ∧
        m.n_upper.lerp = (evalAnimFramePair s.torsoAnim tU).t) ∧
      (s.xfades.legsXFade.active = true →
        m.n_lower.frameA = s.xfades.legsXFade.fromFrame ∧
        m.n_lower.frameB = s.xfades.legsXFade.toFrame ∧
        m.n_lower.lerp = min 1 (s.xfades.legsXFade.elapsed / s.xfades.legsXFade.duration)) ∧
      (s.xfades.legsXFade.active = false →
        m.n_lower.frameA = (evalAnimFramePair s.legsAnim tL).a ∧
        m.n_lower.frameB = (evalAnimFramePair s.legsAnim tL).b ∧
        m.n_lower.lerp = (evalAnimFramePair s.legsAnim tL).t) ∧
      (∀ x : XFade,
        (drawModel { s with xfades := { s.xfades with torsoXFade := x } } tU tL).nodes.map
          (fun k => k.n_lower) = some m.n_lower) ∧
      (∀ x : XFade,
        (drawModel { s with xfades := { s.xfades with legsXFade := x } } tU tL).nodes.map
          (fun k => k.n_upper) = some m.n_upper) :=
  drawModel_frames s n hn tU tL

/-- Witness for C13: the sample player, whose node system exists. -/
theorem drawModel_node_frames_witness :
    ∃ m : PlayerNodes, (drawModel samplePlayer 0 0).nodes = some m ∧
      m.n_upper.frameA = (evalAnimFramePair samplePlayer.torsoAnim 0).a :=
  let ⟨m, h1, _, h3, _⟩ := drawModel_node_frames samplePlayer
    { n_lower := newNode, n_upper := newNode, n_head := newNode } rfl 0 0
  ⟨m, h1, (h3 rfl).1⟩

/-- On an integer the conversion `x|0` wraps into the signed 32-bit range. -/
theorem toInt32_intCast (k : Int) :
    toInt32 (k : ℚ) =
      if k % 4294967296 ≥ 2147483648 then k % 4294967296 - 4294967296 else k % 4294967296 := by
  simp only [toInt32, Int.floor_intCast, Int.ceil_intCast, ite_self]

/-- A frame index in the non-negative signed 32-bit range survives `Math.max(0, x|0)`. -/
theorem clampFrame_of_range (k : Int) (h0 : 0 ≤ k) (h1 : k < 2147483648) :
    max 0 (toInt32 (k : ℚ)) = k := by
  rw [toInt32_intCast]
  have hm : k % 4294967296 = k := Int.emod_eq_of_lt h0 (by omega)
  rw [hm, if_neg (by omega)]
  exact max_eq_right h0

theorem setPartVariant_upper (s : PlayerFrames) (n : PlayerNodes) (hn : s.nodes = some n)
    (variant : ℚ) (newMax : Int) :
    (setPartVariant s "upper".toList variant newMax).xfades.torsoXFade =
      { active := true, fromFrame := max 0 (toInt32 (n.n_upper.frameA : ℚ)),
        toFrame := max 0 (toInt32 (n.n_upper.frameA : ℚ)), elapsed := 0,
        duration := max (1 / 1000) (2 / 25) } ∧
    (setPartVariant s "upper".toList variant newMax).nodes = some n := by
  have h1 : ¬ ("upper".toList = "head".toList) := by decide
  simp only [setPartVariant, h1, hn, startTorsoCrossfade, Option.getD_some]
  simp

theorem setPartVariant_lower (s : PlayerFrames) (n : PlayerNodes) (hn : s.nodes = some n)
    (variant : ℚ) (newMax : Int) :
    (setPartVariant s "lower".toList variant newMax).xfades.legsXFade =
      { active := true, fromFrame := max 0 (toInt32 (n.n_lower.frameA : ℚ)),
        toFrame := max 0 (toInt32 (n.n_lower.frameA : ℚ)), elapsed := 0,
        duration := max (1 / 1000) (2 / 25) } ∧
    (setPartVariant s "lower".toList variant newMax).nodes = some n := by
  have h1 : ¬ ("lower".toList = "head".toList) := by decide
  have h2 : ¬ ("lower".toList = "upper".toList) := by decide
  simp only [setPartVariant, h1, h2, hn, startLegsCrossfade, Option.getD_some]
  simp

/-- Counterexample to C14 as stated: the player loaded with `negFrameText` selects a torso
clip whose first frame is `-5`, so `drawModel` at time `0` leaves `n_upper.frameA = -5`.
`setPartVariant('upper', 1)` then starts the crossfade with
`from = to = Math.max(0, -5|0) = 0`, and the next `drawModel` gives the node the frames
`0, 0`, not the pre-swap frame `-5`. -/
theorem setPartVariant_pose_counterexample :
    (drawModel negFramePlayer 0 0).nodes.map (fun k => k.n_upper.frameA) = some (-5) ∧
    (setPartVariant (drawModel negFramePlayer 0 0) "upper".toList 1 19).xfades.torsoXFade.active
      = true ∧
    (setPartVariant (drawModel negFramePlayer 0 0) "upper".toList 1 19).xfades.torsoXFade.fromFrame
      = 0 ∧
    (setPartVariant (drawModel negFramePlayer 0 0) "upper".toList 1 19).xfades.torsoXFade.toFrame
      = 0 ∧
    (drawModel (setPartVariant (drawModel negFramePlayer 0 0) "upper".toList 1 19) 0 0).nodes.map
      (fun k => (k.n_upper.frameA, k.n_upper.frameB)) = some (0, 0) := by
  have hclip : negFramePlayer.torsoAnim =
      some { name := "BOTH_DEATH1".toList, numFrames := 10, loopFrames := 0, fps := 10,
             firstFrame := -5 } := by decide
  have hx : negFramePlayer.xfades.torsoXFade.active = false := rfl
  have hfl : Int.floor ((0 : ℚ) * ((10 : Int) : ℚ)) = 0 := by
    rw [Int.floor_eq_iff]; norm_num
  have hev : (evalAnimFramePair negFramePlayer.torsoAnim 0).a = -5 := by
    rw [hclip, evalAnimFramePair_noloop _ _ rfl (by decide) (by decide)]
    simp only [hfl]
    decide
  obtain ⟨m, hm, _, hoff, _⟩ := drawModel_frames negFramePlayer
    { n_lower := newNode, n_upper := newNode, n_head := newNode } rfl 0 0
  have hA : m.n_upper.frameA = -5 := (hoff hx).1.trans hev
  have hto : max 0 (toInt32 ((-5 : Int) : ℚ)) = 0 := by
    rw [toInt32_intCast]
    decide
  obtain ⟨hxf, hnodes⟩ := setPartVariant_upper (drawModel negFramePlayer 0 0) m hm 1 19
  rw [hA, hto] at hxf
  obtain ⟨m2, hm2, hon, _⟩ := drawModel_frames
    (setPartVariant (drawModel negFramePlayer 0 0) "upper".toList 1 19) m hnodes 0 0
  have hact : (setPartVariant (drawModel negFramePlayer 0 0) "upper".toList 1
      19).xfades.torsoXFade.active = true := by rw [hxf]
  obtain ⟨f1, f2, _⟩ := hon hact
  rw [hxf] at f1 f2
  refine ⟨by rw [hm]; simp [hA], hact, by rw [hxf], by rw [hxf], ?_⟩
  rw [hm2]
  simp [f1, f2]

/-- C14 (amended): for `part` in `{upper, lower}` and every `variant` value, once
`setPartVariant(part, variant)` has swapped the mesh, the region's crossfade is active with
`from == to == Math.max(0, frameA|0)` for the `frameA` that the region's node held before
the swap, so the next `drawModel` gives the node `frameA == frameB ==` that value; it is the
pre-swap frame itself whenever `0 <= frameA < 2^31`. -/
theorem setPartVariant_pose (s : PlayerFrames) (n : PlayerNodes) (hn : s.nodes = some n)
    (variant : ℚ) (newMax : Int) :
    ((setPartVariant s "upper".toList variant newMax).xfades.torsoXFade.active = true ∧
      (setPartVariant s "upper".toList variant newMax).xfades.torsoXFade.fromFrame =
        max 0 (toInt32 (n.n_upper.frameA : ℚ)) ∧
      (setPartVariant s "upper".toList variant newMax).xfades.torsoXFade.toFrame =
        max 0 (toInt32 (n.n_upper.frameA : ℚ)) ∧
      (∀ tU tL : ℚ, ∃ m : PlayerNodes,
        (drawModel (setPartVariant s "upper".toList variant newMax) tU tL).nodes = some m ∧
        m.n_upper.frameA = max 0 (toInt32 (n.n_upper.frameA : ℚ)) ∧
        m.n_upper.frameB = max 0 (toInt32 (n.n_upper.frameA : ℚ))) ∧
      (0 ≤ n.n_upper.frameA → n.n_upper.frameA < 2147483648 →
        max 0 (toInt32 (n.n_upper.frameA : ℚ)) = n.n_upper.frameA)) ∧
    ((setPartVariant s "lower".toList variant newMax).xfades.legsXFade.active = true ∧
      (setPartVariant s "lower".toList variant newMax).xfades.legsXFade.fromFrame =
        max 0 (toInt32 (n.n_lower.frameA : ℚ)) ∧
      (setPartVariant s "lower".toList variant newMax).xfades.legsXFade.toFrame =
        max 0 (toInt32 (n.n_lower.frameA : ℚ)) ∧
      (∀ tU tL : ℚ, ∃ m : PlayerNodes,
        (drawModel (setPartVariant s "lower".toList variant newMax) tU tL).nodes = some m ∧
        m.n_lower.frameA = max 0 (toInt32 (n.n_lower.frameA : ℚ)) ∧
        m.n_lower.frameB = max 0 (toInt32 (n.n_lower.frameA : ℚ))) ∧
      (0 ≤ n.n_lower.frameA → n.n_lower.frameA < 2147483648 →
        max 0 (toInt32 (n.n_lower.frameA : ℚ)) = n.n_lower.frameA)) := by
  constructor
  · obtain ⟨hxf, hnodes⟩ := setPartVariant_upper s n hn variant newMax
    refine ⟨by rw [hxf], by rw [hxf], by rw [hxf], ?_, clampFrame_of_range _⟩
    intro tU tL
    obtain ⟨m, hm, hon, _⟩ := drawModel_frames
      (setPartVariant s "upper".toList variant newMax) n hnodes tU tL
    obtain ⟨f1, f2, _⟩ := hon (by rw [hxf])
    rw [hxf] at f1 f2
    exact ⟨m, hm, f1, f2⟩
  · obtain ⟨hxf, hnodes⟩ := setPartVariant_lower s n hn variant newMax
    refine ⟨by rw [hxf], by rw [hxf], by rw [hxf], ?_, clampFrame_of_range _⟩
    intro tU tL
    obtain ⟨m, hm, _, _, hon, _⟩ := drawModel_frames
      (setPartVariant s "lower".toList variant newMax) n hnodes tU tL
    obtain ⟨f1, f2, _⟩ := hon (by rw [hxf])
    rw [hxf] at f1 f2
    exact ⟨m, hm, f1, f2⟩

/-- Witness for C14 (amended): the sample player right after `load()`, whose upper node
holds frame `0`. -/
theorem setPartVariant_pose_witness :
    (setPartVariant samplePlayer "upper".toList 1 199).xfades.torsoXFade.active = true ∧
    (setPartVariant samplePlayer "upper".toList 1 199).xfades.torsoXFade.fromFrame =
      max 0 (toInt32 ((0 : Int) : ℚ)) :=
  ⟨(setPartVariant_pose samplePlayer
      { n_lower := newNode, n_upper := newNode, n_head := newNode } rfl 1 199).1.1,
   (setPartVariant_pose samplePlayer
      { n_lower := newNode, n_upper := newNode, n_head := newNode } rfl 1 199).1.2.1⟩

end Q3_Player

/-! ## Theorems about `vnorm` and `orthonormalizeBasis` -/

namespace Vec3

variable {K : Type} [LinearOrderedField K]

theorem vlen_nonneg (M : JsMath K) (hM : M.Exact) (v : Vec3 K) : 0 ≤ vlen M v :=
  (hM v.x v.y v.z).1

theorem vlen_mul_self (M : JsMath K) (hM : M.Exact) (v : Vec3 K) :
    vlen M v * vlen M v = dot v v :=
  (hM v.x v.y v.z).2

theorem vlen_of_unit (M : JsMath K) (hM : M.Exact) (v : Vec3 K) (h : dot v v = 1) :
    vlen M v = 1 := by
  have h0 := vlen_nonneg M hM v
  have h1 := vlen_mul_self M hM v
  rw [h] at h1
  have h2 : (vlen M v - 1) * (vlen M v + 1) = 0 := by ring_nf; ring_nf at h1; linarith
  rcases mul_eq_zero.mp h2 with h3 | h3
  · linarith
  · linarith

theorem vlen_of_sq (M : JsMath K) (hM : M.Exact) (v : Vec3 K) (l : K) (hl : 0 ≤ l)
    (h : dot v v = l * l) : vlen M v = l := by
  have h0 := vlen_nonneg M hM v
  have h1 := vlen_mul_self M hM v
  rw [h] at h1
  have h2 : (vlen M v - l) * (vlen M v + l) = 0 := by ring_nf; ring_nf at h1; linarith
  rcases mul_eq_zero.mp h2 with h3 | h3
  · linarith
  · have h4 : vlen M v = 0 := by linarith
    have h5 : l = 0 := by linarith
    rw [h4, h5]

theorem vnorm_of_gt (M : JsMath K) (v : Vec3 K) (h : vlen M v > 1 / 100000000) :
    vnorm M v = { x := v.x / vlen M v, y := v.y / vlen M v, z := v.z / vlen M v } := by
  simp only [vnorm, h, if_true]

theorem vnorm_unit (M : JsMath K) (hM : M.Exact) (v : Vec3 K) (h : vlen M v > 1 / 100000000) :
    dot (vnorm M v) (vnorm M v) = 1 := by
  have hpos : 0 < vlen M v := lt_trans (by norm_num) h
  have hne : vlen M v ≠ 0 := ne_of_gt hpos
  have hsq := vlen_mul_self M hM v
  rw [vnorm_of_gt M v h]
  simp only [dot] at hsq ⊢
  field_simp
  linarith

theorem vnorm_of_unit (M : JsMath K) (hM : M.Exact) (v : Vec3 K) (h : dot v v = 1) :
    vnorm M v = v := by
  have h1 := vlen_of_unit M hM v h
  rw [vnorm_of_gt M v (by rw [h1]; norm_num), h1]
  simp

theorem dot_cross_right (a b : Vec3 K) : dot b (cross a b) = 0 := by
  simp only [dot, cross]; ring

theorem dot_cross_left (a b : Vec3 K) : dot a (cross a b) = 0 := by
  simp only [dot, cross]; ring

theorem dot_comm (a b : Vec3 K) : dot a b = dot b a := by
  simp only [dot]; ring

theorem cross_norm_sq (a b : Vec3 K) :
    dot (cross a b) (cross a b) = dot a a * dot b b - dot a b * dot a b := by
  simp only [dot, cross]; ring

/-- Unfolding of `orthonormalizeBasis` when neither `X`, `Z` nor `(Z/|Z|) × (X/|X|)` falls
below the threshold of `vnorm`. -/
theorem orthonormalizeBasis_regular (M : JsMath K) (hM : M.Exact) (X Y Z : Vec3 K)
    (hZ : vlen M Z > 1 / 100000000) :
    orthonormalizeBasis M X Y Z =
      { X := vnorm M X
        Y := vnorm M (cross (vnorm M Z) (vnorm M X))
        Z := vnorm M (cross (vnorm M X) (vnorm M (cross (vnorm M Z) (vnorm M X)))) } := by
  have hz1 : vlen M (vnorm M Z) = 1 := vlen_of_unit M hM _ (vnorm_unit M hM Z hZ)
  have hnot : ¬ vlen M (vnorm M Z) < 1 / 1000000 := by rw [hz1]; norm_num
  simp only [orthonormalizeBasis, hnot, if_false]

/-- C17: for vectors `X`, `Y`, `Z` with `X` and `Z` non-zero and not parallel, above the
thresholds of the code (`|X| > 1e-8`, `|Z| > 1e-8`, `|(Z/|Z|) × (X/|X|)| > 1e-8`),
`orthonormalizeBasis(X, Y, Z)` returns three unit vectors `x`, `y`, `z` that are mutually
perpendicular, with `x = X/|X|`, `y` the normalisation of `(Z/|Z|) × x`, and `z = x × y`. -/
theorem orthonormalizeBasis_orthonormal (M : JsMath K) (hM : M.Exact) (X Y Z : Vec3 K)
    (hX : vlen M X > 1 / 100000000) (hZ : vlen M Z > 1 / 100000000)
    (hXZ : vlen M (cross { x := Z.x / vlen M Z, y := Z.y / vlen M Z, z := Z.z / vlen M Z }
              { x := X.x / vlen M X, y := X.y / vlen M X, z := X.z / vlen M X })
            > 1 / 100000000) :
    (orthonormalizeBasis M X Y Z).X =
        { x := X.x / vlen M X, y := X.y / vlen M X, z := X.z / vlen M X } ∧
    (orthonormalizeBasis M X Y Z).Y =
        { x := (cross { x := Z.x / vlen M Z, y := Z.y / vlen M Z, z := Z.z / vlen M Z }
                  (orthonormalizeBasis M X Y Z).X).x /
                vlen M (cross { x := Z.x / vlen M Z, y := Z.y / vlen M Z, z := Z.z / vlen M Z }
                  (orthonormalizeBasis M X Y Z).X)
          y := (cross { x := Z.x / vlen M Z, y := Z.y / vlen M Z, z := Z.z / vlen M Z }
                  (orthonormalizeBasis M X Y Z).X).y /
                vlen M (cross { x := Z.x / vlen M Z, y := Z.y / vlen M Z, z := Z.z / vlen M Z }
                  (orthonormalizeBasis M X Y Z).X)
          z := (cross { x := Z.x / vlen M Z, y := Z.y / vlen M Z, z := Z.z / vlen M Z }
                  (orthonormalizeBasis M X Y Z).X).z /
                vlen M (cross { x := Z.x / vlen M Z, y := Z.y / vlen M Z, z := Z.z / vlen M Z }
                  (orthonormalizeBasis M X Y Z).X) } ∧
    (orthonormalizeBasis M X Y Z).Z =
        cross (orthonormalizeBasis M X Y Z).X (orthonormalizeBasis M X Y Z).Y ∧
    dot (orthonormalizeBasis M X Y Z).X (orthonormalizeBasis M X Y Z).X = 1 ∧
    dot (orthonormalizeBasis M X Y Z).Y (orthonormalizeBasis M X Y Z).Y = 1 ∧
    dot (orthonormalizeBasis M X Y Z).Z (orthonormalizeBasis M X Y Z).Z = 1 ∧
    dot (orthonormalizeBasis M X Y Z).X (orthonormalizeBasis M X Y Z).Y = 0 ∧
    dot (orthonormalizeBasis M X Y Z).X (orthonormalizeBasis M X Y Z).Z = 0 ∧
    dot (orthonormalizeBasis M X Y Z).Y (orthonormalizeBasis M X Y Z).Z = 0 := by
  rw [orthonormalizeBasis_regular M hM X Y Z hZ]
  rw [← vnorm_of_gt M Z hZ, ← vnorm_of_gt M X hX] at hXZ ⊢
  have hx1 : dot (vnorm M X) (vnorm M X) = 1 := vnorm_unit M hM X hX
  have hy1 : dot (vnorm M (cross (vnorm M Z) (vnorm M X)))
      (vnorm M (cross (vnorm M Z) (vnorm M X))) = 1 := vnorm_unit M hM _ hXZ
  have hcpos : 0 < vlen M (cross (vnorm M Z) (vnorm M X)) := lt_trans (by norm_num) hXZ
  have hxy : dot (vnorm M X) (vnorm M (cross (vnorm M Z) (vnorm M X))) = 0 := by
    have h0 := dot_cross_right (vnorm M Z) (vnorm M X)
    rw [vnorm_of_gt M _ hXZ]
    simp only [dot] at h0 ⊢
    field_simp
    linarith
  have hz1 : dot (cross (vnorm M X) (vnorm M (cross (vnorm M Z) (vnorm M X))))
      (cross (vnorm M X) (vnorm M (cross (vnorm M Z) (vnorm M X)))) = 1 := by
    rw [cross_norm_sq, hx1, hy1, hxy]; ring
  have hz : vnorm M (cross (vnorm M X) (vnorm M (cross (vnorm M Z) (vnorm M X)))) =
      cross (vnorm M X) (vnorm M (cross (vnorm M Z) (vnorm M X))) :=
    vnorm_of_unit M hM _ hz1
  simp only [hz]
  refine ⟨trivial, vnorm_of_gt M _ hXZ, trivial, hx1, hy1, hz1, hxy, dot_cross_left _ _,
    dot_cross_right _ _⟩

/-- The `Math` object over the real numbers is exact. -/
theorem real_exact :
    JsMath.Exact
      ({ hypot := fun a b c => Real.sqrt (a * a + b * b + c * c), sin := Real.sin,
         cos := Real.cos, PI := Real.pi } : JsMath ℝ) := by
  intro a b c
  have h : 0 ≤ a * a + b * b + c * c :=
    add_nonneg (add_nonneg (mul_self_nonneg a) (mul_self_nonneg b)) (mul_self_nonneg c)
  exact ⟨Real.sqrt_nonneg _, Real.mul_self_sqrt h⟩

/-- Witness for C17: over the real numbers, `X = (2, 0, 0)` and `Z = (0, 0, 3)`. -/
theorem orthonormalizeBasis_orthonormal_witness :
    ∃ M : JsMath ℝ, M.Exact ∧
      vlen M { x := 2, y := 0, z := 0 } > 1 / 100000000 ∧
      vlen M { x := 0, y := 0, z := 3 } > 1 / 100000000 ∧
      (orthonormalizeBasis M { x := 2, y := 0, z := 0 } { x := 0, y := 0, z := 0 }
          { x := 0, y := 0, z := 3 }).Z =
        cross
          (orthonormalizeBasis M { x := 2, y := 0, z := 0 } { x := 0, y := 0, z := 0 }
            { x := 0, y := 0, z := 3 }).X
          (orthonormalizeBasis M { x := 2, y := 0, z := 0 } { x := 0, y := 0, z := 0 }
            { x := 0, y := 0, z := 3 }).Y := by
  have hX : vlen _ ({ x := 2, y := 0, z := 0 } : Vec3 ℝ) = 2 :=
    vlen_of_sq _ real_exact _ 2 (by norm_num) (by norm_num [dot])
  have hZ : vlen _ ({ x := 0, y := 0, z := 3 } : Vec3 ℝ) = 3 :=
    vlen_of_sq _ real_exact _ 3 (by norm_num) (by norm_num [dot])
  refine ⟨_, real_exact, by rw [hX]; norm_num, by rw [hZ]; norm_num, ?_⟩
  refine (orthonormalizeBasis_orthonormal _ real_exact _ _ _ (by rw [hX]; norm_num)
    (by rw [hZ]; norm_num) ?_).2.2.1
  rw [hX, hZ]
  have hc : vlen _ (cross ({ x := 0 / 3, y := 0 / 3, z := 3 / 3 } : Vec3 ℝ)
      { x := 2 / 2, y := 0 / 2, z := 0 / 2 }) = 1 :=
    vlen_of_sq _ real_exact _ 1 (by norm_num) (by norm_num [dot, cross])
  rw [hc]
  norm_num

end Vec3

/-! ## Theorems about tag matrices -/

namespace Q3_Object

variable {K : Type} [LinearOrderedField K]

theorem vlerp_zero (a b : Vec3 K) : Vec3.vlerp a b 0 = a := by
  cases a
  simp [Vec3.vlerp]

theorem vlerp_one (a b : Vec3 K) : Vec3.vlerp a b 1 = b := by
  cases b
  simp [Vec3.vlerp]

theorem getLerpedTagMatrix_both (M : JsMath K) (obj : Q3_Object K) (T : List Char)
    (A B : Int) (t : K) (tagA tagB : MD3_Tag K)
    (hA : getTagByName obj T A = some tagA) (hB : getTagByName obj T B = some tagB) :
    getLerpedTagMatrix M obj T A B t =
      some (Matrix.of
        ![![(Vec3.orthonormalizeBasis M (Vec3.vlerp tagA.VEC3_X_AXIS tagB.VEC3_X_AXIS t)
              (Vec3.vlerp tagA.VEC3_Y_AXIS tagB.VEC3_Y_AXIS t)
              (Vec3.vlerp tagA.VEC3_Z_AXIS tagB.VEC3_Z_AXIS t)).X.x,
            (Vec3.orthonormalizeBasis M (Vec3.vlerp tagA.VEC3_X_AXIS tagB.VEC3_X_AXIS t)
              (Vec3.vlerp tagA.VEC3_Y_AXIS tagB.VEC3_Y_AXIS t)
              (Vec3.vlerp tagA.VEC3_Z_AXIS tagB.VEC3_Z_AXIS t)).Y.x,
            (Vec3.orthonormalizeBasis M (Vec3.vlerp tagA.VEC3_X_AXIS tagB.VEC3_X_AXIS t)
              (Vec3.vlerp tagA.VEC3_Y_AXIS tagB.VEC3_Y_AXIS t)
              (Vec3.vlerp tagA.VEC3_Z_AXIS tagB.VEC3_Z_AXIS t)).Z.x,
            (Vec3.vlerp tagA.VEC3_ORIGIN tagB.VEC3_ORIGIN t).x],
          ![(Vec3.orthonormalizeBasis M (Vec3.vlerp tagA.VEC3_X_AXIS tagB.VEC3_X_AXIS t)
              (Vec3.vlerp tagA.VEC3_Y_AXIS tagB.VEC3_Y_AXIS t)
              (Vec3.vlerp tagA.VEC3_Z_AXIS tagB.VEC3_Z_AXIS t)).X.y,
            (Vec3.orthonormalizeBasis M (Vec3.vlerp tagA.VEC3_X_AXIS tagB.VEC3_X_AXIS t)
              (Vec3.vlerp tagA.VEC3_Y_AXIS tagB.VEC3_Y_AXIS t)
              (Vec3.vlerp tagA.VEC3_Z_AXIS tagB.VEC3_Z_AXIS t)).Y.y,
            (Vec3.orthonormalizeBasis M (Vec3.vlerp tagA.VEC3_X_AXIS tagB.VEC3_X_AXIS t)
              (Vec3.vlerp tagA.VEC3_Y_AXIS tagB.VEC3_Y_AXIS t)
              (Vec3.vlerp tagA.VEC3_Z_AXIS tagB.VEC3_Z_AXIS t)).Z.y,
            (Vec3.vlerp tagA.VEC3_ORIGIN tagB.VEC3_ORIGIN t).y],
          ![(Vec3.orthonormalizeBasis M (Vec3.vlerp tagA.VEC3_X_AXIS tagB.VEC3_X_AXIS t)
              (Vec3.vlerp tagA.VEC3_Y_AXIS tagB.VEC3_Y_AXIS t)
              (Vec3.vlerp tagA.VEC3_Z_AXIS tagB.VEC3_Z_AXIS t)).X.z,
            (Vec3.orthonormalizeBasis M (Vec3.vlerp tagA.VEC3_X_AXIS tagB.VEC3_X_AXIS t)
              (Vec3.vlerp tagA.VEC3_Y_AXIS tagB.VEC3_Y_AXIS t)
              (Vec3.vlerp tagA.VEC3_Z_AXIS tagB.VEC3_Z_AXIS t)).Y.z,
            (Vec3.orthonormalizeBasis M (Vec3.vlerp tagA.VEC3_X_AXIS tagB.VEC3_X_AXIS t)
              (Vec3.vlerp tagA.VEC3_Y_AXIS tagB.VEC3_Y_AXIS t)
              (Vec3.vlerp tagA.VEC3_Z_AXIS tagB.VEC3_Z_AXIS t)).Z.z,
            (Vec3.vlerp tagA.VEC3_ORIGIN tagB.VEC3_ORIGIN t).z],
          ![0, 0, 0, 1]]) := by
  simp only [getLerpedTagMatrix, hA, hB]

end Q3_Object

namespace Q3_Object

variable {K : Type} [LinearOrderedField K]

/-- Counterexample to C15 as stated: over the real numbers, a mesh whose only frame holds a
tag with the axes `(2,0,0)`, `(0,2,0)`, `(0,0,2)`. Frame `0` exposes the tag, so `A = B = 0`
qualifies, but `getLerpedTagMatrix(T, 0, 0, 0)` has normalised axes (entry `m[0]` is `1`)
while `tagToMat4` of the tag keeps them (entry `m[0]` is `2`). -/
theorem getLerpedTagMatrix_endpoints_counterexample :
    getTagByName (scaledObject : Q3_Object ℝ) "tag_torso".toList 0 = some scaledTag ∧
    (∃ m : Mat4 ℝ,
      getLerpedTagMatrix
        { hypot := fun a b c => Real.sqrt (a * a + b * b + c * c), sin := Real.sin,
          cos := Real.cos, PI := Real.pi }
        scaledObject "tag_torso".toList 0 0 0 = some m ∧ m 0 0 = 1) ∧
    (tagToMat4 (scaledTag : MD3_Tag ℝ)) 0 0 = 2 ∧
    getLerpedTagMatrix
        { hypot := fun a b c => Real.sqrt (a * a + b * b + c * c), sin := Real.sin,
          cos := Real.cos, PI := Real.pi }
        (scaledObject : Q3_Object ℝ) "tag_torso".toList 0 0 0 ≠ some (tagToMat4 scaledTag) := by
  have hT : getTagByName (scaledObject : Q3_Object ℝ) "tag_torso".toList 0 = some scaledTag := by
    simp [getTagByName, scaledObject, scaledTag]
  have hl : Vec3.vlen
      ({ hypot := fun a b c => Real.sqrt (a * a + b * b + c * c), sin := Real.sin,
         cos := Real.cos, PI := Real.pi } : JsMath ℝ)
      ({ x := 2, y := 0, z := 0 } : Vec3 ℝ) = 2 :=
    Vec3.vlen_of_sq _ Vec3.real_exact _ 2 (by norm_num) (by norm_num [Vec3.dot])
  have hx : (Vec3.orthonormalizeBasis
      ({ hypot := fun a b c => Real.sqrt (a * a + b * b + c * c), sin := Real.sin,
         cos := Real.cos, PI := Real.pi } : JsMath ℝ)
      ({ x := 2, y := 0, z := 0 } : Vec3 ℝ) { x := 0, y := 2, z := 0 }
      { x := 0, y := 0, z := 2 }).X.x = 1 := by
    show (Vec3.vnorm _ ({ x := 2, y := 0, z := 0 } : Vec3 ℝ)).x = 1
    rw [Vec3.vnorm_of_gt _ _ (by rw [hl]; norm_num), hl]
    norm_num
  have hm := getLerpedTagMatrix_both
    ({ hypot := fun a b c => Real.sqrt (a * a + b * b + c * c), sin := Real.sin,
       cos := Real.cos, PI := Real.pi } : JsMath ℝ)
    scaledObject "tag_torso".toList 0 0 0 scaledTag scaledTag hT hT
  simp only [vlerp_zero] at hm
  have h00 : ∃ m : Mat4 ℝ,
      getLerpedTagMatrix
        { hypot := fun a b c => Real.sqrt (a * a + b * b + c * c), sin := Real.sin,
          cos := Real.cos, PI := Real.pi }
        scaledObject "tag_torso".toList 0 0 0 = some m ∧ m 0 0 = 1 :=
    ⟨_, hm, hx⟩
  have h2 : (tagToMat4 (scaledTag : MD3_Tag ℝ)) 0 0 = 2 := by
    simp [tagToMat4, scaledTag]
  refine ⟨hT, h00, h2, ?_⟩
  intro heq
  obtain ⟨m, hm1, hm2⟩ := h00
  rw [hm1] at heq
  have := Option.some.inj heq
  rw [this, h2] at hm2
  norm_num at hm2

/-- C15 (amended): for every model and every pair of frames `A`, `B` that both expose tag
`T`, `getLerpedTagMatrix(T, A, B, 0)` has the origin of frame `A`'s tag component-wise
and, as its three axes, the basis that `orthonormalizeBasis` returns for the three axes of
frame `A`'s tag, not the stored axes; `getLerpedTagMatrix(T, A, B, 1)` is the same for
frame `B`'s tag. -/
theorem getLerpedTagMatrix_endpoints (M : JsMath K) (obj : Q3_Object K)
    (T : List Char) (A B : Int) (tagA tagB : MD3_Tag K)
    (hA : getTagByName obj T A = some tagA) (hB : getTagByName obj T B = some tagB) :
    (∀ basis : Basis3 K,
      basis = Vec3.orthonormalizeBasis M tagA.VEC3_X_AXIS tagA.VEC3_Y_AXIS tagA.VEC3_Z_AXIS →
      getLerpedTagMatrix M obj T A B 0 =
        some (Matrix.of
          ![![basis.X.x, basis.Y.x, basis.Z.x, tagA.VEC3_ORIGIN.x],
            ![basis.X.y, basis.Y.y, basis.Z.y, tagA.VEC3_ORIGIN.y],
            ![basis.X.z, basis.Y.z, basis.Z.z, tagA.VEC3_ORIGIN.z],
            ![0, 0, 0, 1]])) ∧
    (∀ basis : Basis3 K,
      basis = Vec3.orthonormalizeBasis M tagB.VEC3_X_AXIS tagB.VEC3_Y_AXIS tagB.VEC3_Z_AXIS →
      getLerpedTagMatrix M obj T A B 1 =
        some (Matrix.of
          ![![basis.X.x, basis.Y.x, basis.Z.x, tagB.VEC3_ORIGIN.x],
            ![basis.X.y, basis.Y.y, basis.Z.y, tagB.VEC3_ORIGIN.y],
            ![basis.X.z, basis.Y.z, basis.Z.z, tagB.VEC3_ORIGIN.z],
            ![0, 0, 0, 1]])) := by
  constructor
  · intro basis hb
    rw [getLerpedTagMatrix_both M obj T A B 0 tagA tagB hA hB, hb]
    simp only [vlerp_zero]
  · intro basis hb
    rw [getLerpedTagMatrix_both M obj T A B 1 tagA tagB hA hB, hb]
    simp only [vlerp_one]

/-- Witness for C15 (amended): over the real numbers, the mesh `twoTagObject` with
`A = 0`, whose tag has axes of length two, and `B = 1`, whose tag sits at `(1, 2, 3)`: at
blend `0` the matrix has the origin `(0, 0, 0)` of frame `0`, at blend `1` the origin
`(1, 2, 3)` of frame `1`. -/
theorem getLerpedTagMatrix_endpoints_witness :
    ∃ M : JsMath ℝ,
      getTagByName (twoTagObject : Q3_Object ℝ) "tag_torso".toList 0 = some scaledTag ∧
      getTagByName (twoTagObject : Q3_Object ℝ) "tag_torso".toList 1 = some unitTag ∧
      (∃ m : Mat4 ℝ, getLerpedTagMatrix M twoTagObject "tag_torso".toList 0 1 0 = some m ∧
        m 0 0 = (Vec3.orthonormalizeBasis M { x := 2, y := 0, z := 0 } { x := 0, y := 2, z := 0 }
          { x := 0, y := 0, z := 2 }).X.x ∧
        m 0 3 = 0 ∧ m 1 3 = 0 ∧ m 2 3 = 0) ∧
      (∃ m : Mat4 ℝ, getLerpedTagMatrix M twoTagObject "tag_torso".toList 0 1 1 = some m ∧
        m 0 3 = 1 ∧ m 1 3 = 2 ∧ m 2 3 = 3) := by
  have hA : getTagByName (twoTagObject : Q3_Object ℝ) "tag_torso".toList 0 = some scaledTag := by
    simp [getTagByName, twoTagObject, scaledTag]
  have hB : getTagByName (twoTagObject : Q3_Object ℝ) "tag_torso".toList 1 = some unitTag := by
    simp [getTagByName, twoTagObject, unitTag]
  have key : ∀ M : JsMath ℝ,
      (∃ m : Mat4 ℝ, getLerpedTagMatrix M twoTagObject "tag_torso".toList 0 1 0 = some m ∧
        m 0 0 = (Vec3.orthonormalizeBasis M { x := 2, y := 0, z := 0 } { x := 0, y := 2, z := 0 }
          { x := 0, y := 0, z := 2 }).X.x ∧
        m 0 3 = 0 ∧ m 1 3 = 0 ∧ m 2 3 = 0) ∧
      (∃ m : Mat4 ℝ, getLerpedTagMatrix M twoTagObject "tag_torso".toList 0 1 1 = some m ∧
        m 0 3 = 1 ∧ m 1 3 = 2 ∧ m 2 3 = 3) := by
    intro M
    obtain ⟨e0, e1⟩ := getLerpedTagMatrix_endpoints M twoTagObject "tag_torso".toList 0 1
      scaledTag unitTag hA hB
    refine ⟨⟨_, e0 _ rfl, ?_, ?_, ?_, ?_⟩, ⟨_, e1 _ rfl, ?_, ?_, ?_⟩⟩ <;>
      simp [scaledTag, unitTag]
  exact ⟨{ hypot := fun a b c => Real.sqrt (a * a + b * b + c * c), sin := Real.sin,
           cos := Real.cos, PI := Real.pi }, hA, hB, key _⟩

end Q3_Object

/-! ## Theorems about `Q3_DepNode.updateTransformation` -/

set_option linter.unusedSectionVars false

namespace Q3_DepNode

variable {K : Type} [LinearOrderedField K]

theorem SameButMatrices.refl (a : Q3_DepNode K) : SameButMatrices a a := rfl

theorem SameButMatrices.trans {a b c : Q3_DepNode K} (h1 : SameButMatrices a b)
    (h2 : SameButMatrices b c) : SameButMatrices a c := by
  unfold SameButMatrices at *
  rw [h2, h1]

theorem SameButMatrices.children {a b : Q3_DepNode K} (h : SameButMatrices a b) :
    b.child_nodes = a.child_nodes := by
  unfold SameButMatrices at h
  rw [h]

theorem SameButMatrices.write (a : Q3_DepNode K) (l w : Mat4 K) :
    SameButMatrices a { a with localMatrix := l, worldMatrix := w } := rfl

/-- The local matrix of a node is computed from fields that the pass never writes. -/
theorem localMatrixOf_congr (M : JsMath K) (s t : NodeStore K)
    (h : ∀ x, SameButMatrices (s x) (t x)) (n : Nat) :
    localMatrixOf M t n = localMatrixOf M s n := by
  have hf : ∀ x, (t x).parent_node = (s x).parent_node ∧ (t x).tag_name = (s x).tag_name ∧
      (t x).q3_object = (s x).q3_object ∧ (t x).frameA = (s x).frameA ∧
      (t x).frameB = (s x).frameB ∧ (t x).lerp = (s x).lerp ∧
      (t x).baseOffsetY = (s x).baseOffsetY ∧ (t x).baseTransform = (s x).baseTransform ∧
      (t x).characterTransform = (s x).characterTransform := by
    intro x
    have hx := h x
    unfold SameButMatrices at hx
    rw [hx]
    exact ⟨rfl, rfl, rfl, rfl, rfl, rfl, rfl, rfl, rfl⟩
  obtain ⟨a1, a2, _, _, _, _, a7, a8, a9⟩ := hf n
  unfold localMatrixOf
  rw [a1, a2, a7, a8, a9]
  cases hp : (s n).parent_node with
  | none => rfl
  | some p =>
    obtain ⟨_, _, b3, b4, b5, b6, _, _, _⟩ := hf p
    simp only [b3, b4, b5, b6]

theorem visitAll_congr (f g : Nat → Option (List Nat)) (cs : List Nat)
    (h : ∀ c, f c = g c) : visitAll f cs = visitAll g cs := by
  induction cs with
  | nil => rfl
  | cons c rest ih => simp only [visitAll, h c, ih]

/-- The order of the visits depends on the child lists only. -/
theorem visitOrder_congr (s t : NodeStore K)
    (h : ∀ x, (t x).child_nodes = (s x).child_nodes) (fuel n : Nat) :
    visitOrder t fuel n = visitOrder s fuel n := by
  induction fuel generalizing n with
  | zero => rfl
  | succ k ih =>
    simp only [visitOrder, h n]
    rw [visitAll_congr _ _ _ (fun c => ih c)]

theorem visitAll_cons_some (f : Nat → Option (List Nat)) (c : Nat) (rest ls : List Nat)
    (h : visitAll f (c :: rest) = some ls) :
    ∃ l1 l2, f c = some l1 ∧ visitAll f rest = some l2 ∧ ls = l1 ++ l2 := by
  simp only [visitAll] at h
  cases h1 : f c with
  | none => simp [h1] at h
  | some l1 =>
    cases h2 : visitAll f rest with
    | none => simp [h1, h2] at h
    | some l2 =>
      simp only [h1, h2, Option.some.injEq] at h
      exact ⟨l1, l2, rfl, rfl, h.symm⟩

theorem visitOrder_succ_some (s : NodeStore K) (fuel self : Nat) (l : List Nat)
    (h : visitOrder s (fuel + 1) self = some l) :
    ∃ ls, visitAll (fun child => visitOrder s fuel child) (s self).child_nodes = some ls ∧
      l = self :: ls := by
  simp only [visitOrder] at h
  cases h1 : visitAll (fun child => visitOrder s fuel child) (s self).child_nodes with
  | none => simp [h1] at h
  | some ls =>
    simp only [h1, Option.map_some', Option.some.injEq] at h
    exact ⟨ls, rfl, h.symm⟩

/-- The list of visited nodes starts with the root and holds the children of each of its
members. -/
theorem visitOrder_closed (s : NodeStore K) (fuel : Nat) :
    ∀ (self : Nat) (l : List Nat), visitOrder s fuel self = some l →
      self ∈ l ∧ ∀ p ∈ l, ∀ n ∈ (s p).child_nodes, n ∈ l := by
  induction fuel with
  | zero => intro self l h; simp [visitOrder] at h
  | succ k ih =>
    intro self l h
    obtain ⟨ls, hls, rfl⟩ := visitOrder_succ_some s k self l h
    have hall : ∀ (cs : List Nat) (ls : List Nat),
        visitAll (fun child => visitOrder s k child) cs = some ls →
        (∀ c ∈ cs, c ∈ ls) ∧ ∀ p ∈ ls, ∀ n ∈ (s p).child_nodes, n ∈ ls := by
      intro cs
      induction cs with
      | nil =>
        intro ls h0
        simp only [visitAll, Option.some.injEq] at h0
        subst h0
        exact ⟨fun c hc => absurd hc (List.not_mem_nil c), fun p hp => absurd hp (List.not_mem_nil p)⟩
      | cons c rest ihc =>
        intro ls h0
        obtain ⟨l1, l2, e1, e2, rfl⟩ := visitAll_cons_some _ c rest ls h0
        obtain ⟨a1, a2⟩ := ih c l1 e1
        obtain ⟨b1, b2⟩ := ihc l2 e2
        constructor
        · intro x hx
          rcases List.mem_cons.mp hx with hx | hx
          · subst hx; exact List.mem_append_left _ a1
          · exact List.mem_append_right _ (b1 x hx)
        · intro p hp n hn
          rcases List.mem_append.mp hp with hp | hp
          · exact List.mem_append_left _ (a2 p hp n hn)
          · exact List.mem_append_right _ (b2 p hp n hn)
    obtain ⟨c1, c2⟩ := hall _ ls hls
    refine ⟨List.mem_cons_self _ _, ?_⟩
    intro p hp n hn
    rcases List.mem_cons.mp hp with hp | hp
    · subst hp; exact List.mem_cons_of_mem _ (c1 n hn)
    · exact List.mem_cons_of_mem _ (c2 p hp n hn)

/-- The loop over the children, given what a pass with the smaller bound does. -/
theorem forChildren_pass (M : JsMath K) (fuel : Nat) (w : Mat4 K)
    (IH : ∀ (s : NodeStore K) (self : Nat) (pw : Option (Mat4 K)) (l : List Nat),
      visitOrder s fuel self = some l →
      ∃ t, updateTransformation M fuel s self pw = some t ∧
        (∀ x, SameButMatrices (s x) (t x)) ∧ (∀ x, x ∉ l → t x = s x) ∧
        (l.Nodup →
          (t self).localMatrix = localMatrixOf M s self ∧
          (t self).worldMatrix = worldMatrixOf pw (localMatrixOf M s self) ∧
          ∀ p ∈ l, ∀ n ∈ (s p).child_nodes,
            (t n).localMatrix = localMatrixOf M s n ∧
            (t n).worldMatrix = (t p).worldMatrix * (t n).localMatrix)) :
    ∀ (cs : List Nat) (s0 : NodeStore K) (ls : List Nat),
      visitAll (fun c => visitOrder s0 fuel c) cs = some ls →
      ∃ t, forChildren (fun st child => updateTransformation M fuel st child (some w)) cs s0
            = some t ∧
        (∀ x, SameButMatrices (s0 x) (t x)) ∧ (∀ x, x ∉ ls → t x = s0 x) ∧
        (ls.Nodup →
          (∀ c ∈ cs, (t c).localMatrix = localMatrixOf M s0 c ∧
            (t c).worldMatrix = w * (t c).localMatrix) ∧
          ∀ p ∈ ls, ∀ n ∈ (s0 p).child_nodes,
            (t n).localMatrix = localMatrixOf M s0 n ∧
            (t n).worldMatrix = (t p).worldMatrix * (t n).localMatrix) := by
  intro cs
  induction cs with
  | nil =>
    intro s0 ls h
    simp only [visitAll, Option.some.injEq] at h
    subst h
    refine ⟨s0, rfl, fun x => SameButMatrices.refl _, fun x _ => rfl, fun _ => ⟨?_, ?_⟩⟩
    · intro c hc; exact absurd hc (List.not_mem_nil c)
    · intro p hp; exact absurd hp (List.not_mem_nil p)
  | cons c rest ihc =>
    intro s0 ls h
    obtain ⟨l1, l2, e1, e2, rfl⟩ := visitAll_cons_some _ c rest ls h
    obtain ⟨s1, u1, F1, O1, R1⟩ := IH s0 c (some w) l1 e1
    have hch : ∀ x, (s1 x).child_nodes = (s0 x).child_nodes := fun x => (F1 x).children
    have e2' : visitAll (fun c => visitOrder s1 fuel c) rest = some l2 := by
      rw [visitAll_congr _ _ rest (fun c => visitOrder_congr s0 s1 hch fuel c)]
      exact e2
    obtain ⟨t, u2, F2, O2, R2⟩ := ihc s1 l2 e2'
    obtain ⟨hc1, hclosed⟩ := visitOrder_closed s0 fuel c l1 e1
    refine ⟨t, ?_, fun x => (F1 x).trans (F2 x), ?_, ?_⟩
    · simp only [forChildren, u1]
      exact u2
    · intro x hx
      have hx1 : x ∉ l1 := fun hmem => hx (List.mem_append_left _ hmem)
      have hx2 : x ∉ l2 := fun hmem => hx (List.mem_append_right _ hmem)
      rw [O2 x hx2, O1 x hx1]
    · intro hnd
      obtain ⟨nd1, nd2, hdis⟩ := List.nodup_append.mp hnd
      obtain ⟨r1, r2, r3⟩ := R1 nd1
      obtain ⟨q1, q2⟩ := R2 nd2
      have hout : ∀ x, x ∈ l1 → t x = s1 x := fun x hx => O2 x (fun h2 => hdis hx h2)
      constructor
      · intro x hx
        rcases List.mem_cons.mp hx with hx | hx
        · subst hx
          rw [hout x hc1, r1, r2]
          exact ⟨rfl, rfl⟩
        · obtain ⟨a, b⟩ := q1 x hx
          rw [localMatrixOf_congr M s0 s1 F1 x] at a
          exact ⟨a, b⟩
      · intro p hp n hn
        rcases List.mem_append.mp hp with hp | hp
        · have hnl : n ∈ l1 := hclosed p hp n hn
          rw [hout p hp, hout n hnl]
          exact r3 p hp n hn
        · have hn' : n ∈ (s1 p).child_nodes := by rw [hch p]; exact hn
          obtain ⟨a, b⟩ := q2 p hp n hn'
          rw [localMatrixOf_congr M s0 s1 F1 n] at a
          exact ⟨a, b⟩

/-- One pass of `updateTransformation` over nodes whose visit list exists: the pass
returns, writes only the two matrices of the visited nodes and, when no node is visited
twice, leaves in each visited node the matrices computed from its parent. -/
theorem updateTransformation_pass (M : JsMath K) (fuel : Nat) :
    ∀ (s : NodeStore K) (self : Nat) (pw : Option (Mat4 K)) (l : List Nat),
      visitOrder s fuel self = some l →
      ∃ t, updateTransformation M fuel s self pw = some t ∧
        (∀ x, SameButMatrices (s x) (t x)) ∧ (∀ x, x ∉ l → t x = s x) ∧
        (l.Nodup →
          (t self).localMatrix = localMatrixOf M s self ∧
          (t self).worldMatrix = worldMatrixOf pw (localMatrixOf M s self) ∧
          ∀ p ∈ l, ∀ n ∈ (s p).child_nodes,
            (t n).localMatrix = localMatrixOf M s n ∧
            (t n).worldMatrix = (t p).worldMatrix * (t n).localMatrix) := by
  induction fuel with
  | zero => intro s self pw l h; simp [visitOrder] at h
  | succ k ih =>
    intro s self pw l h
    obtain ⟨ls, hls, rfl⟩ := visitOrder_succ_some s k self l h
    have hF1 : ∀ x, SameButMatrices (s x)
        (Function.update s self
          { s self with localMatrix := localMatrixOf M s self,
                        worldMatrix := worldMatrixOf pw (localMatrixOf M s self) } x) := by
      intro x
      by_cases hx : x = self
      · subst hx
        rw [Function.update_same]
        exact SameButMatrices.write _ _ _
      · rw [Function.update_noteq hx]
        exact SameButMatrices.refl _
    have hch : ∀ x, (Function.update s self
          { s self with localMatrix := localMatrixOf M s self,
                        worldMatrix := worldMatrixOf pw (localMatrixOf M s self) } x).child_nodes
        = (s x).child_nodes := fun x => (hF1 x).children
    have hls' : visitAll (fun c => visitOrder (Function.update s self
          { s self with localMatrix := localMatrixOf M s self,
                        worldMatrix := worldMatrixOf pw (localMatrixOf M s self) }) k c)
        (s self).child_nodes = some ls := by
      rw [visitAll_congr _ _ _ (fun c => visitOrder_congr s _ hch k c)]
      exact hls
    obtain ⟨t, u, F2, O2, R2⟩ := forChildren_pass M k
      (worldMatrixOf pw (localMatrixOf M s self)) ih (s self).child_nodes _ ls hls'
    refine ⟨t, ?_, fun x => (hF1 x).trans (F2 x), ?_, ?_⟩
    · simp only [updateTransformation, Function.update_same]
      exact u
    · intro x hx
      have hx1 : x ≠ self := fun e => hx (e ▸ List.mem_cons_self _ _)
      have hx2 : x ∉ ls := fun hmem => hx (List.mem_cons_of_mem _ hmem)
      rw [O2 x hx2, Function.update_noteq hx1]
    · intro hnd
      obtain ⟨hself, nd⟩ := List.nodup_cons.mp hnd
      obtain ⟨q1, q2⟩ := R2 nd
      have hts : t self = Function.update s self
          { s self with localMatrix := localMatrixOf M s self,
                        worldMatrix := worldMatrixOf pw (localMatrixOf M s self) } self :=
        O2 self hself
      rw [Function.update_same] at hts
      refine ⟨by rw [hts], by rw [hts], ?_⟩
      intro p hp n hn
      rcases List.mem_cons.mp hp with hp | hp
      · subst hp
        obtain ⟨a, b⟩ := q1 n hn
        rw [localMatrixOf_congr M s _ hF1 n] at a
        refine ⟨a, ?_⟩
        rw [b, hts]
      · have hn' : n ∈ (Function.update s self
            { s self with localMatrix := localMatrixOf M s self,
                          worldMatrix := worldMatrixOf pw (localMatrixOf M s self) } p).child_nodes := by
          rw [hch p]; exact hn
        obtain ⟨a, b⟩ := q2 p hp n hn'
        rw [localMatrixOf_congr M s _ hF1 n] at a
        exact ⟨a, b⟩

end Q3_DepNode

/-! ## Theorems about the parent links of `Q3_DepNode` -/

set_option linter.unusedSectionVars false

namespace Q3_DepNode

variable {K : Type} [LinearOrderedField K]

/-- The links after `setParentNode`. -/
theorem setParentNode_links (s : NodeStore K) (c : Nat) (newp : Option Nat)
    (tag : Option (List Char)) (x : Nat) :
    ((setParentNode s c newp tag) x).parent_node =
        (if x = c then newp else (s x).parent_node) ∧
    ((setParentNode s c newp tag) x).child_nodes =
        (if (s c).parent_node = some x then (s x).child_nodes.erase c else (s x).child_nodes) ++
        (if newp = some x then [c] else []) := by
  unfold setParentNode
  cases hP : (s c).parent_node with
  | none =>
    cases newp with
    | none =>
      by_cases hxc : x = c
      · subst hxc; simp [hP]
      · simp [Function.update_noteq hxc, hxc]
    | some q =>
      by_cases hxq : x = q
      · subst hxq
        by_cases hxc : x = c
        · subst hxc; simp [hP]
        · simp [Function.update_noteq hxc, hxc]
      · have hqx : ¬ q = x := fun h => hxq h.symm
        by_cases hxc : x = c
        · subst hxc; simp [Function.update_noteq hxq, hqx, hP]
        · simp [Function.update_noteq hxq, Function.update_noteq hxc, hxc, hqx]
  | some p =>
    cases newp with
    | none =>
      by_cases hxc : x = c
      · subst hxc
        by_cases hxp : x = p
        · subst hxp; simp
        · have hpx : ¬ p = x := fun h => hxp h.symm
          simp [Function.update_noteq hxp, hpx, hP]
      · by_cases hxp : x = p
        · subst hxp; simp [Function.update_noteq hxc, hxc]
        · have hpx : ¬ p = x := fun h => hxp h.symm
          simp [Function.update_noteq hxc, Function.update_noteq hxp, hxc, hpx]
    | some q =>
      by_cases hxq : x = q
      · subst hxq
        by_cases hxc : x = c
        · subst hxc
          by_cases hxp : x = p
          · subst hxp; simp
          · have hpx : ¬ p = x := fun h => hxp h.symm
            simp [Function.update_noteq hxp, hpx, hP]
        · by_cases hxp : x = p
          · subst hxp; simp [Function.update_noteq hxc, hxc]
          · have hpx : ¬ p = x := fun h => hxp h.symm
            simp [Function.update_noteq hxc, Function.update_noteq hxp, hxc, hpx]
      · have hqx : ¬ q = x := fun h => hxq h.symm
        by_cases hxc : x = c
        · subst hxc
          by_cases hxp : x = p
          · subst hxp; simp [Function.update_noteq hxq, hqx]
          · have hpx : ¬ p = x := fun h => hxp h.symm
            simp [Function.update_noteq hxq, Function.update_noteq hxp, hqx, hpx, hP]
        · by_cases hxp : x = p
          · subst hxp; simp [Function.update_noteq hxq, Function.update_noteq hxc, hxc, hqx]
          · have hpx : ¬ p = x := fun h => hxp h.symm
            simp [Function.update_noteq hxq, Function.update_noteq hxc,
              Function.update_noteq hxp, hxc, hqx, hpx]

/-- The links after `setAsTopLevelNode`. -/
theorem setAsTopLevelNode_links (M : JsMath K) (s : NodeStore K) (c : Nat) (x : Nat) :
    ((setAsTopLevelNode M s c) x).parent_node =
        (if x = c then none else (s x).parent_node) ∧
    ((setAsTopLevelNode M s c) x).child_nodes =
        (if (s c).parent_node = some x then (s x).child_nodes.filter (fun n => n ≠ c)
         else (s x).child_nodes) := by
  unfold setAsTopLevelNode
  cases hP : (s c).parent_node with
  | none =>
    by_cases hxc : x = c
    · subst hxc; simp [hP]
    · simp [Function.update_noteq hxc, hxc]
  | some p =>
    by_cases hxc : x = c
    · subst hxc
      by_cases hxp : x = p
      · subst hxp; simp
      · have hpx : ¬ p = x := fun h => hxp h.symm
        simp [Function.update_noteq hxp, hpx]
    · by_cases hxp : x = p
      · subst hxp; simp [Function.update_noteq hxc, hxc]
      · have hpx : ¬ p = x := fun h => hxp h.symm
        simp [Function.update_noteq hxc, Function.update_noteq hxp, hxc, hpx]

theorem freshStore_inv (obj : Q3_Object K) : LinkInv (freshStore obj) := by
  constructor
  · intro c p
    simp [freshStore, new]
  · intro p
    simp [freshStore, new]

theorem setParentNode_inv (s : NodeStore K) (c : Nat) (newp : Option Nat)
    (tag : Option (List Char)) (h : LinkInv s) : LinkInv (setParentNode s c newp tag) := by
  obtain ⟨h1, h2⟩ := h
  have hbase : ∀ x, c ∉ (if (s c).parent_node = some x then (s x).child_nodes.erase c
      else (s x).child_nodes) := by
    intro x
    by_cases hp : (s c).parent_node = some x
    · rw [if_pos hp]
      exact (h2 x).not_mem_erase
    · rw [if_neg hp]
      exact fun hmem => hp ((h1 c x).mp hmem)
  constructor
  · intro d p
    rw [(setParentNode_links s c newp tag d).1, (setParentNode_links s c newp tag p).2,
      List.mem_append]
    by_cases hd : d = c
    · subst hd
      rw [if_pos rfl]
      constructor
      · intro hm
        rcases hm with hm | hm
        · exact absurd hm (hbase p)
        · by_cases hq : newp = some p
          · exact hq
          · rw [if_neg hq] at hm
            exact absurd hm (List.not_mem_nil _)
      · intro hq
        right
        rw [if_pos hq]
        exact List.mem_singleton_self _
    · rw [if_neg hd]
      have hsecond : ¬ d ∈ (if newp = some p then [c] else []) := by
        intro hm
        by_cases hq : newp = some p
        · rw [if_pos hq] at hm
          exact hd (List.mem_singleton.mp hm)
        · rw [if_neg hq] at hm
          exact absurd hm (List.not_mem_nil _)
      constructor
      · intro hm
        rcases hm with hm | hm
        · by_cases hp : (s c).parent_node = some p
          · rw [if_pos hp] at hm
            exact (h1 d p).mp (List.mem_of_mem_erase hm)
          · rw [if_neg hp] at hm
            exact (h1 d p).mp hm
        · exact absurd hm hsecond
      · intro hpar
        left
        have hmem := (h1 d p).mpr hpar
        by_cases hp : (s c).parent_node = some p
        · rw [if_pos hp]
          exact ((h2 p).mem_erase_iff).mpr ⟨hd, hmem⟩
        · rw [if_neg hp]
          exact hmem
  · intro p
    rw [(setParentNode_links s c newp tag p).2]
    refine List.nodup_append.mpr ⟨?_, ?_, ?_⟩
    · by_cases hp : (s c).parent_node = some p
      · rw [if_pos hp]
        exact (h2 p).erase c
      · rw [if_neg hp]
        exact h2 p
    · by_cases hq : newp = some p
      · rw [if_pos hq]
        exact List.nodup_singleton c
      · rw [if_neg hq]
        exact List.nodup_nil
    · intro a ha hb
      by_cases hq : newp = some p
      · rw [if_pos hq] at hb
        rw [List.mem_singleton.mp hb] at ha
        exact hbase p ha
      · rw [if_neg hq] at hb
        exact absurd hb (List.not_mem_nil _)

theorem setAsTopLevelNode_inv (M : JsMath K) (s : NodeStore K) (c : Nat) (h : LinkInv s) :
    LinkInv (setAsTopLevelNode M s c) := by
  obtain ⟨h1, h2⟩ := h
  constructor
  · intro d p
    rw [(setAsTopLevelNode_links M s c d).1, (setAsTopLevelNode_links M s c p).2]
    by_cases hd : d = c
    · subst hd
      rw [if_pos rfl]
      constructor
      · intro hm
        by_cases hp : (s d).parent_node = some p
        · rw [if_pos hp] at hm
          have := (List.mem_filter.mp hm).2
          simp at this
        · rw [if_neg hp] at hm
          exact absurd ((h1 d p).mp hm) hp
      · intro hn
        exact Option.noConfusion hn
    · rw [if_neg hd]
      by_cases hp : (s c).parent_node = some p
      · rw [if_pos hp]
        constructor
        · intro hm
          exact (h1 d p).mp (List.mem_filter.mp hm).1
        · intro hpar
          exact List.mem_filter.mpr ⟨(h1 d p).mpr hpar, by simpa using hd⟩
      · rw [if_neg hp]
        exact h1 d p
  · intro p
    rw [(setAsTopLevelNode_links M s c p).2]
    by_cases hp : (s c).parent_node = some p
    · rw [if_pos hp]
      exact (h2 p).filter _
    · rw [if_neg hp]
      exact h2 p

theorem applyCalls_inv (M : JsMath K) (s : NodeStore K) (calls : List LinkCall)
    (h : LinkInv s) : LinkInv (applyCalls M s calls) := by
  induction calls generalizing s with
  | nil => exact h
  | cons call rest ih =>
    simp only [applyCalls, List.foldl_cons]
    apply ih
    cases call with
    | setParentNode node newp tag => exact setParentNode_inv s node newp tag h
    | setAsTopLevelNode node => exact setAsTopLevelNode_inv M s node h

end Q3_DepNode

namespace Q3_DepNode

variable {K : Type} [LinearOrderedField K]

/-- Counterexample to C20 as stated: after `n.setParentNode(n, "tag_torso")` on a fresh node
`n` (node 0), `n.child_nodes` is `[n]`; detaching with `n.setParentNode(null)` clears
`n.parent_node` and also empties `n.child_nodes`. -/
theorem link_invariant_counterexample :
    (selfParentStore 0).parent_node = some 0 ∧
    (selfParentStore 0).child_nodes = [0] ∧
    ((setParentNode selfParentStore 0 none none) 0).parent_node = none ∧
    ((setParentNode selfParentStore 0 none none) 0).child_nodes = [] ∧
    ((setParentNode selfParentStore 0 none none) 0).child_nodes ≠
      (selfParentStore 0).child_nodes := by
  have h1 : (selfParentStore 0).parent_node = some 0 := by
    unfold selfParentStore
    rw [(setParentNode_links _ 0 (some 0) _ 0).1]
    simp
  have h2 : (selfParentStore 0).child_nodes = [0] := by
    unfold selfParentStore
    rw [(setParentNode_links _ 0 (some 0) _ 0).2]
    simp [freshStore, new]
  have h3 : ((setParentNode selfParentStore 0 none none) 0).parent_node = none := by
    rw [(setParentNode_links _ 0 none _ 0).1]
    simp
  have h4 : ((setParentNode selfParentStore 0 none none) 0).child_nodes = [] := by
    rw [(setParentNode_links _ 0 none _ 0).2, h1, h2]
    simp
  refine ⟨h1, h2, h3, h4, ?_⟩
  rw [h4, h2]
  simp

/-- C20 (amended): every sequence of `setParentNode` and `setAsTopLevelNode` calls on nodes
created by the constructor preserves the invariant that a node `c` is contained in
`p.child_nodes` if and only if `c.parent_node == p`, and at most once; reparenting `c` from
`p` to another node `q` removes `c` from `p.child_nodes` and puts it into `q.child_nodes`;
detaching (`setParentNode(null)` or `setAsTopLevelNode`) clears `c.parent_node`, and leaves
`c.child_nodes` unchanged unless `c` was its own parent. -/
theorem link_invariant (M : JsMath K) (obj : Q3_Object K) :
    (∀ calls : List LinkCall, LinkInv (applyCalls M (freshStore obj) calls)) ∧
    (∀ (s : NodeStore K) (c p q : Nat) (tag : Option (List Char)),
      LinkInv s → (s c).parent_node = some p → q ≠ p →
      c ∉ ((setParentNode s c (some q) tag) p).child_nodes ∧
      c ∈ ((setParentNode s c (some q) tag) q).child_nodes ∧
      ((setParentNode s c (some q) tag) c).parent_node = some q) ∧
    (∀ (s : NodeStore K) (c : Nat) (tag : Option (List Char)),
      ((setParentNode s c none tag) c).parent_node = none ∧
      ((setAsTopLevelNode M s c) c).parent_node = none) ∧
    (∀ (s : NodeStore K) (c : Nat) (tag : Option (List Char)),
      (s c).parent_node ≠ some c →
      ((setParentNode s c none tag) c).child_nodes = (s c).child_nodes ∧
      ((setAsTopLevelNode M s c) c).child_nodes = (s c).child_nodes) := by
  refine ⟨fun calls => applyCalls_inv M _ calls (freshStore_inv obj), ?_, ?_, ?_⟩
  · intro s c p q tag hinv hp hq
    have hqp : ¬ (some q = some p) := fun h => hq (Option.some.inj h)
    refine ⟨?_, ?_, ?_⟩
    · rw [(setParentNode_links s c (some q) tag p).2, if_pos hp, if_neg hqp, List.append_nil]
      exact (hinv.2 p).not_mem_erase
    · rw [(setParentNode_links s c (some q) tag q).2, if_pos rfl]
      exact List.mem_append_right _ (List.mem_singleton_self _)
    · rw [(setParentNode_links s c (some q) tag c).1, if_pos rfl]
  · intro s c tag
    constructor
    · rw [(setParentNode_links s c none tag c).1, if_pos rfl]
    · rw [(setAsTopLevelNode_links M s c c).1, if_pos rfl]
  · intro s c tag hself
    constructor
    · rw [(setParentNode_links s c none tag c).2, if_neg hself]
      simp
    · rw [(setAsTopLevelNode_links M s c c).2, if_neg hself]

/-- Witness for C20 (amended): over the real numbers, `n_upper` (node 1) attached to
`n_lower` (node 0) is reparented to node 2. -/
theorem link_invariant_witness :
    ∃ M : JsMath ℝ,
      LinkInv (applyCalls M (freshStore Q3_Object.bareObject)
        [LinkCall.setParentNode 1 (some 0) (some "tag_torso".toList)]) ∧
      1 ∉ ((setParentNode (applyCalls M (freshStore Q3_Object.bareObject)
        [LinkCall.setParentNode 1 (some 0) (some "tag_torso".toList)]) 1 (some 2) none)
          0).child_nodes := by
  have key : ∀ M : JsMath ℝ,
      LinkInv (applyCalls M (freshStore Q3_Object.bareObject)
        [LinkCall.setParentNode 1 (some 0) (some "tag_torso".toList)]) ∧
      1 ∉ ((setParentNode (applyCalls M (freshStore Q3_Object.bareObject)
        [LinkCall.setParentNode 1 (some 0) (some "tag_torso".toList)]) 1 (some 2) none)
          0).child_nodes := by
    intro M
    refine ⟨(link_invariant M Q3_Object.bareObject).1 _, ?_⟩
    refine ((link_invariant M Q3_Object.bareObject).2.1 _ 1 0 2 none
      ((link_invariant M Q3_Object.bareObject).1 _) ?_ (by decide)).1
    simp only [applyCalls, List.foldl_cons, List.foldl_nil, applyCall]
    rw [(setParentNode_links _ 1 (some 0) _ 1).1, if_pos rfl]
  exact ⟨{ hypot := fun a b c => Real.sqrt (a * a + b * b + c * c), sin := Real.sin,
           cos := Real.cos, PI := Real.pi }, key _⟩

end Q3_DepNode

namespace Q3_DepNode

variable {K : Type} [LinearOrderedField K]

/-- A visited node other than the root is a child of a visited node. -/
theorem visitOrder_parent (s : NodeStore K) (fuel : Nat) :
    ∀ (self : Nat) (l : List Nat), visitOrder s fuel self = some l →
      ∀ n ∈ l, n = self ∨ ∃ p ∈ l, n ∈ (s p).child_nodes := by
  induction fuel with
  | zero => intro self l h; simp [visitOrder] at h
  | succ k ih =>
    intro self l h
    obtain ⟨ls, hls, rfl⟩ := visitOrder_succ_some s k self l h
    have hall : ∀ (cs : List Nat) (ls : List Nat),
        visitAll (fun child => visitOrder s k child) cs = some ls →
        ∀ n ∈ ls, n ∈ cs ∨ ∃ p ∈ ls, n ∈ (s p).child_nodes := by
      intro cs
      induction cs with
      | nil =>
        intro ls h0 n hn
        simp only [visitAll, Option.some.injEq] at h0
        subst h0
        exact absurd hn (List.not_mem_nil n)
      | cons c rest ihc =>
        intro ls h0 n hn
        obtain ⟨l1, l2, e1, e2, rfl⟩ := visitAll_cons_some _ c rest ls h0
        rcases List.mem_append.mp hn with hn | hn
        · rcases ih c l1 e1 n hn with h1 | ⟨p, hp, hpn⟩
          · left; rw [h1]; exact List.mem_cons_self _ _
          · right; exact ⟨p, List.mem_append_left _ hp, hpn⟩
        · rcases ihc l2 e2 n hn with h1 | ⟨p, hp, hpn⟩
          · left; exact List.mem_cons_of_mem _ h1
          · right; exact ⟨p, List.mem_append_right _ hp, hpn⟩
    intro n hn
    rcases List.mem_cons.mp hn with hn | hn
    · left; exact hn
    · right
      rcases hall _ ls hls n hn with h1 | ⟨p, hp, hpn⟩
      · exact ⟨self, List.mem_cons_self _ _, h1⟩
      · exact ⟨p, List.mem_cons_of_mem _ hp, hpn⟩

theorem SameButMatrices.fields {a b : Q3_DepNode K} (h : SameButMatrices a b) :
    b.parent_node = a.parent_node ∧ b.child_nodes = a.child_nodes ∧ b.frameA = a.frameA ∧
    b.frameB = a.frameB ∧ b.lerp = a.lerp := by
  unfold SameButMatrices at h
  rw [h]
  exact ⟨rfl, rfl, rfl, rfl, rfl⟩

/-- C18: after one call `root.updateTransformation(null)` on a finite node tree (the visit
list exists and holds no node twice), the root has `worldMatrix == localMatrix` and every
other node `n` with parent `p` has `n.worldMatrix == p.worldMatrix · n.localMatrix`, where
`p.worldMatrix` is the value of this same pass and `n.localMatrix` is the matrix computed
from the `(frameA, frameB, lerp)` that the parent has in this pass; the pass changes no
frame value and no link. -/
theorem updateTransformation_tree (M : JsMath K) (s : NodeStore K) (root fuel : Nat)
    (l : List Nat) (hv : visitOrder s fuel root = some l) (hnd : l.Nodup) :
    ∃ t, updateTransformation M fuel s root none = some t ∧
      (t root).worldMatrix = (t root).localMatrix ∧
      (t root).localMatrix = localMatrixOf M t root ∧
      (∀ p ∈ l, ∀ n ∈ (t p).child_nodes,
        (t n).worldMatrix = (t p).worldMatrix * (t n).localMatrix ∧
        (t n).localMatrix = localMatrixOf M t n) ∧
      (LinkInv s → ∀ n ∈ l, n ≠ root → ∀ p, (t n).parent_node = some p →
        p ∈ l ∧ (t n).worldMatrix = (t p).worldMatrix * (t n).localMatrix) ∧
      (∀ x, (t x).parent_node = (s x).parent_node ∧ (t x).child_nodes = (s x).child_nodes ∧
        (t x).frameA = (s x).frameA ∧ (t x).frameB = (s x).frameB ∧
        (t x).lerp = (s x).lerp) := by
  obtain ⟨t, u, F, _, R⟩ := updateTransformation_pass M fuel s root none l hv
  obtain ⟨r1, r2, r3⟩ := R hnd
  have hloc : ∀ n, localMatrixOf M t n = localMatrixOf M s n := localMatrixOf_congr M s t F
  have hrel : ∀ p ∈ l, ∀ n ∈ (t p).child_nodes,
      (t n).worldMatrix = (t p).worldMatrix * (t n).localMatrix ∧
      (t n).localMatrix = localMatrixOf M t n := by
    intro p hp n hn
    rw [(F p).children] at hn
    obtain ⟨a, b⟩ := r3 p hp n hn
    exact ⟨b, by rw [hloc]; exact a⟩
  refine ⟨t, u, ?_, ?_, hrel, ?_, fun x => (F x).fields⟩
  · rw [r2, r1]; rfl
  · rw [hloc]; exact r1
  · intro hinv n hn hroot p hpar
    rcases visitOrder_parent s fuel root l hv n hn with h0 | ⟨q, hq, hqn⟩
    · exact absurd h0 hroot
    · have hp1 : (s n).parent_node = some q := (hinv.1 n q).mp hqn
      rw [(F n).fields.1, hp1] at hpar
      have hqp : q = p := Option.some.inj hpar
      subst hqp
      have hn' : n ∈ (t q).child_nodes := by rw [(F q).children]; exact hqn
      exact ⟨hq, (hrel q hq n hn').1⟩

theorem makeNodeSystem_children (M : JsMath K) (obj : Q3_Object K) :
    ((makeNodeSystem M obj) 0).child_nodes = [1] ∧
    ((makeNodeSystem M obj) 1).child_nodes = [2] ∧
    ((makeNodeSystem M obj) 2).child_nodes = [] ∧
    ((makeNodeSystem M obj) 0).parent_node = none := by
  simp only [makeNodeSystem, applyCalls, List.foldl_cons, List.foldl_nil, applyCall]
  refine ⟨?_, ?_, ?_, ?_⟩
  · simp [setAsTopLevelNode_links, setParentNode_links, freshStore, new]
  · simp [setAsTopLevelNode_links, setParentNode_links, freshStore, new]
  · simp [setAsTopLevelNode_links, setParentNode_links, freshStore, new]
  · simp [setAsTopLevelNode_links, setParentNode_links, freshStore, new]

theorem makeNodeSystem_visitOrder (M : JsMath K) (obj : Q3_Object K) :
    visitOrder (makeNodeSystem M obj) 3 0 = some [0, 1, 2] := by
  obtain ⟨h0, h1, h2, _⟩ := makeNodeSystem_children M obj
  simp [visitOrder, visitAll, h0, h1, h2]

/-- Witness for C18: over the real numbers, the node system of `makeNodeSystem`. -/
theorem updateTransformation_tree_witness :
    ∃ (M : JsMath ℝ) (t : NodeStore ℝ),
      updateTransformation M 3 (makeNodeSystem M Q3_Object.bareObject) 0 none = some t ∧
      (t 0).worldMatrix = (t 0).localMatrix := by
  have key : ∀ M : JsMath ℝ, ∃ t : NodeStore ℝ,
      updateTransformation M 3 (makeNodeSystem M Q3_Object.bareObject) 0 none = some t ∧
      (t 0).worldMatrix = (t 0).localMatrix := by
    intro M
    obtain ⟨t, h1, h2, _⟩ := updateTransformation_tree M (makeNodeSystem M Q3_Object.bareObject)
      0 3 [0, 1, 2] (makeNodeSystem_visitOrder M _) (by decide)
    exact ⟨t, h1, h2⟩
  exact ⟨{ hypot := fun a b c => Real.sqrt (a * a + b * b + c * c), sin := Real.sin,
           cos := Real.cos, PI := Real.pi }, key _⟩

end Q3_DepNode

namespace Q3_DepNode

variable {K : Type} [LinearOrderedField K]

/-- The fields of a node right after its `setAsTopLevelNode()`. -/
theorem setAsTopLevelNode_self (M : JsMath K) (s : NodeStore K) (c : Nat) :
    ((setAsTopLevelNode M s c) c).parent_node = none ∧
    ((setAsTopLevelNode M s c) c).baseTransform = Mat4.fromXRotation M (-M.PI / 2) ∧
    ((setAsTopLevelNode M s c) c).characterTransform = 1 := by
  refine ⟨?_, ?_, ?_⟩
  · rw [(setAsTopLevelNode_links M s c c).1, if_pos rfl]
  · simp only [setAsTopLevelNode, Function.update_same]
  · simp only [setAsTopLevelNode, Function.update_same]

/-- The local matrix of a root node that was prepared with `setAsTopLevelNode`,
`setBaseOffsetY(y)` and `setCharacterTransform(C)`. -/
theorem localMatrixOf_root (M : JsMath K) (s : NodeStore K) (c : Nat) (y : K)
    (C : Option (Mat4 K)) :
    localMatrixOf M
        (setCharacterTransform (setBaseOffsetY (setAsTopLevelNode M s c) c y) c C) c =
      Mat4.fromTranslation { x := 0, y := y, z := 0 } * Mat4.fromXRotation M (-M.PI / 2) *
        C.getD 1 := by
  obtain ⟨h1, h2, _⟩ := setAsTopLevelNode_self M s c
  cases C with
  | none =>
    simp only [localMatrixOf, setCharacterTransform, setBaseOffsetY, Function.update_same, h1, h2,
      Option.getD_none]
  | some m =>
    simp only [localMatrixOf, setCharacterTransform, setBaseOffsetY, Function.update_same, h1, h2,
      Option.getD_some]

/-- C19: for a root node prepared with `setAsTopLevelNode`, with ground offset `y`
(`setBaseOffsetY`) and placement transform `C` (`setCharacterTransform`; the identity when
none was supplied), `updateTransformation` computes
`localMatrix = Translate(0, y, 0) · RotX(-π/2) · C`, in exactly that multiplication order. -/
theorem root_localMatrix (M : JsMath K) (s : NodeStore K) (c : Nat) (y : K) :
    (∀ C : Option (Mat4 K),
      localMatrixOf M
          (setCharacterTransform (setBaseOffsetY (setAsTopLevelNode M s c) c y) c C) c =
        (Mat4.fromTranslation { x := 0, y := y, z := 0 } * Mat4.fromXRotation M (-M.PI / 2)) *
          C.getD 1) ∧
    localMatrixOf M (setBaseOffsetY (setAsTopLevelNode M s c) c y) c =
      (Mat4.fromTranslation { x := 0, y := y, z := 0 } * Mat4.fromXRotation M (-M.PI / 2)) * 1 ∧
    (∀ (C : Option (Mat4 K)) (fuel : Nat) (l : List Nat),
      visitOrder (setCharacterTransform (setBaseOffsetY (setAsTopLevelNode M s c) c y) c C)
        fuel c = some l →
      l.Nodup →
      ∃ t, updateTransformation M fuel
            (setCharacterTransform (setBaseOffsetY (setAsTopLevelNode M s c) c y) c C) c none
            = some t ∧
        (t c).localMatrix =
          (Mat4.fromTranslation { x := 0, y := y, z := 0 } *
            Mat4.fromXRotation M (-M.PI / 2)) * C.getD 1 ∧
        (t c).worldMatrix = (t c).localMatrix) := by
  obtain ⟨h1, h2, h3⟩ := setAsTopLevelNode_self M s c
  refine ⟨localMatrixOf_root M s c y, ?_, ?_⟩
  · simp only [localMatrixOf, setBaseOffsetY, Function.update_same, h1, h2, h3]
  · intro C fuel l hv hnd
    obtain ⟨t, u, _, _, R⟩ := updateTransformation_pass M fuel _ c none l hv
    obtain ⟨r1, r2, _⟩ := R hnd
    refine ⟨t, u, ?_, ?_⟩
    · rw [r1, localMatrixOf_root]
    · rw [r2, r1]; rfl

/-- Witness for C19: over the real numbers, `n_lower` of the node system of
`makeNodeSystem`, with ground offset `24` and no placement transform. -/
theorem root_localMatrix_witness :
    ∃ (M : JsMath ℝ) (t : NodeStore ℝ),
      updateTransformation M 3
          (setCharacterTransform
            (setBaseOffsetY (setAsTopLevelNode M (makeNodeSystem M Q3_Object.bareObject) 0) 0 24)
            0 none) 0 none = some t ∧
      (t 0).localMatrix =
        (Mat4.fromTranslation ({ x := 0, y := 24, z := 0 } : Vec3 ℝ) * Mat4.fromXRotation M (-M.PI / 2)) *
          1 := by
  have key : ∀ M : JsMath ℝ, ∃ t : NodeStore ℝ,
      updateTransformation M 3
          (setCharacterTransform
            (setBaseOffsetY (setAsTopLevelNode M (makeNodeSystem M Q3_Object.bareObject) 0) 0 24)
            0 none) 0 none = some t ∧
      (t 0).localMatrix =
        (Mat4.fromTranslation ({ x := 0, y := 24, z := 0 } : Vec3 ℝ) * Mat4.fromXRotation M (-M.PI / 2)) *
          1 := by
    intro M
    obtain ⟨c0, c1, c2, p0⟩ := makeNodeSystem_children M (Q3_Object.bareObject : Q3_Object ℝ)
    have hch : ∀ x,
        ((setCharacterTransform
          (setBaseOffsetY (setAsTopLevelNode M (makeNodeSystem M Q3_Object.bareObject) 0) 0 24)
          0 none) x).child_nodes = ((makeNodeSystem M Q3_Object.bareObject) x).child_nodes := by
      intro x
      by_cases hx : x = 0
      · subst hx
        simp only [setCharacterTransform, setBaseOffsetY, Function.update_same]
        rw [(setAsTopLevelNode_links M _ 0 0).2, p0]
        simp
      · simp only [setCharacterTransform, setBaseOffsetY, Function.update_noteq hx]
        rw [(setAsTopLevelNode_links M _ 0 x).2, p0]
        simp
    have hv : visitOrder
        (setCharacterTransform
          (setBaseOffsetY (setAsTopLevelNode M (makeNodeSystem M Q3_Object.bareObject) 0) 0 24)
          0 none) 3 0 = some [0, 1, 2] := by
      rw [visitOrder_congr _ _ hch]
      exact makeNodeSystem_visitOrder M _
    obtain ⟨t, h1, h2, _⟩ := (root_localMatrix M (makeNodeSystem M Q3_Object.bareObject) 0
      24).2.2 none 3 [0, 1, 2] hv (by decide)
    exact ⟨t, h1, h2⟩
  exact ⟨{ hypot := fun a b c => Real.sqrt (a * a + b * b + c * c), sin := Real.sin,
           cos := Real.cos, PI := Real.pi }, key _⟩

end Q3_DepNode

namespace Q3_Object

variable {K : Type} [LinearOrderedField K]

/-- C16: when exactly one of the two (index-clamped) frames exposes the tag,
`getLerpedTagMatrix` returns `tagToMat4` of that frame's tag for every blend value; when
neither frame exposes it, `getLerpedTagMatrix` returns `null` (and only then), and
`Q3_DepNode.updateTransformation` sets the child's `localMatrix` to the identity; the
lookup always returns. -/
theorem getLerpedTagMatrix_missing (M : JsMath K) :
    (∀ (obj : Q3_Object K) (T : List Char) (A B : Int) (t : K) (tagA : MD3_Tag K),
      getTagByName obj T A = some tagA → getTagByName obj T B = none →
      getLerpedTagMatrix M obj T A B t = some (tagToMat4 tagA)) ∧
    (∀ (obj : Q3_Object K) (T : List Char) (A B : Int) (t : K) (tagB : MD3_Tag K),
      getTagByName obj T A = none → getTagByName obj T B = some tagB →
      getLerpedTagMatrix M obj T A B t = some (tagToMat4 tagB)) ∧
    (∀ (obj : Q3_Object K) (T : List Char) (A B : Int) (t : K),
      getLerpedTagMatrix M obj T A B t = none ↔
        (getTagByName obj T A = none ∧ getTagByName obj T B = none)) ∧
    (∀ (s : NodeStore K) (n p : Nat),
      (s n).parent_node = some p → (s n).tag_name ≠ [] →
      getTagByName (s p).q3_object (s n).tag_name (s p).frameA = none →
      getTagByName (s p).q3_object (s n).tag_name (s p).frameB = none →
      Q3_DepNode.localMatrixOf M s n = 1 ∧
      ∀ (fuel root : Nat) (pw : Option (Mat4 K)) (l : List Nat),
        Q3_DepNode.visitOrder s fuel root = some l → l.Nodup → p ∈ l →
        n ∈ (s p).child_nodes →
        ∃ t, Q3_DepNode.updateTransformation M fuel s root pw = some t ∧
          (t n).localMatrix = 1) := by
  refine ⟨?_, ?_, ?_, ?_⟩
  · intro obj T A B t tagA hA hB
    simp only [getLerpedTagMatrix, hA, hB]
  · intro obj T A B t tagB hA hB
    simp only [getLerpedTagMatrix, hA, hB]
  · intro obj T A B t
    cases hA : getTagByName obj T A <;> cases hB : getTagByName obj T B <;>
      simp [getLerpedTagMatrix, hA, hB]
  · intro s n p hpar htag hA hB
    have hloc : Q3_DepNode.localMatrixOf M s n = 1 := by
      simp only [Q3_DepNode.localMatrixOf, hpar, htag, ne_eq, not_false_eq_true, if_true,
        getLerpedTagMatrix, hA, hB]
    refine ⟨hloc, ?_⟩
    intro fuel root pw l hv hnd hp hn
    obtain ⟨t, u, _, _, R⟩ := Q3_DepNode.updateTransformation_pass M fuel s root pw l hv
    obtain ⟨_, _, r3⟩ := R hnd
    exact ⟨t, u, by rw [(r3 p hp n hn).1, hloc]⟩

/-- Witness for C16: over the real numbers, the mesh `oneSidedObject`, whose frame 0 holds
`tag_torso` and whose frame 1 does not, at the blend value `1/2`. -/
theorem getLerpedTagMatrix_missing_witness :
    ∃ M : JsMath ℝ,
      getTagByName (oneSidedObject : Q3_Object ℝ) "tag_torso".toList 0 = some unitTag ∧
      getTagByName (oneSidedObject : Q3_Object ℝ) "tag_torso".toList 1 = none ∧
      getLerpedTagMatrix M oneSidedObject "tag_torso".toList 0 1 (1 / 2) =
        some (tagToMat4 unitTag) := by
  have h0 : getTagByName (oneSidedObject : Q3_Object ℝ) "tag_torso".toList 0 = some unitTag := by
    simp [getTagByName, oneSidedObject, unitTag]
  have h1 : getTagByName (oneSidedObject : Q3_Object ℝ) "tag_torso".toList 1 = none := by
    simp [getTagByName, oneSidedObject]
  exact ⟨{ hypot := fun a b c => Real.sqrt (a * a + b * b + c * c), sin := Real.sin,
           cos := Real.cos, PI := Real.pi }, h0, h1,
    (getLerpedTagMatrix_missing _).1 oneSidedObject "tag_torso".toList 0 1 (1 / 2) unitTag h0 h1⟩

end Q3_Object

/-! ## Frame pairs stay inside the clip (`Q3_Player.evalAnimFramePair`) -/

namespace Q3_Player

/-- The frame index `floor (timeSec * fps)` is not negative for a time that is not
negative and a positive frame rate. -/
theorem floor_frame_nonneg (fps : Int) (t : ℚ) (hfps : 1 ≤ fps) (ht : 0 ≤ t) :
    0 ≤ Int.floor (t * (fps : ℚ)) := by
  apply Int.floor_nonneg.mpr
  have : (0 : ℚ) ≤ (fps : ℚ) := by exact_mod_cast (by omega : (0 : Int) ≤ fps)
  exact mul_nonneg ht this

/-- C27: for a clip with `numFrames >= 1`, `fps >= 1` and `0 <= loopFrames <= numFrames`
and a time `t >= 0`, both frames returned by `evalAnimFramePair` lie inside the clip,
`firstFrame <= a, b <= firstFrame + numFrames - 1`, and the blend lies in `[0, 1)`. -/
theorem evalAnimFramePair_in_clip (c : AnimInfo) (t : ℚ)
    (hn : 1 ≤ c.numFrames) (hfps : 1 ≤ c.fps)
    (hl0 : 0 ≤ c.loopFrames) (hl : c.loopFrames ≤ c.numFrames) (ht : 0 ≤ t) :
    (c.firstFrame ≤ (evalAnimFramePair (some c) t).a ∧
      (evalAnimFramePair (some c) t).a ≤ c.firstFrame + c.numFrames - 1) ∧
    (c.firstFrame ≤ (evalAnimFramePair (some c) t).b ∧
      (evalAnimFramePair (some c) t).b ≤ c.firstFrame + c.numFrames - 1) ∧
    (0 ≤ (evalAnimFramePair (some c) t).t ∧ (evalAnimFramePair (some c) t).t < 1) := by
  have hi := floor_frame_nonneg c.fps t hfps ht
  have hf0 : (0 : ℚ) ≤ t * (c.fps : ℚ) - (Int.floor (t * (c.fps : ℚ)) : ℚ) :=
    sub_nonneg.mpr (Int.floor_le _)
  have hf1 : t * (c.fps : ℚ) - (Int.floor (t * (c.fps : ℚ)) : ℚ) < 1 := by
    have := Int.lt_floor_add_one (t * (c.fps : ℚ))
    linarith
  rcases eq_or_lt_of_le hl0 with h0 | hpos
  · rw [evalAnimFramePair_noloop c t h0.symm hn hfps]
    split_ifs with h
    · dsimp only
      refine ⟨⟨by omega, by omega⟩, ⟨by omega, by omega⟩, le_refl _, by norm_num⟩
    · have h1 : ¬ Int.floor (t * (c.fps : ℚ)) ≥ c.numFrames - 1 := fun hh => h (Or.inl hh)
      dsimp only
      refine ⟨⟨by omega, by omega⟩, ⟨by omega, by omega⟩, hf0, hf1⟩
  · rw [evalAnimFramePair_loop c t hpos, max_eq_right hfps, max_eq_right hn]
    by_cases h : Int.floor (t * (c.fps : ℚ)) ≤ c.numFrames - 1
    · rw [if_pos h]
      dsimp only
      by_cases h2 : Int.floor (t * (c.fps : ℚ)) < c.numFrames - 1
      · rw [if_pos h2]
        refine ⟨⟨by omega, by omega⟩, ⟨by omega, by omega⟩, hf0, hf1⟩
      · rw [if_neg h2]
        refine ⟨⟨by omega, by omega⟩, ⟨by omega, by omega⟩, hf0, hf1⟩
    · rw [if_neg h]
      dsimp only
      have hk0 : 0 ≤ Int.floor (t * (c.fps : ℚ)) - (c.numFrames - 1) - 1 := by omega
      have e1 := Int.tmod_eq_emod hk0 (le_of_lt hpos)
      have m0 := Int.emod_nonneg (Int.floor (t * (c.fps : ℚ)) - (c.numFrames - 1) - 1)
        (ne_of_gt hpos)
      have m1 := Int.emod_lt_of_pos (Int.floor (t * (c.fps : ℚ)) - (c.numFrames - 1) - 1) hpos
      rw [e1]
      have e2 := Int.tmod_eq_emod
        (by omega : 0 ≤ (Int.floor (t * (c.fps : ℚ)) - (c.numFrames - 1) - 1) % c.loopFrames + 1)
        (le_of_lt hpos)
      have n0 := Int.emod_nonneg
        ((Int.floor (t * (c.fps : ℚ)) - (c.numFrames - 1) - 1) % c.loopFrames + 1)
        (ne_of_gt hpos)
      have n1 := Int.emod_lt_of_pos
        ((Int.floor (t * (c.fps : ℚ)) - (c.numFrames - 1) - 1) % c.loopFrames + 1) hpos
      rw [e2]
      refine ⟨⟨by omega, by omega⟩, ⟨by omega, by omega⟩, hf0, hf1⟩

/-- Witness for C27: the looping clip of five frames at `t = 0.65`, past the first pass. -/
theorem evalAnimFramePair_in_clip_witness :
    (loopClip.firstFrame ≤ (evalAnimFramePair (some loopClip) (13 / 20)).a ∧
      (evalAnimFramePair (some loopClip) (13 / 20)).a
        ≤ loopClip.firstFrame + loopClip.numFrames - 1) ∧
    (loopClip.firstFrame ≤ (evalAnimFramePair (some loopClip) (13 / 20)).b ∧
      (evalAnimFramePair (some loopClip) (13 / 20)).b
        ≤ loopClip.firstFrame + loopClip.numFrames - 1) ∧
    (0 ≤ (evalAnimFramePair (some loopClip) (13 / 20)).t ∧
      (evalAnimFramePair (some loopClip) (13 / 20)).t < 1) :=
  evalAnimFramePair_in_clip loopClip (13 / 20) (by decide) (by decide) (by decide) (by decide)
    (by norm_num)

end Q3_Player

/-! ## Lemmas on binary64 rounding -/

namespace Js

theorem bitLen_zero (fuel : Nat) : bitLen fuel 0 = 0 := by
  cases fuel <;> simp [bitLen]

/-- With enough fuel `bitLen` is the bit length: `2^(b-1) <= n < 2^b`. -/
theorem bitLen_spec : ∀ (fuel n : Nat), n ≤ fuel → 0 < n →
    2 ^ bitLen fuel n ≤ 2 * n ∧ n < 2 ^ bitLen fuel n := by
  intro fuel
  induction fuel with
  | zero => intro n h1 h2; omega
  | succ fuel ih =>
    intro n h1 h2
    have hn : n ≠ 0 := by omega
    simp only [bitLen, hn, if_false]
    rcases Nat.eq_zero_or_pos (n / 2) with h0 | hpos
    · rw [h0, bitLen_zero]
      have : n = 1 := by omega
      subst this
      norm_num
    · obtain ⟨a, b⟩ := ih (n / 2) (by omega) hpos
      rw [pow_succ]
      generalize 2 ^ bitLen fuel (n / 2) = P at a b
      constructor <;> omega

theorem roundHalfEven_ge (q : ℚ) (m : Int) (h : (m : ℚ) ≤ q) : m ≤ roundHalfEven q := by
  have hf : m ≤ Int.floor q := Int.le_floor.mpr h
  unfold roundHalfEven
  dsimp only
  split_ifs <;> omega

/-- The exponent found by `floorLog2` is not too large: `2^(floorLog2 x) <= |x|`. -/
theorem floorLog2_le (x : ℚ) (hx : x ≠ 0) : (2 : ℚ) ^ floorLog2 x ≤ |x| := by
  unfold floorLog2
  dsimp only
  split_ifs with h
  · exact h
  · have hnum : x.num.natAbs ≠ 0 := by
      rw [Ne, Int.natAbs_eq_zero, Rat.num_eq_zero]
      exact hx
    have hden : 0 < x.den := x.den_pos
    obtain ⟨a1, _⟩ := bitLen_spec x.num.natAbs x.num.natAbs (le_refl _) (Nat.pos_of_ne_zero hnum)
    obtain ⟨_, b2⟩ := bitLen_spec x.den x.den (le_refl _) hden
    have habs : |x| = (x.num.natAbs : ℚ) / (x.den : ℚ) := by
      conv_lhs => rw [← Rat.num_div_den x]
      rw [abs_div, Nat.cast_natAbs, Int.cast_abs]
      congr 1
      exact abs_of_nonneg (Nat.cast_nonneg _)
    have hd : (0 : ℚ) < (x.den : ℚ) := by exact_mod_cast hden
    have a1q : (2 : ℚ) ^ bitLen x.num.natAbs x.num.natAbs ≤ 2 * (x.num.natAbs : ℚ) := by
      exact_mod_cast a1
    have b2q : (x.den : ℚ) < (2 : ℚ) ^ bitLen x.den x.den := by
      exact_mod_cast b2
    have hpow : (2 : ℚ) ^ ((bitLen x.num.natAbs x.num.natAbs : Int)
        - (bitLen x.den x.den : Int) - 1)
        = (2 : ℚ) ^ bitLen x.num.natAbs x.num.natAbs / (2 : ℚ) ^ bitLen x.den x.den / 2 := by
      rw [zpow_sub₀ (by norm_num), zpow_sub₀ (by norm_num), zpow_natCast, zpow_natCast, zpow_one]
    rw [hpow, habs]
    have hP : (0 : ℚ) < (2 : ℚ) ^ bitLen x.den x.den := by positivity
    rw [div_div, div_le_div_iff₀ (by positivity) hd]
    have hn0 : (0 : ℚ) ≤ (x.num.natAbs : ℚ) := Nat.cast_nonneg _
    nlinarith [mul_le_mul a1q (le_of_lt b2q) (le_of_lt hd) (by positivity)]

/-- Rounding to a double never goes below an integer of at most 53 bits that the exact
value has reached: integers up to `2^53` are doubles and rounding is monotone. -/
theorem round64_ge_int (x : ℚ) (k : Int) (h0 : 0 ≤ k) (h53 : k ≤ 2 ^ 53)
    (h : (k : ℚ) ≤ x) : (k : ℚ) ≤ round64 x := by
  unfold round64
  by_cases hx : x = 0
  · rw [if_pos hx]
    rw [hx] at h
    exact h
  · rw [if_neg hx]
    dsimp only
    have hk0 : (0 : ℚ) ≤ (k : ℚ) := by exact_mod_cast h0
    have hxpos : 0 < x := lt_of_le_of_ne (le_trans hk0 h) (Ne.symm hx)
    rcases le_or_lt (max (floorLog2 x - 52) (-1074)) 0 with he | he
    · obtain ⟨j, hj⟩ : ∃ j : Nat, max (floorLog2 x - 52) (-1074) = -(j : Int) :=
        ⟨(-(max (floorLog2 x - 52) (-1074))).toNat, by
          rw [Int.toNat_of_nonneg (by omega)]; ring⟩
      rw [hj, zpow_neg, zpow_natCast]
      have hP : (0 : ℚ) < (2 : ℚ) ^ j := by positivity
      have hm : ((k * 2 ^ j : Int) : ℚ) ≤ x / ((2 : ℚ) ^ j)⁻¹ := by
        rw [div_inv_eq_mul]
        push_cast
        exact mul_le_mul_of_nonneg_right h (le_of_lt hP)
      have hr := roundHalfEven_ge _ _ hm
      have hrq : ((k * 2 ^ j : Int) : ℚ) ≤ (roundHalfEven (x / ((2 : ℚ) ^ j)⁻¹) : ℚ) := by
        exact_mod_cast hr
      push_cast at hrq
      calc (k : ℚ) = (k : ℚ) * 2 ^ j * ((2 : ℚ) ^ j)⁻¹ := by field_simp
        _ ≤ (roundHalfEven (x / ((2 : ℚ) ^ j)⁻¹) : ℚ) * ((2 : ℚ) ^ j)⁻¹ :=
          mul_le_mul_of_nonneg_right hrq (by positivity)
    · have hmax : max (floorLog2 x - 52) (-1074) = floorLog2 x - 52 := by
        rcases max_cases (floorLog2 x - 52) (-1074) with ⟨h1, _⟩ | ⟨h1, _⟩
        · exact h1
        · omega
      rw [hmax] at he ⊢
      obtain ⟨j, hj⟩ : ∃ j : Nat, floorLog2 x - 52 = ((j + 1 : Nat) : Int) :=
        ⟨(floorLog2 x - 52 - 1).toNat, by
          push_cast
          rw [Int.toNat_of_nonneg (by omega)]; ring⟩
      have hfl := floorLog2_le x hx
      rw [abs_of_pos hxpos] at hfl
      have hsplit : (2 : ℚ) ^ floorLog2 x = (2 : ℚ) ^ (52 : Nat) * (2 : ℚ) ^ (floorLog2 x - 52) := by
        rw [← zpow_natCast, ← zpow_add₀ (by norm_num)]
        congr 1
        push_cast
        ring
      rw [hj] at hsplit ⊢
      rw [zpow_natCast] at hsplit ⊢
      have hP : (0 : ℚ) < (2 : ℚ) ^ (j + 1) := by positivity
      have hm : (((2 : Int) ^ 52 : Int) : ℚ) ≤ x / (2 : ℚ) ^ (j + 1) := by
        rw [le_div_iff₀ hP]
        calc (((2 : Int) ^ 52 : Int) : ℚ) * (2 : ℚ) ^ (j + 1)
            = (2 : ℚ) ^ (52 : Nat) * (2 : ℚ) ^ (j + 1) := by norm_num
          _ = (2 : ℚ) ^ floorLog2 x := hsplit.symm
          _ ≤ x := hfl
      have hr := roundHalfEven_ge _ _ hm
      have hrq : (((2 : Int) ^ 52 : Int) : ℚ) ≤ (roundHalfEven (x / (2 : ℚ) ^ (j + 1)) : ℚ) := by
        exact_mod_cast hr
      push_cast at hrq
      have h2 : (2 : ℚ) ≤ (2 : ℚ) ^ (j + 1) := by
        rw [pow_succ]
        have : (1 : ℚ) ≤ (2 : ℚ) ^ j := one_le_pow₀ (by norm_num)
        linarith
      have hk53 : (k : ℚ) ≤ (2 : ℚ) ^ 53 := by exact_mod_cast h53
      calc (k : ℚ) ≤ (2 : ℚ) ^ 53 := hk53
        _ = (2 : ℚ) ^ 52 * 2 := by norm_num
        _ ≤ (roundHalfEven (x / (2 : ℚ) ^ (j + 1)) : ℚ) * (2 : ℚ) ^ (j + 1) :=
          mul_le_mul hrq h2 (by norm_num) (le_trans (by positivity) hrq)

end Js

/-! ## Theorems about `Q3_Player.evalAnimFramePair` on doubles -/

set_option maxRecDepth 100000

namespace Q3_Player

/-- Unfolding of the non-looping branch of `evalAnimFramePair64`. -/
theorem evalAnimFramePair64_noloop (c : AnimInfo) (t : ℚ)
    (hloop : c.loopFrames = 0) (hn : 1 ≤ c.numFrames) (hfps : 1 ≤ c.fps) :
    evalAnimFramePair64 (some c) t =
      if Int.floor (Js.mul64 t (c.fps : ℚ)) ≥ c.numFrames - 1 ∨ c.numFrames = 1 then
        { a := c.firstFrame + (c.numFrames - 1), b := c.firstFrame + (c.numFrames - 1), t := 0 }
      else
        { a := c.firstFrame + Int.floor (Js.mul64 t (c.fps : ℚ))
          b := c.firstFrame + (Int.floor (Js.mul64 t (c.fps : ℚ)) + 1)
          t := Js.sub64 (Js.mul64 t (c.fps : ℚ)) (Int.floor (Js.mul64 t (c.fps : ℚ)) : ℚ) } := by
  simp only [evalAnimFramePair64, max_eq_right hfps, max_eq_right hn, hloop, le_refl, if_true]

/-- Unfolding of the looping branch of `evalAnimFramePair64`. -/
theorem evalAnimFramePair64_loop (c : AnimInfo) (t : ℚ)
    (hloop : 0 < c.loopFrames) (hn : 1 ≤ c.numFrames) (hfps : 1 ≤ c.fps) :
    evalAnimFramePair64 (some c) t =
      if Int.floor (Js.mul64 t (c.fps : ℚ)) ≤ c.numFrames - 1 then
        { a := c.firstFrame + Int.floor (Js.mul64 t (c.fps : ℚ))
          b := if Int.floor (Js.mul64 t (c.fps : ℚ)) < c.numFrames - 1
               then c.firstFrame + Int.floor (Js.mul64 t (c.fps : ℚ)) + 1
               else c.firstFrame + (c.numFrames - c.loopFrames)
          t := Js.sub64 (Js.mul64 t (c.fps : ℚ)) (Int.floor (Js.mul64 t (c.fps : ℚ)) : ℚ) }
      else
        { a := c.firstFrame + (c.numFrames - c.loopFrames) +
                 Int.tmod (Int.floor (Js.mul64 t (c.fps : ℚ)) - (c.numFrames - 1) - 1)
                   c.loopFrames
          b := c.firstFrame + (c.numFrames - c.loopFrames) +
                 Int.tmod
                   (Int.tmod (Int.floor (Js.mul64 t (c.fps : ℚ)) - (c.numFrames - 1) - 1)
                     c.loopFrames + 1)
                   c.loopFrames
          t := Js.sub64 (Js.mul64 t (c.fps : ℚ)) (Int.floor (Js.mul64 t (c.fps : ℚ)) : ℚ) } := by
  have h1 : ¬ c.loopFrames ≤ 0 := by omega
  have h2 : max 1 c.loopFrames = c.loopFrames := max_eq_right (by omega)
  simp only [evalAnimFramePair64, h1, if_false, h2, max_eq_right hfps, max_eq_right hn]

/-- The product that the code computes for a time that is not negative is not negative. -/
theorem mul64_nonneg (t : ℚ) (fps : Int) (hfps : 1 ≤ fps) (ht : 0 ≤ t) :
    0 ≤ Int.floor (Js.mul64 t (fps : ℚ)) := by
  apply Int.floor_nonneg.mpr
  have hf : (0 : ℚ) ≤ (fps : ℚ) := by exact_mod_cast (by omega : (0 : Int) ≤ fps)
  have := Js.round64_ge_int (t * (fps : ℚ)) 0 (le_refl _) (by norm_num)
    (by push_cast; exact mul_nonneg ht hf)
  simpa [Js.mul64] using this

/-- C1, as stated, fails on doubles at the bound that JavaScript computes: for the clip
of 30 frames at 25 frames per second the quotient `29 / 25` is the double just below
`1.16`; at this time the product `t * 25` rounds to `29 - 2^-48`, the index is 28, and
the code returns `(28, 29, 1 - 2^-48)` and not the held pair `(29, 29, 0)`. -/
theorem evalAnimFramePair64_hold_last_counterexample :
    clip25.loopFrames = 0 ∧ 1 ≤ clip25.numFrames ∧ 1 ≤ clip25.fps ∧
    Js.div64 ((clip25.numFrames : ℚ) - 1) (clip25.fps : ℚ) ≤ Js.div64 29 25 ∧
    Js.mul64 (Js.div64 29 25) 25 = 29 - 1 / 2 ^ 48 ∧
    evalAnimFramePair64 (some clip25) (Js.div64 29 25)
      = { a := 28, b := 29, t := 1 - 1 / 2 ^ 48 } ∧
    evalAnimFramePair64 (some clip25) (Js.div64 29 25)
      ≠ { a := clip25.firstFrame + clip25.numFrames - 1
          b := clip25.firstFrame + clip25.numFrames - 1, t := 0 } := by
  decide!

/-- C1, amended: for a clip with `loopFrames == 0`, `numFrames >= 1` (at most `2^53`)
and `fps >= 1`, every time whose product `t * fps`, as the code computes it in binary64,
reaches `numFrames - 1` yields `a == b == firstFrame + numFrames - 1` and blend `0`;
every time `t >= (numFrames-1)/fps`, compared with the exact quotient, is such a time. -/
theorem evalAnimFramePair64_hold_last (c : AnimInfo) (t : ℚ)
    (hloop : c.loopFrames = 0) (hn : 1 ≤ c.numFrames) (hfps : 1 ≤ c.fps)
    (hbig : c.numFrames - 1 ≤ 2 ^ 53) :
    (((c.numFrames - 1 : Int) : ℚ) ≤ Js.mul64 t (c.fps : ℚ) →
      evalAnimFramePair64 (some c) t =
        { a := c.firstFrame + c.numFrames - 1, b := c.firstFrame + c.numFrames - 1, t := 0 }) ∧
    (((c.numFrames : ℚ) - 1) / (c.fps : ℚ) ≤ t →
      ((c.numFrames - 1 : Int) : ℚ) ≤ Js.mul64 t (c.fps : ℚ)) ∧
    (((c.numFrames : ℚ) - 1) / (c.fps : ℚ) ≤ t →
      evalAnimFramePair64 (some c) t =
        { a := c.firstFrame + c.numFrames - 1, b := c.firstFrame + c.numFrames - 1, t := 0 }) := by
  have hfq : (0 : ℚ) < (c.fps : ℚ) := by exact_mod_cast (by omega : (0 : Int) < c.fps)
  have h1 : ((c.numFrames - 1 : Int) : ℚ) ≤ Js.mul64 t (c.fps : ℚ) →
      evalAnimFramePair64 (some c) t =
        { a := c.firstFrame + c.numFrames - 1, b := c.firstFrame + c.numFrames - 1,
          t := 0 } := by
    intro hp
    have hi : c.numFrames - 1 ≤ Int.floor (Js.mul64 t (c.fps : ℚ)) := Int.le_floor.mpr hp
    rw [evalAnimFramePair64_noloop c t hloop hn hfps, if_pos (Or.inl hi)]
    simp [add_sub_assoc]
  have h2 : ((c.numFrames : ℚ) - 1) / (c.fps : ℚ) ≤ t →
      ((c.numFrames - 1 : Int) : ℚ) ≤ Js.mul64 t (c.fps : ℚ) := by
    intro ht
    apply Js.round64_ge_int _ _ (by omega) hbig
    push_cast
    exact (div_le_iff₀ hfq).mp ht
  exact ⟨h1, h2, fun ht => h1 (h2 ht)⟩

/-- Witness for C1 (amended): the clip of 30 frames at 25 frames per second at the first
double above `29 / 25`. -/
theorem evalAnimFramePair64_hold_last_witness :
    ((clip25.numFrames : ℚ) - 1) / (clip25.fps : ℚ)
      ≤ 5224175567749776 / 4503599627370496 ∧
    evalAnimFramePair64 (some clip25) (5224175567749776 / 4503599627370496) =
      { a := clip25.firstFrame + clip25.numFrames - 1
        b := clip25.firstFrame + clip25.numFrames - 1, t := 0 } :=
  ⟨by norm_num [clip25],
   (evalAnimFramePair64_hold_last clip25 (5224175567749776 / 4503599627370496) rfl
      (by decide) (by decide) (by decide)).2.2 (by norm_num [clip25])⟩

/-- C3, as stated, fails on doubles: for the looping clip of 10 frames at 10 frames per
second and `t = 1.4`, past the first pass with index 14, the code returns `(8, 9, 0)`;
the sum `1.4 + 2 / 10` is the double `1.5999999999999999`, its product with 10 rounds to
`16 - 2^-49`, and the code returns `(9, 8, 1 - 2^-49)`. -/
theorem evalAnimFramePair64_periodic_counterexample :
    0 < loopClip10.loopFrames ∧ 1 ≤ loopClip10.fps ∧ 1 ≤ loopClip10.numFrames ∧
    Int.floor (Js.mul64 (Js.round64 (7 / 5)) (loopClip10.fps : ℚ)) > loopClip10.numFrames - 1 ∧
    evalAnimFramePair64 (some loopClip10) (Js.round64 (7 / 5)) = { a := 8, b := 9, t := 0 } ∧
    evalAnimFramePair64 (some loopClip10)
        (Js.add64 (Js.round64 (7 / 5))
          (Js.div64 (loopClip10.loopFrames : ℚ) (loopClip10.fps : ℚ)))
      = { a := 9, b := 8, t := 1 - 1 / 2 ^ 49 } := by
  decide!

/-- C3, amended: for a clip with `loopFrames > 0`, `fps >= 1`, `numFrames >= 1` and two
times `t`, `t'` where `t` is past the initial playthrough (the index `floor(t*fps)` that
the code computes exceeds `numFrames - 1`): when the computed index of `t'` is the one of
`t` plus `loopFrames`, the two calls return the same frameA and frameB; when the computed
products differ by exactly `loopFrames`, they return the same blend too. -/
theorem evalAnimFramePair64_periodic (c : AnimInfo) (t t' : ℚ)
    (hloop : 0 < c.loopFrames) (hfps : 1 ≤ c.fps) (hn : 1 ≤ c.numFrames)
    (hi : Int.floor (Js.mul64 t (c.fps : ℚ)) > c.numFrames - 1) :
    (Int.floor (Js.mul64 t' (c.fps : ℚ)) = Int.floor (Js.mul64 t (c.fps : ℚ)) + c.loopFrames →
      (evalAnimFramePair64 (some c) t').a = (evalAnimFramePair64 (some c) t).a ∧
      (evalAnimFramePair64 (some c) t').b = (evalAnimFramePair64 (some c) t).b) ∧
    (Js.mul64 t' (c.fps : ℚ) = Js.mul64 t (c.fps : ℚ) + (c.loopFrames : ℚ) →
      evalAnimFramePair64 (some c) t' = evalAnimFramePair64 (some c) t) := by
  have hk : Int.tmod (Int.floor (Js.mul64 t (c.fps : ℚ)) + c.loopFrames - (c.numFrames - 1) - 1)
      c.loopFrames
      = Int.tmod (Int.floor (Js.mul64 t (c.fps : ℚ)) - (c.numFrames - 1) - 1) c.loopFrames := by
    rw [Int.tmod_eq_emod (by omega) (by omega), Int.tmod_eq_emod (by omega) (by omega)]
    have : Int.floor (Js.mul64 t (c.fps : ℚ)) + c.loopFrames - (c.numFrames - 1) - 1
        = (Int.floor (Js.mul64 t (c.fps : ℚ)) - (c.numFrames - 1) - 1) + c.loopFrames := by
      ring
    rw [this, Int.add_emod_self]
  have h1 : ¬ Int.floor (Js.mul64 t (c.fps : ℚ)) ≤ c.numFrames - 1 := by omega
  have h2 : ¬ Int.floor (Js.mul64 t (c.fps : ℚ)) + c.loopFrames ≤ c.numFrames - 1 := by omega
  constructor
  · intro hidx
    rw [evalAnimFramePair64_loop c t' hloop hn hfps, evalAnimFramePair64_loop c t hloop hn hfps,
      hidx, if_neg h1, if_neg h2]
    dsimp only
    rw [hk]
    exact ⟨rfl, rfl⟩
  · intro hp
    have hidx : Int.floor (Js.mul64 t' (c.fps : ℚ))
        = Int.floor (Js.mul64 t (c.fps : ℚ)) + c.loopFrames := by
      rw [hp]
      exact Int.floor_add_int _ _
    rw [evalAnimFramePair64_loop c t' hloop hn hfps, evalAnimFramePair64_loop c t hloop hn hfps,
      hidx, if_neg h1, if_neg h2, hk, hp]
    congr 1
    unfold Js.sub64
    congr 1
    push_cast
    ring

/-- Witness for C3 (amended): the looping clip of 10 frames at `t = 1.5` (product 15)
and at the double `1.7` (product 17). -/
theorem evalAnimFramePair64_periodic_witness :
    Js.mul64 (Js.round64 (17 / 10)) (loopClip10.fps : ℚ)
      = Js.mul64 (3 / 2) (loopClip10.fps : ℚ) + (loopClip10.loopFrames : ℚ) ∧
    evalAnimFramePair64 (some loopClip10) (Js.round64 (17 / 10))
      = evalAnimFramePair64 (some loopClip10) (3 / 2) :=
  ⟨by decide!,
   (evalAnimFramePair64_periodic loopClip10 (3 / 2) (Js.round64 (17 / 10)) (by decide)
      (by decide) (by decide) (by decide!)).2 (by decide!)⟩

/-- C28, as stated, fails on doubles: for the clip of 10 frames at 10 frames per second
and `t = 0.7` the product is 7 and frameB is 8; the sum `0.7 + 1 / 10` is the double
`0.7999999999999999`, its product with 10 rounds below 8, and frameA is 7. -/
theorem evalAnimFramePair64_chain_counterexample :
    1 ≤ clip10.numFrames ∧ 1 ≤ clip10.fps ∧ 0 ≤ clip10.loopFrames ∧
    clip10.loopFrames ≤ clip10.numFrames ∧ 0 ≤ Js.round64 (7 / 10) ∧
    (evalAnimFramePair64 (some clip10) (Js.round64 (7 / 10))).b = 8 ∧
    (evalAnimFramePair64 (some clip10)
        (Js.add64 (Js.round64 (7 / 10)) (Js.div64 1 (clip10.fps : ℚ)))).a = 7 := by
  decide!

/-- C28, amended: for a clip with `numFrames >= 1`, `fps >= 1` and `loopFrames >= 0`, a
time `t >= 0` and a time `t'` whose computed index `floor(t'*fps)` is the computed index
of `t` plus one, the frameB returned at `t` is the frameA returned at `t'`: in the
non-looping case, in the first pass, across the loop seam and inside the loop. -/
theorem evalAnimFramePair64_chain (c : AnimInfo) (t t' : ℚ)
    (hn : 1 ≤ c.numFrames) (hfps : 1 ≤ c.fps) (hl0 : 0 ≤ c.loopFrames) (ht : 0 ≤ t)
    (hidx : Int.floor (Js.mul64 t' (c.fps : ℚ)) = Int.floor (Js.mul64 t (c.fps : ℚ)) + 1) :
    (evalAnimFramePair64 (some c) t).b = (evalAnimFramePair64 (some c) t').a := by
  have hi := mul64_nonneg t c.fps hfps ht
  rcases eq_or_lt_of_le hl0 with h0 | hpos
  · rw [evalAnimFramePair64_noloop c t h0.symm hn hfps,
      evalAnimFramePair64_noloop c t' h0.symm hn hfps, hidx]
    by_cases h : Int.floor (Js.mul64 t (c.fps : ℚ)) ≥ c.numFrames - 1 ∨ c.numFrames = 1
    · have h2 : Int.floor (Js.mul64 t (c.fps : ℚ)) + 1 ≥ c.numFrames - 1 ∨ c.numFrames = 1 := by
        omega
      rw [if_pos h, if_pos h2]
    · rw [if_neg h]
      by_cases h2 : Int.floor (Js.mul64 t (c.fps : ℚ)) + 1 ≥ c.numFrames - 1 ∨ c.numFrames = 1
      · rw [if_pos h2]
        dsimp only
        omega
      · rw [if_neg h2]
  · rw [evalAnimFramePair64_loop c t hpos hn hfps, evalAnimFramePair64_loop c t' hpos hn hfps,
      hidx]
    by_cases h : Int.floor (Js.mul64 t (c.fps : ℚ)) ≤ c.numFrames - 1
    · rw [if_pos h]
      dsimp only
      by_cases h2 : Int.floor (Js.mul64 t (c.fps : ℚ)) < c.numFrames - 1
      · rw [if_pos h2,
          if_pos (by omega : Int.floor (Js.mul64 t (c.fps : ℚ)) + 1 ≤ c.numFrames - 1)]
        dsimp only
        omega
      · rw [if_neg h2,
          if_neg (by omega : ¬ Int.floor (Js.mul64 t (c.fps : ℚ)) + 1 ≤ c.numFrames - 1)]
        dsimp only
        have hz : Int.floor (Js.mul64 t (c.fps : ℚ)) + 1 - (c.numFrames - 1) - 1 = 0 := by
          omega
        rw [hz, Int.zero_tmod]
        omega
    · rw [if_neg h,
        if_neg (by omega : ¬ Int.floor (Js.mul64 t (c.fps : ℚ)) + 1 ≤ c.numFrames - 1)]
      dsimp only
      have hk0 : 0 ≤ Int.floor (Js.mul64 t (c.fps : ℚ)) - (c.numFrames - 1) - 1 := by omega
      have m0 := Int.emod_nonneg (Int.floor (Js.mul64 t (c.fps : ℚ)) - (c.numFrames - 1) - 1)
        (ne_of_gt hpos)
      rw [Int.tmod_eq_emod hk0 (le_of_lt hpos),
        Int.tmod_eq_emod (by omega) (le_of_lt hpos),
        Int.tmod_eq_emod (by omega) (le_of_lt hpos), Int.emod_add_emod]
      congr 2
      omega

/-- Witness for C28 (amended): the clip of 10 frames at the doubles `0.7` (index 7) and
`0.8` (index 8). -/
theorem evalAnimFramePair64_chain_witness :
    Int.floor (Js.mul64 (Js.round64 (4 / 5)) (clip10.fps : ℚ))
      = Int.floor (Js.mul64 (Js.round64 (7 / 10)) (clip10.fps : ℚ)) + 1 ∧
    (evalAnimFramePair64 (some clip10) (Js.round64 (7 / 10))).b
      = (evalAnimFramePair64 (some clip10) (Js.round64 (4 / 5))).a :=
  ⟨by decide!,
   evalAnimFramePair64_chain clip10 (Js.round64 (7 / 10)) (Js.round64 (4 / 5)) (by decide)
     (by decide) (by decide) (by decide!) (by decide!)⟩

end Q3_Player

/-! ## The looping phase, in exact arithmetic and on doubles -/

namespace Js

theorem roundHalfEven_nonpos (q : ℚ) (h : q ≤ 0) : roundHalfEven q ≤ 0 := by
  have hf : Int.floor q ≤ 0 := by
    have := Int.floor_le q
    have h2 : ((Int.floor q : Int) : ℚ) ≤ 0 := le_trans this h
    exact_mod_cast h2
  unfold roundHalfEven
  dsimp only
  by_cases h1 : q - (Int.floor q : ℚ) < 1 / 2
  · rw [if_pos h1]
    exact hf
  · have h3 : ((Int.floor q : Int) : ℚ) < 0 := by linarith
    have h4 : Int.floor q < 0 := by exact_mod_cast h3
    rw [if_neg h1]
    split_ifs <;> omega

/-- Rounding to a double keeps a value that is not positive from becoming positive. -/
theorem round64_nonpos (x : ℚ) (h : x ≤ 0) : round64 x ≤ 0 := by
  unfold round64
  by_cases hx : x = 0
  · rw [if_pos hx]
  · rw [if_neg hx]
    dsimp only
    have hP : (0 : ℚ) < (2 : ℚ) ^ max (floorLog2 x - 52) (-1074) := by positivity
    have hq : x / (2 : ℚ) ^ max (floorLog2 x - 52) (-1074) ≤ 0 :=
      div_nonpos_of_nonpos_of_nonneg h (le_of_lt hP)
    have hr := roundHalfEven_nonpos _ hq
    have hrq : (roundHalfEven (x / (2 : ℚ) ^ max (floorLog2 x - 52) (-1074)) : ℚ) ≤ 0 := by
      exact_mod_cast hr
    exact mul_nonpos_of_nonpos_of_nonneg hrq (le_of_lt hP)

end Js

namespace Q3_Player

/-- Where no rounding happens the two readings of `evalAnimFramePair` agree: when the
exact product `timeSec * fps` and the exact difference `fExact - i` are doubles, the
result on doubles is the result in exact arithmetic. -/
theorem evalAnimFramePair64_eq_exact (c : AnimInfo) (t : ℚ)
    (h1 : Js.round64 (t * ((max 1 c.fps : Int) : ℚ)) = t * ((max 1 c.fps : Int) : ℚ))
    (h2 : Js.round64 (t * ((max 1 c.fps : Int) : ℚ)
        - (Int.floor (t * ((max 1 c.fps : Int) : ℚ)) : ℚ))
      = t * ((max 1 c.fps : Int) : ℚ) - (Int.floor (t * ((max 1 c.fps : Int) : ℚ)) : ℚ)) :
    evalAnimFramePair64 (some c) t = evalAnimFramePair (some c) t := by
  simp only [evalAnimFramePair64, evalAnimFramePair, Js.mul64, Js.sub64, h1, h2]

/-- The looping phase on doubles, in terms of the index that the code computes. -/
theorem evalAnimFramePair64_loop_phase (c : AnimInfo) (t : ℚ)
    (hl1 : 1 ≤ c.loopFrames) (hl2 : c.loopFrames ≤ c.numFrames) (hfps : 1 ≤ c.fps)
    (hi : Int.floor (Js.mul64 t (c.fps : ℚ)) > c.numFrames - 1) :
    (evalAnimFramePair64 (some c) t).a =
      c.firstFrame + (c.numFrames - c.loopFrames) +
        (Int.floor (Js.mul64 t (c.fps : ℚ)) - c.numFrames) % c.loopFrames ∧
    (evalAnimFramePair64 (some c) t).b =
      c.firstFrame + (c.numFrames - c.loopFrames) +
        ((Int.floor (Js.mul64 t (c.fps : ℚ)) - c.numFrames) % c.loopFrames + 1)
          % c.loopFrames ∧
    (c.firstFrame + (c.numFrames - c.loopFrames) ≤ (evalAnimFramePair64 (some c) t).a ∧
      (evalAnimFramePair64 (some c) t).a < c.firstFrame + c.numFrames) ∧
    (c.firstFrame + (c.numFrames - c.loopFrames) ≤ (evalAnimFramePair64 (some c) t).b ∧
      (evalAnimFramePair64 (some c) t).b < c.firstFrame + c.numFrames) := by
  have hn : 1 ≤ c.numFrames := by omega
  have hL : c.loopFrames ≠ 0 := by omega
  have hLpos : 0 < c.loopFrames := by omega
  have hx : Int.floor (Js.mul64 t (c.fps : ℚ)) - (c.numFrames - 1) - 1
      = Int.floor (Js.mul64 t (c.fps : ℚ)) - c.numFrames := by ring
  have hk0 := Int.emod_nonneg (Int.floor (Js.mul64 t (c.fps : ℚ)) - c.numFrames) hL
  have hk1 := Int.emod_lt_of_pos (Int.floor (Js.mul64 t (c.fps : ℚ)) - c.numFrames) hLpos
  have hs0 := Int.emod_nonneg
    ((Int.floor (Js.mul64 t (c.fps : ℚ)) - c.numFrames) % c.loopFrames + 1) hL
  have hs1 := Int.emod_lt_of_pos
    ((Int.floor (Js.mul64 t (c.fps : ℚ)) - c.numFrames) % c.loopFrames + 1) hLpos
  have ha : (evalAnimFramePair64 (some c) t).a =
      c.firstFrame + (c.numFrames - c.loopFrames) +
        (Int.floor (Js.mul64 t (c.fps : ℚ)) - c.numFrames) % c.loopFrames := by
    rw [evalAnimFramePair64_loop c t hLpos hn hfps, if_neg (by omega)]
    dsimp only
    rw [hx, Int.tmod_eq_emod (by omega) (by omega)]
  have hb : (evalAnimFramePair64 (some c) t).b =
      c.firstFrame + (c.numFrames - c.loopFrames) +
        ((Int.floor (Js.mul64 t (c.fps : ℚ)) - c.numFrames) % c.loopFrames + 1)
          % c.loopFrames := by
    have e1 := Int.tmod_eq_emod
      (show 0 ≤ Int.floor (Js.mul64 t (c.fps : ℚ)) - c.numFrames by omega) (le_of_lt hLpos)
    rw [evalAnimFramePair64_loop c t hLpos hn hfps, if_neg (by omega)]
    dsimp only
    rw [hx, e1, Int.tmod_eq_emod (by omega) (by omega)]
  refine ⟨ha, hb, ?_, ?_⟩
  · rw [ha]; constructor <;> omega
  · rw [hb]; constructor <;> omega

/-- An index above `numFrames - 1 >= 0` forces a rate of at least 1: for a time that is
not negative, or a rate that is not negative, a product above zero has both factors above
zero. -/
theorem fps_pos_of_index (c : AnimInfo) (t x : ℚ) (hn : 1 ≤ c.numFrames)
    (hdom : 0 ≤ t ∨ 0 ≤ c.fps) (hx : t * (c.fps : ℚ) ≤ 0 → x ≤ 0)
    (hi : Int.floor x > c.numFrames - 1) : 1 ≤ c.fps := by
  have hpos : (0 : ℚ) < x := by
    have h1 : 1 ≤ Int.floor x := by omega
    have h2 : ((1 : Int) : ℚ) ≤ x := Int.le_floor.mp h1
    have h3 : ((1 : Int) : ℚ) = 1 := by norm_num
    rw [h3] at h2
    linarith
  by_contra hneg
  have hle : c.fps ≤ 0 := by omega
  have hq : (c.fps : ℚ) ≤ 0 := by exact_mod_cast hle
  rcases hdom with ht | hf
  · have := hx (mul_nonpos_of_nonneg_of_nonpos ht hq)
    linarith
  · have h0 : c.fps = 0 := by omega
    have := hx (by rw [h0]; simp)
    linarith

/-- C5: for a clip with `1 <= loopFrames <= numFrames` and a time `t` with
`i = floor(t*fps) > numFrames - 1`, the result has
frameA `= firstFrame + loopStart + ((i - numFrames) mod loopFrames)` and frameB its cyclic
successor inside the loop, so both frames lie in
`[firstFrame + loopStart, firstFrame + numFrames)` where `loopStart = numFrames - loopFrames`.
The time is one the code receives, `t >= 0` (every caller clamps it), or else the rate is
not negative. The statement holds with the product `t*fps` taken exactly and with the
product taken in binary64, as the code computes it. -/
theorem evalAnimFramePair_loop_phase (c : AnimInfo) (t : ℚ)
    (hl1 : 1 ≤ c.loopFrames) (hl2 : c.loopFrames ≤ c.numFrames)
    (hdom : 0 ≤ t ∨ 0 ≤ c.fps) :
    (Int.floor (t * (c.fps : ℚ)) > c.numFrames - 1 →
      (evalAnimFramePair (some c) t).a =
        c.firstFrame + (c.numFrames - c.loopFrames) +
          (Int.floor (t * (c.fps : ℚ)) - c.numFrames) % c.loopFrames ∧
      (evalAnimFramePair (some c) t).b =
        c.firstFrame + (c.numFrames - c.loopFrames) +
          ((Int.floor (t * (c.fps : ℚ)) - c.numFrames) % c.loopFrames + 1) % c.loopFrames ∧
      (c.firstFrame + (c.numFrames - c.loopFrames) ≤ (evalAnimFramePair (some c) t).a ∧
        (evalAnimFramePair (some c) t).a < c.firstFrame + c.numFrames) ∧
      (c.firstFrame + (c.numFrames - c.loopFrames) ≤ (evalAnimFramePair (some c) t).b ∧
        (evalAnimFramePair (some c) t).b < c.firstFrame + c.numFrames)) ∧
    (Int.floor (Js.mul64 t (c.fps : ℚ)) > c.numFrames - 1 →
      (evalAnimFramePair64 (some c) t).a =
        c.firstFrame + (c.numFrames - c.loopFrames) +
          (Int.floor (Js.mul64 t (c.fps : ℚ)) - c.numFrames) % c.loopFrames ∧
      (evalAnimFramePair64 (some c) t).b =
        c.firstFrame + (c.numFrames - c.loopFrames) +
          ((Int.floor (Js.mul64 t (c.fps : ℚ)) - c.numFrames) % c.loopFrames + 1)
            % c.loopFrames ∧
      (c.firstFrame + (c.numFrames - c.loopFrames) ≤ (evalAnimFramePair64 (some c) t).a ∧
        (evalAnimFramePair64 (some c) t).a < c.firstFrame + c.numFrames) ∧
      (c.firstFrame + (c.numFrames - c.loopFrames) ≤ (evalAnimFramePair64 (some c) t).b ∧
        (evalAnimFramePair64 (some c) t).b < c.firstFrame + c.numFrames)) := by
  have hn : 1 ≤ c.numFrames := by omega
  constructor
  · intro hi
    have hfps := fps_pos_of_index c t _ hn hdom (fun h => h) hi
    have hmax : max 1 c.fps = c.fps := max_eq_right hfps
    have key := evalAnimFramePair_loop_phase_clamped c t hl1 hl2 (by rw [hmax]; exact hi)
    rw [hmax] at key
    exact key
  · intro hi
    have hfps := fps_pos_of_index c t _ hn hdom (fun h => Js.round64_nonpos _ h) hi
    exact evalAnimFramePair64_loop_phase c t hl1 hl2 hfps hi

/-- Witness for C5: the looping clip at `t = 0.75`, frame index `7 > 5 - 1`. -/
theorem evalAnimFramePair_loop_phase_witness :
    (loopClip.firstFrame + (loopClip.numFrames - loopClip.loopFrames) ≤
        (evalAnimFramePair (some loopClip) (3 / 4)).a ∧
      (evalAnimFramePair (some loopClip) (3 / 4)).a
        < loopClip.firstFrame + loopClip.numFrames) ∧
    (loopClip.firstFrame + (loopClip.numFrames - loopClip.loopFrames) ≤
        (evalAnimFramePair64 (some loopClip) (3 / 4)).a ∧
      (evalAnimFramePair64 (some loopClip) (3 / 4)).a
        < loopClip.firstFrame + loopClip.numFrames) :=
  ⟨((evalAnimFramePair_loop_phase loopClip (3 / 4) (by decide) (by decide)
      (Or.inl (by norm_num))).1
      (by
        have h : Int.floor ((3 / 4 : ℚ) * ((10 : Int) : ℚ)) = 7 := by
          rw [Int.floor_eq_iff]; norm_num
        show Int.floor ((3 / 4 : ℚ) * ((10 : Int) : ℚ)) > 5 - 1
        rw [h]; decide)).2.2.1,
   ((evalAnimFramePair_loop_phase loopClip (3 / 4) (by decide) (by decide)
      (Or.inl (by norm_num))).2 (by decide!)).2.2.1⟩

end Q3_Player

/-! ## `orthonormalizeBasis` never consults its second argument -/

namespace Vec3

variable {K : Type} [LinearOrderedField K]

/-- With an exact `Math.hypot`, `vnorm` returns a vector of length one for every input:
the quotient `v / |v|` above the threshold, the fallback `[0, 0, 1]` below it. -/
theorem vlen_vnorm (M : JsMath K) (hM : M.Exact) (v : Vec3 K) : vlen M (vnorm M v) = 1 := by
  by_cases h : vlen M v > 1 / 100000000
  · exact vlen_of_unit M hM _ (vnorm_unit M hM v h)
  · apply vlen_of_unit M hM
    simp only [vnorm, h, if_false, dot]
    norm_num

/-- Unfolding of `orthonormalizeBasis` for every input: the branch that would rebuild the
third axis from `X × Y` needs `|vnorm Z| < 1e-6` and is never taken. -/
theorem orthonormalizeBasis_eq (M : JsMath K) (hM : M.Exact) (X Y Z : Vec3 K) :
    orthonormalizeBasis M X Y Z =
      { X := vnorm M X
        Y := vnorm M (cross (vnorm M Z) (vnorm M X))
        Z := vnorm M (cross (vnorm M X) (vnorm M (cross (vnorm M Z) (vnorm M X)))) } := by
  have hnot : ¬ vlen M (vnorm M Z) < 1 / 1000000 := by rw [vlen_vnorm M hM Z]; norm_num
  simp only [orthonormalizeBasis, hnot, if_false]

/-- C29: with exact arithmetic `vnorm` always returns a vector of length one (the
fallback `[0, 0, 1]` included), so the test `|vnorm Z| < 1e-6` of `orthonormalizeBasis`
never holds, and the result does not depend on `Y`: for all `X`, `Z`, `Y`, `Y'` the two
calls return the same basis. -/
theorem orthonormalizeBasis_ignores_Y (M : JsMath K) (hM : M.Exact) (X Y Y' Z : Vec3 K) :
    vlen M (vnorm M Z) = 1 ∧ ¬ vlen M (vnorm M Z) < 1 / 1000000 ∧
      orthonormalizeBasis M X Y Z = orthonormalizeBasis M X Y' Z := by
  refine ⟨vlen_vnorm M hM Z, ?_, ?_⟩
  · rw [vlen_vnorm M hM Z]; norm_num
  · rw [orthonormalizeBasis_eq M hM X Y Z, orthonormalizeBasis_eq M hM X Y' Z]

/-- Witness for C29: over the real numbers, a degenerate `Z = 0` with two different `Y`. -/
theorem orthonormalizeBasis_ignores_Y_witness :
    ∃ M : JsMath ℝ, M.Exact ∧
      vlen M (vnorm M { x := 0, y := 0, z := 0 }) = 1 ∧
      ¬ vlen M (vnorm M { x := 0, y := 0, z := 0 }) < 1 / 1000000 ∧
      orthonormalizeBasis M { x := 1, y := 0, z := 0 } { x := 0, y := 1, z := 0 }
          { x := 0, y := 0, z := 0 }
        = orthonormalizeBasis M { x := 1, y := 0, z := 0 } { x := 0, y := 0, z := 5 }
          { x := 0, y := 0, z := 0 } :=
  ⟨_, real_exact,
    orthonormalizeBasis_ignores_Y _ real_exact { x := 1, y := 0, z := 0 }
      { x := 0, y := 1, z := 0 } { x := 0, y := 0, z := 5 } { x := 0, y := 0, z := 0 }⟩

end Vec3

/-! ## Packed normals (`MD3_SurfaceFrame`) -/

namespace MD3_SurfaceFrame

variable {K : Type} [LinearOrderedField K]

/-- C23: for every packed value `n` the normal decoded by `MD3_SurfaceFrame`,
`(cos(lat) * sin(lng), sin(lat) * sin(lng), cos(lng))`, is a unit vector: with sine and
cosine obeying `sin² + cos² = 1`, as over the reals, its squared components sum to 1. -/
theorem normal_unit (M : JsMath K)
    (htrig : ∀ x : K, M.sin x * M.sin x + M.cos x * M.cos x = 1) (n : Int) :
    (normal M n).x * (normal M n).x + (normal M n).y * (normal M n).y
      + (normal M n).z * (normal M n).z = 1 := by
  have a := htrig (lat M n)
  have b := htrig (lng M n)
  simp only [normal]
  linear_combination (M.sin (lng M n) * M.sin (lng M n)) * a + b

/-- Witness for C23: over the real numbers, the packed value `0x4020`. -/
theorem normal_unit_witness :
    ∃ M : JsMath ℝ, (∀ x : ℝ, M.sin x * M.sin x + M.cos x * M.cos x = 1) ∧
      (normal M 16416).x * (normal M 16416).x + (normal M 16416).y * (normal M 16416).y
        + (normal M 16416).z * (normal M 16416).z = 1 := by
  have h : ∀ x : ℝ, Real.sin x * Real.sin x + Real.cos x * Real.cos x = 1 := by
    intro x
    have := Real.sin_sq_add_cos_sq x
    rw [sq, sq] at this
    exact this
  exact ⟨{ hypot := fun a b c => Real.sqrt (a * a + b * b + c * c), sin := Real.sin,
           cos := Real.cos, PI := Real.pi }, h, normal_unit _ h 16416⟩

/-- The two bytes of every integer are the high and the low byte of its 16-bit
pattern `n mod 65536`, and lie in `0..255`. -/
theorem bytes_of_pattern (n : Int) :
    latByte n = (n % 65536) / 256 ∧ lngByte n = (n % 65536) % 256 ∧
    (0 ≤ latByte n ∧ latByte n ≤ 255) ∧ (0 ≤ lngByte n ∧ lngByte n ≤ 255) := by
  simp only [latByte, lngByte]
  omega

/-- The angle of a byte `k` in `0..255` lies in the closed interval `[0, 2π]` and is
`2π` exactly for `k = 255`. -/
theorem angle_range (PI : K) (hpi : 0 < PI) (k : Int) (h0 : 0 ≤ k) (h1 : k ≤ 255) :
    0 ≤ (k : K) * (2 * PI / 255) ∧ (k : K) * (2 * PI / 255) ≤ 2 * PI ∧
    ((k : K) * (2 * PI / 255) < 2 * PI ↔ k < 255) := by
  have hk0 : (0 : K) ≤ (k : K) := by exact_mod_cast h0
  have hk1 : (k : K) ≤ 255 := by exact_mod_cast h1
  have hstep : (0 : K) < 2 * PI / 255 := by positivity
  have htop : (255 : K) * (2 * PI / 255) = 2 * PI := by field_simp
  refine ⟨mul_nonneg hk0 (le_of_lt hstep), ?_, ?_⟩
  · calc (k : K) * (2 * PI / 255) ≤ 255 * (2 * PI / 255) :=
          mul_le_mul_of_nonneg_right hk1 (le_of_lt hstep)
      _ = 2 * PI := htop
  · constructor
    · intro h
      by_contra hk
      have hk255 : k = 255 := by omega
      rw [hk255] at h
      have h2 : ((255 : Int) : K) = 255 := by norm_num
      rw [h2, htop] at h
      exact lt_irrefl _ h
    · intro h
      have hk2 : (k : K) < 255 := by exact_mod_cast h
      calc (k : K) * (2 * PI / 255) < 255 * (2 * PI / 255) :=
            mul_lt_mul_of_pos_right hk2 hstep
        _ = 2 * PI := htop

/-- C24, as stated, fails for the packed value `-1` (pattern `0xFFFF`): both bytes are
255 and the angle `255 * (2π / 255)` is `2π` itself, which is not below `2π`. -/
theorem angles_half_open_counterexample :
    ∃ M : JsMath ℝ, M.PI = Real.pi ∧ latByte (-1) = 255 ∧
      lat M (-1) = 2 * Real.pi ∧ ¬ lat M (-1) < 2 * M.PI := by
  have hb : latByte (-1) = 255 := by decide
  have key : ∀ M : JsMath ℝ, lat M (-1) = 2 * M.PI := by
    intro M
    simp only [lat, hb]
    push_cast
    field_simp
  refine ⟨{ hypot := fun a b c => Real.sqrt (a * a + b * b + c * c), sin := Real.sin,
            cos := Real.cos, PI := Real.pi }, rfl, hb, key _, ?_⟩
  rw [key]
  exact lt_irrefl _

/-- C24, amended: for every integer `n`, so for every signed 16-bit one, the two angle
bytes are the high and the low byte of the 16-bit pattern of `n`, each in `0..255`, and
both angles lie in the closed interval `[0, 2π]`; an angle is below `2π` exactly when
its byte is below 255. -/
theorem angles_closed (M : JsMath K) (hpi : 0 < M.PI) (n : Int) :
    (latByte n = (n % 65536) / 256 ∧ lngByte n = (n % 65536) % 256) ∧
    ((0 ≤ latByte n ∧ latByte n ≤ 255) ∧ (0 ≤ lngByte n ∧ lngByte n ≤ 255)) ∧
    (0 ≤ lat M n ∧ lat M n ≤ 2 * M.PI ∧ (lat M n < 2 * M.PI ↔ latByte n < 255)) ∧
    (0 ≤ lng M n ∧ lng M n ≤ 2 * M.PI ∧ (lng M n < 2 * M.PI ↔ lngByte n < 255)) := by
  obtain ⟨h1, h2, h3, h4⟩ := bytes_of_pattern n
  exact ⟨⟨h1, h2⟩, ⟨h3, h4⟩, angle_range M.PI hpi _ h3.1 h3.2,
    angle_range M.PI hpi _ h4.1 h4.2⟩

/-- Witness for C24 (amended): over the real numbers, the packed value `-1`. -/
theorem angles_closed_witness :
    ∃ M : JsMath ℝ, 0 < M.PI ∧ lat M (-1) ≤ 2 * M.PI ∧ lng M (-1) ≤ 2 * M.PI :=
  ⟨{ hypot := fun a b c => Real.sqrt (a * a + b * b + c * c), sin := Real.sin,
     cos := Real.cos, PI := Real.pi }, Real.pi_pos,
   (angles_closed _ Real.pi_pos (-1)).2.2.1.2.1,
   (angles_closed _ Real.pi_pos (-1)).2.2.2.2.1⟩

end MD3_SurfaceFrame

/-! ## Reads of `Byter` -/

namespace Js

/-- A typed-array view exists exactly when the offset is a non-negative multiple of the
element width, the length is not negative and the view ends inside the buffer. -/
theorem typedArray_eq (buffer : List Nat) (byteOffset : Int) (w : Nat) (length : Int) :
    typedArray buffer byteOffset w length =
      if 0 ≤ byteOffset ∧ byteOffset % (w : Int) = 0 ∧ 0 ≤ length ∧
          byteOffset + length * (w : Int) ≤ (buffer.length : Int) then
        some ((List.range length.toNat).map
          (fun i => (buffer.drop (byteOffset.toNat + i * w)).take w))
      else none := by
  unfold typedArray
  by_cases h : byteOffset < 0 ∨ byteOffset % (w : Int) ≠ 0 ∨ length < 0 ∨
      byteOffset + length * (w : Int) > (buffer.length : Int)
  · rw [if_pos h, if_neg]
    intro h2
    rcases h with h | h | h | h
    · omega
    · exact h h2.2.1
    · omega
    · omega
  · rw [if_neg h, if_pos]
    push_neg at h
    exact ⟨h.1, h.2.1, h.2.2.1, h.2.2.2⟩

end Js

namespace Byter

/-- The result of a typed read, for every width, offset `0` and count. -/
theorem getArray_eq {α : Type} (w : Nat) (value : List Nat → α) (n : Int) (b : Byter) :
    getArray w value 0 n b =
      if 0 ≤ b.idx ∧ b.idx % (w : Int) = 0 ∧ 0 ≤ n ∧
          b.idx + n * (w : Int) ≤ (b.bytearray.length : Int) then
        some (((List.range n.toNat).map
            (fun i => (b.bytearray.drop (b.idx.toNat + i * w)).take w)).map value,
          { bytearray := b.bytearray, idx := b.idx + (w : Int) * n })
      else none := by
  simp only [getArray, add_zero, Js.typedArray_eq]
  split_ifs with h
  · rfl
  · rfl

/-- A typed read that returns has read inside the buffer at an aligned cursor, returns
`n` elements and moves the cursor by `w * n`. -/
theorem getArray_some {α : Type} {w : Nat} {value : List Nat → α} {n : Int} {b b1 : Byter}
    {vs : List α} (h : getArray w value 0 n b = some (vs, b1)) :
    b1 = { bytearray := b.bytearray, idx := b.idx + (w : Int) * n } ∧
    (0 ≤ b.idx ∧ b.idx % (w : Int) = 0 ∧ 0 ≤ n ∧
      b.idx + (w : Int) * n ≤ (b.bytearray.length : Int)) ∧
    ((vs.length : Int) = n) := by
  rw [getArray_eq] at h
  split_ifs at h with hc
  simp only [Option.some.injEq, Prod.mk.injEq] at h
  obtain ⟨hv, hb⟩ := h
  refine ⟨hb.symm, ⟨hc.1, hc.2.1, hc.2.2.1, by rw [mul_comm]; exact hc.2.2.2⟩, ?_⟩
  rw [← hv]
  simp only [List.length_map, List.length_range]
  exact Int.toNat_of_nonneg hc.2.2.1

/-- C25, as stated, fails for an unaligned cursor: in a buffer of 8 bytes with the cursor
at 1, the read of one 32-bit integer ends at `1 + 1 * 4 <= 8` and still throws, because a
typed-array view must start at a multiple of its element width. -/
theorem cursorAfter_counterexample :
    (1 : Int) + 1 * (ReadKind.int32.width : Int) ≤ (List.replicate 8 0).length ∧
    getInt32Array 0 1 { bytearray := List.replicate 8 0, idx := 1 } = none ∧
    cursorAfter ReadKind.int32 1 { bytearray := List.replicate 8 0, idx := 1 } = none := by
  decide

/-- C25, amended: for a `Byter` over a buffer of length `L` with the cursor at `p`, the
read of `n` elements of width `w` with offset `0` returns and leaves the cursor at
`p + n * w` when `p` is a non-negative multiple of `w`, `n` is not negative and
`p + n * w <= L`; in every other case, so whenever `p + n * w > L` and also whenever `p`
is negative or not a multiple of `w`, it throws and returns no value. -/
theorem cursorAfter_eq (k : ReadKind) (n : Int) (b : Byter) :
    cursorAfter k n b =
      if 0 ≤ b.idx ∧ b.idx % (k.width : Int) = 0 ∧ 0 ≤ n ∧
          b.idx + n * (k.width : Int) ≤ (b.totalSize : Int) then
        some (b.idx + n * (k.width : Int))
      else none := by
  cases k <;>
    simp only [cursorAfter, getInt32Array, getInt16Array, getUint16Array, getFloat32Array,
      getUint8Array, getString, Decoder.andThen, getArray_eq, ReadKind.width, totalSize] <;>
    split_ifs with h <;> simp [Decoder.ret, mul_comm]

end Byter

/-! ## Lemmas on the reader -/

namespace Decoder

theorem andThen_some {α β : Type} {r : Decoder α} {f : α → Decoder β} {b b' : Byter} {v : β}
    (h : andThen r f b = some (v, b')) :
    ∃ a b1, r b = some (a, b1) ∧ f a b1 = some (v, b') := by
  unfold andThen at h
  cases hr : r b with
  | none => rw [hr] at h; exact absurd h (by simp)
  | some p =>
    obtain ⟨a, b1⟩ := p
    rw [hr] at h
    exact ⟨a, b1, rfl, h⟩

theorem bind_some {α β : Type} {r : Decoder α} {f : α → Decoder β} {b b' : Byter} {v : β}
    (h : (r >>= f) b = some (v, b')) :
    ∃ a b1, r b = some (a, b1) ∧ f a b1 = some (v, b') :=
  andThen_some h

theorem ret_some {α : Type} {a v : α} {b b' : Byter} (h : ret a b = some (v, b')) :
    v = a ∧ b' = b := by
  simp only [ret, Option.some.injEq, Prod.mk.injEq] at h
  exact ⟨h.1.symm, h.2.symm⟩

theorem pure_some {α : Type} {a v : α} {b b' : Byter}
    (h : (pure a : Decoder α) b = some (v, b')) : v = a ∧ b' = b :=
  ret_some h

theorem lift_newArray_some {n : Int} {len : Nat} {b b' : Byter}
    (h : lift (Js.newArray n) b = some (len, b')) : 0 ≤ n ∧ (len : Int) = n ∧ b' = b := by
  unfold Js.newArray at h
  split_ifs at h with hn
  · exact absurd h (by simp [lift, throw])
  · obtain ⟨h1, h2⟩ := ret_some h
    refine ⟨by omega, ?_, h2⟩
    rw [h1]
    exact Int.toNat_of_nonneg (by omega)

/-- A loop over a constructor that reads `k` bytes: it returns `n` objects, moves the
cursor by `n * k` and, when `n > 0` and `k > 0`, has stayed inside the buffer. -/
theorem forRange_fixed {α : Type} (r : Decoder α) (k : Int) (Q : α → Prop)
    (hr : ∀ b v b', r b = some (v, b') →
      b' = { bytearray := b.bytearray, idx := b.idx + k } ∧ 0 ≤ k ∧
        (0 < k → 0 ≤ b.idx ∧ b.idx + k ≤ (b.bytearray.length : Int)) ∧ Q v) :
    ∀ (n : Nat) (b : Byter) (vs : List α) (b' : Byter), forRange r n b = some (vs, b') →
      b' = { bytearray := b.bytearray, idx := b.idx + (n : Int) * k } ∧ vs.length = n ∧
      (∀ v ∈ vs, Q v) ∧
      (0 < n → 0 ≤ k ∧
        (0 < k → 0 ≤ b.idx ∧ b.idx + (n : Int) * k ≤ (b.bytearray.length : Int))) := by
  intro n
  induction n with
  | zero =>
    intro b vs b' h
    obtain ⟨h1, h2⟩ := ret_some h
    subst h1 h2
    refine ⟨by simp, rfl, by simp, by simp⟩
  | succ n ih =>
    intro b vs b' h
    obtain ⟨a, b1, ha, h⟩ := andThen_some h
    obtain ⟨rest, b2, hrest, h⟩ := andThen_some h
    obtain ⟨h1, h2⟩ := ret_some h
    obtain ⟨e1, hk, hin1, hq⟩ := hr b a b1 ha
    obtain ⟨e2, hlen, hall, hin⟩ := ih b1 rest b2 hrest
    subst h1 h2 e1
    dsimp only at e2 hin
    refine ⟨?_, by simp [hlen], ?_, ?_⟩
    · rw [e2]
      congr 1
      push_cast
      ring
    · intro v hv
      rcases List.mem_cons.mp hv with hv | hv
      · rw [hv]; exact hq
      · exact hall v hv
    · intro _
      refine ⟨hk, fun hk0 => ⟨(hin1 hk0).1, ?_⟩⟩
      push_cast
      rcases Nat.eq_zero_or_pos n with h0 | hpos
      · subst h0
        simp only [Nat.cast_zero, zero_add, one_mul]
        exact (hin1 hk0).2
      · have := ((hin hpos).2 hk0).2
        linarith

/-- The statement `new Array(n)` with its filling loop, over a constructor that reads
`k` bytes. -/
theorem arrayOf_fixed {α : Type} (r : Decoder α) (k : Int) (Q : α → Prop)
    (hr : ∀ b v b', r b = some (v, b') →
      b' = { bytearray := b.bytearray, idx := b.idx + k } ∧ 0 ≤ k ∧
        (0 < k → 0 ≤ b.idx ∧ b.idx + k ≤ (b.bytearray.length : Int)) ∧ Q v)
    {n : Int} {b b' : Byter} {vs : List α} (h : arrayOf n r b = some (vs, b')) :
    b' = { bytearray := b.bytearray, idx := b.idx + n * k } ∧ 0 ≤ n ∧
      (vs.length : Int) = n ∧ (∀ v ∈ vs, Q v) ∧
      (0 < n → 0 ≤ k ∧
        (0 < k → 0 ≤ b.idx ∧ b.idx + n * k ≤ (b.bytearray.length : Int))) := by
  obtain ⟨len, b1, hl, h⟩ := andThen_some h
  obtain ⟨h0, hlen, hb⟩ := lift_newArray_some hl
  rw [hb] at h
  obtain ⟨e, hl2, hall, hin⟩ := forRange_fixed r k Q hr len b vs b' h
  rw [hlen] at e hin
  refine ⟨e, h0, by rw [hl2]; exact hlen, hall, ?_⟩
  intro hn
  exact hin (by omega)

/-- A loop over a constructor that records the cursor at which it starts (`s`) and
leaves the cursor at a position that its object determines (`e`): the first object
starts at the cursor before the loop and every later one where its predecessor ended. -/
theorem forRange_chain {α : Type} (r : Decoder α) (buf : List Nat) (s e : α → Int)
    (Q : α → Prop)
    (hr : ∀ b v b', b.bytearray = buf → r b = some (v, b') →
      b' = { bytearray := buf, idx := e v } ∧ s v = b.idx ∧ Q v) :
    ∀ (n : Nat) (b : Byter) (vs : List α) (b' : Byter), b.bytearray = buf →
      forRange r n b = some (vs, b') →
      b'.bytearray = buf ∧ vs.length = n ∧ (∀ v ∈ vs, Q v) ∧
      (∀ v, vs[0]? = some v → s v = b.idx) ∧
      (∀ j v1 v2, vs[j]? = some v1 → vs[j + 1]? = some v2 → s v2 = e v1) := by
  intro n
  induction n with
  | zero =>
    intro b vs b' hb h
    obtain ⟨h1, h2⟩ := ret_some h
    subst h1 h2
    refine ⟨hb, rfl, by simp, by simp, by simp⟩
  | succ n ih =>
    intro b vs b' hb h
    obtain ⟨a, b1, ha, h⟩ := andThen_some h
    obtain ⟨rest, b2, hrest, h⟩ := andThen_some h
    obtain ⟨h1, h2⟩ := ret_some h
    obtain ⟨e1, hs, hq⟩ := hr b a b1 hb ha
    have hb1 : b1.bytearray = buf := by rw [e1]
    obtain ⟨e2, hlen, hall, hhead, hchain⟩ := ih b1 rest b2 hb1 hrest
    subst h1 h2
    refine ⟨e2, by simp [hlen], ?_, ?_, ?_⟩
    · intro v hv
      rcases List.mem_cons.mp hv with hv | hv
      · rw [hv]; exact hq
      · exact hall v hv
    · intro v hv
      simp only [List.getElem?_cons_zero, Option.some.injEq] at hv
      rw [← hv]; exact hs
    · intro j v1 v2 hv1 hv2
      simp only [List.getElem?_cons_succ] at hv2
      cases j with
      | zero =>
        simp only [List.getElem?_cons_zero, Option.some.injEq] at hv1
        rw [← hv1, hhead v2 hv2, e1]
      | succ j =>
        simp only [List.getElem?_cons_succ] at hv1
        exact hchain j v1 v2 hv1 hv2

end Decoder

namespace Byter

variable {K : Type} [LinearOrderedField K]

theorem getPos_some {v : Int} {b b' : Byter} (h : getPos b = some (v, b')) :
    v = b.idx ∧ b' = b := by
  simp only [getPos, Option.some.injEq, Prod.mk.injEq] at h
  exact ⟨h.1.symm, h.2.symm⟩

theorem setPos_some {p : Int} {u : Unit} {b b' : Byter} (h : setPos p b = some (u, b')) :
    b' = { bytearray := b.bytearray, idx := p } := by
  simp only [setPos, Option.some.injEq, Prod.mk.injEq] at h
  exact h.2.symm

theorem getInt32Value_some {v : Int} {b b' : Byter} (h : getInt32Value 0 b = some (v, b')) :
    b' = { bytearray := b.bytearray, idx := b.idx + 4 } ∧ 0 ≤ b.idx ∧
      b.idx + 4 ≤ (b.bytearray.length : Int) := by
  obtain ⟨a, b1, h1, h2⟩ := Decoder.andThen_some h
  obtain ⟨e, hc, _⟩ := getArray_some h1
  obtain ⟨_, e2⟩ := Decoder.ret_some h2
  rw [e2, e]
  refine ⟨by norm_num, hc.1, ?_⟩
  have := hc.2.2.2
  norm_num at this
  exact this

/-- The value that `getInt32Value(0)` returns is the integer stored at the cursor. -/
theorem getInt32Value_val {v : Int} {b b' : Byter} (h : getInt32Value 0 b = some (v, b')) :
    v = Js.int32At b.bytearray b.idx := by
  obtain ⟨a, b1, h1, h2⟩ := Decoder.andThen_some h
  obtain ⟨hv, _⟩ := Decoder.ret_some h2
  unfold getInt32Array at h1
  rw [getArray_eq] at h1
  split_ifs at h1 with hc
  simp only [Option.some.injEq, Prod.mk.injEq] at h1
  rw [hv, ← h1.1]
  simp [Js.int32At, List.range_succ]

theorem getFloat32Value_some {v : K} {b b' : Byter}
    (h : (getFloat32Value 0 : Decoder K) b = some (v, b')) :
    b' = { bytearray := b.bytearray, idx := b.idx + 4 } ∧ 0 ≤ b.idx ∧
      b.idx + 4 ≤ (b.bytearray.length : Int) := by
  obtain ⟨a, b1, h1, h2⟩ := Decoder.andThen_some h
  obtain ⟨e, hc, _⟩ := getArray_some h1
  obtain ⟨_, e2⟩ := Decoder.ret_some h2
  rw [e2, e]
  refine ⟨by norm_num, hc.1, ?_⟩
  have := hc.2.2.2
  norm_num at this
  exact this

theorem getFloat32Array_some {n : Int} {vs : List K} {b b' : Byter}
    (h : (getFloat32Array 0 n : Decoder (List K)) b = some (vs, b')) :
    b' = { bytearray := b.bytearray, idx := b.idx + 4 * n } ∧ 0 ≤ n ∧ 0 ≤ b.idx ∧
      b.idx + 4 * n ≤ (b.bytearray.length : Int) ∧ (vs.length : Int) = n := by
  obtain ⟨e, hc, hl⟩ := getArray_some h
  exact ⟨e, hc.2.2.1, hc.1, hc.2.2.2, hl⟩

theorem getInt32Array_some {n : Int} {vs : List Int} {b b' : Byter}
    (h : getInt32Array 0 n b = some (vs, b')) :
    b' = { bytearray := b.bytearray, idx := b.idx + 4 * n } ∧ 0 ≤ n ∧ 0 ≤ b.idx ∧
      b.idx + 4 * n ≤ (b.bytearray.length : Int) ∧ (vs.length : Int) = n := by
  obtain ⟨e, hc, hl⟩ := getArray_some h
  exact ⟨e, hc.2.2.1, hc.1, hc.2.2.2, hl⟩

theorem getInt16Array_some {n : Int} {vs : List Int} {b b' : Byter}
    (h : getInt16Array 0 n b = some (vs, b')) :
    b' = { bytearray := b.bytearray, idx := b.idx + 2 * n } ∧ 0 ≤ n ∧ 0 ≤ b.idx ∧
      b.idx + 2 * n ≤ (b.bytearray.length : Int) ∧ (vs.length : Int) = n := by
  obtain ⟨e, hc, hl⟩ := getArray_some h
  exact ⟨e, hc.2.2.1, hc.1, hc.2.2.2, hl⟩

theorem getString_some {n : Int} {lastchar : Option (List Char)} {v : List Char}
    {b b' : Byter} (h : getString 0 n lastchar b = some (v, b')) :
    b' = { bytearray := b.bytearray, idx := b.idx + n } ∧ 0 ≤ n ∧ 0 ≤ b.idx ∧
      b.idx + n ≤ (b.bytearray.length : Int) := by
  obtain ⟨a, b1, h1, h2⟩ := Decoder.andThen_some h
  obtain ⟨e, hc, _⟩ := getArray_some h1
  have e2 : b' = b1 := by
    rcases lastchar with _ | (_ | ⟨c, cs⟩)
    · exact (Decoder.ret_some h2).2
    · exact (Decoder.ret_some h2).2
    · exact (Decoder.ret_some h2).2
  rw [e2, e]
  refine ⟨by norm_num, hc.2.2.1, hc.1, ?_⟩
  have := hc.2.2.2
  norm_num at this
  exact this

end Byter

namespace MD3_Shader

/-- A shader record takes 68 bytes. -/
theorem shader_new_some {v : MD3_Shader} {b b' : Byter} (h : new b = some (v, b')) :
    b' = { bytearray := b.bytearray, idx := b.idx + 68 } ∧ (0 : Int) ≤ 68 ∧
      ((0 : Int) < 68 → 0 ≤ b.idx ∧ b.idx + 68 ≤ (b.bytearray.length : Int)) ∧ True := by
  unfold new at h
  obtain ⟨p0, b0, h0, h⟩ := Decoder.bind_some h
  obtain ⟨q0, e0⟩ := Byter.getPos_some h0
  rw [e0] at h
  obtain ⟨p1, b1, h1, h⟩ := Decoder.bind_some h
  obtain ⟨e1, _, c1, d1⟩ := Byter.getString_some h1
  rw [e1] at h
  obtain ⟨p2, b2, h2, h⟩ := Decoder.bind_some h
  obtain ⟨e2, c2, d2⟩ := Byter.getInt32Value_some h2
  rw [e2] at h
  obtain ⟨p3, b3, h3, h⟩ := Decoder.bind_some h
  obtain ⟨q3, e3⟩ := Byter.getPos_some h3
  rw [e3] at h
  obtain ⟨_, e⟩ := Decoder.pure_some h
  simp only [MAX_QPATH] at *
  refine ⟨?_, by norm_num, fun _ => ⟨c1, by omega⟩, trivial⟩
  rw [e]
  congr 1
  omega

end MD3_Shader

namespace MD3_Frame

variable {K : Type} [LinearOrderedField K]

/-- A frame record takes 56 bytes. -/
theorem frame_new_some {v : MD3_Frame K} {b b' : Byter} (h : new b = some (v, b')) :
    b' = { bytearray := b.bytearray, idx := b.idx + 56 } ∧ (0 : Int) ≤ 56 ∧
      ((0 : Int) < 56 → 0 ≤ b.idx ∧ b.idx + 56 ≤ (b.bytearray.length : Int)) ∧ True := by
  unfold new at h
  obtain ⟨p0, b0, h0, h⟩ := Decoder.bind_some h
  obtain ⟨q0, e0⟩ := Byter.getPos_some h0
  rw [e0] at h
  obtain ⟨p1, b1, h1, h⟩ := Decoder.bind_some h
  obtain ⟨e1, _, c1, d1, _⟩ := Byter.getFloat32Array_some h1
  rw [e1] at h
  obtain ⟨p2, b2, h2, h⟩ := Decoder.bind_some h
  obtain ⟨e2, _, c2, d2, _⟩ := Byter.getFloat32Array_some h2
  rw [e2] at h
  obtain ⟨p3, b3, h3, h⟩ := Decoder.bind_some h
  obtain ⟨e3, _, c3, d3, _⟩ := Byter.getFloat32Array_some h3
  rw [e3] at h
  obtain ⟨p4, b4, h4, h⟩ := Decoder.bind_some h
  obtain ⟨e4, c4, d4⟩ := Byter.getFloat32Value_some h4
  rw [e4] at h
  obtain ⟨p5, b5, h5, h⟩ := Decoder.bind_some h
  obtain ⟨e5, _, c5, d5⟩ := Byter.getString_some h5
  rw [e5] at h
  obtain ⟨p6, b6, h6, h⟩ := Decoder.bind_some h
  obtain ⟨q6, e6⟩ := Byter.getPos_some h6
  rw [e6] at h
  obtain ⟨_, e⟩ := Decoder.pure_some h
  simp only [STR_NAME_MAX_LENGTH] at *
  refine ⟨?_, by norm_num, fun _ => ⟨c1, by omega⟩, trivial⟩
  rw [e]
  congr 1
  omega

end MD3_Frame

namespace MD3_Tag

variable {K : Type} [LinearOrderedField K]

/-- A tag record takes 112 bytes. -/
theorem tag_new_some {v : MD3_Tag K} {b b' : Byter} (h : new b = some (v, b')) :
    b' = { bytearray := b.bytearray, idx := b.idx + 112 } ∧ (0 : Int) ≤ 112 ∧
      ((0 : Int) < 112 → 0 ≤ b.idx ∧ b.idx + 112 ≤ (b.bytearray.length : Int)) ∧ True := by
  unfold new at h
  obtain ⟨p0, b0, h0, h⟩ := Decoder.bind_some h
  obtain ⟨e0, _, c0, d0⟩ := Byter.getString_some h0
  rw [e0] at h
  obtain ⟨p1, b1, h1, h⟩ := Decoder.bind_some h
  obtain ⟨e1, _, c1, d1, _⟩ := Byter.getFloat32Array_some h1
  rw [e1] at h
  obtain ⟨p2, b2, h2, h⟩ := Decoder.bind_some h
  obtain ⟨e2, _, c2, d2, _⟩ := Byter.getFloat32Array_some h2
  rw [e2] at h
  obtain ⟨p3, b3, h3, h⟩ := Decoder.bind_some h
  obtain ⟨e3, _, c3, d3, _⟩ := Byter.getFloat32Array_some h3
  rw [e3] at h
  obtain ⟨p4, b4, h4, h⟩ := Decoder.bind_some h
  obtain ⟨e4, _, c4, d4, _⟩ := Byter.getFloat32Array_some h4
  rw [e4] at h
  obtain ⟨_, e⟩ := Decoder.pure_some h
  simp only [MAX_QPATH] at *
  refine ⟨?_, by norm_num, fun _ => ⟨c0, by omega⟩, trivial⟩
  rw [e]
  congr 1
  omega

end MD3_Tag

namespace MD3_Header

/-- The header takes 108 bytes, and its fields `_start_pos` and `_end_pos` are the
cursor before and after it. -/
theorem header_new_some {v : MD3_Header} {b b' : Byter} (h : new b = some (v, b')) :
    b' = { bytearray := b.bytearray, idx := b.idx + 108 } ∧ 0 ≤ b.idx ∧
      b.idx + 108 ≤ (b.bytearray.length : Int) ∧ v._start_pos = b.idx ∧
      v._end_pos = b.idx + 108 := by
  unfold new at h
  obtain ⟨p0, b0, h0, h⟩ := Decoder.bind_some h
  obtain ⟨q0, e0⟩ := Byter.getPos_some h0
  rw [e0] at h
  obtain ⟨p1, b1, h1, h⟩ := Decoder.bind_some h
  obtain ⟨e1, _, c1, d1⟩ := Byter.getString_some h1
  rw [e1] at h
  obtain ⟨p2, b2, h2, h⟩ := Decoder.bind_some h
  obtain ⟨e2, c2, d2⟩ := Byter.getInt32Value_some h2
  rw [e2] at h
  obtain ⟨p3, b3, h3, h⟩ := Decoder.bind_some h
  obtain ⟨e3, _, c3, d3⟩ := Byter.getString_some h3
  rw [e3] at h
  obtain ⟨p4, b4, h4, h⟩ := Decoder.bind_some h
  obtain ⟨e4, c4, d4⟩ := Byter.getInt32Value_some h4
  rw [e4] at h
  obtain ⟨p5, b5, h5, h⟩ := Decoder.bind_some h
  obtain ⟨e5, c5, d5⟩ := Byter.getInt32Value_some h5
  rw [e5] at h
  obtain ⟨p6, b6, h6, h⟩ := Decoder.bind_some h
  obtain ⟨e6, c6, d6⟩ := Byter.getInt32Value_some h6
  rw [e6] at h
  obtain ⟨p7, b7, h7, h⟩ := Decoder.bind_some h
  obtain ⟨e7, c7, d7⟩ := Byter.getInt32Value_some h7
  rw [e7] at h
  obtain ⟨p8, b8, h8, h⟩ := Decoder.bind_some h
  obtain ⟨e8, c8, d8⟩ := Byter.getInt32Value_some h8
  rw [e8] at h
  obtain ⟨p9, b9, h9, h⟩ := Decoder.bind_some h
  obtain ⟨e9, c9, d9⟩ := Byter.getInt32Value_some h9
  rw [e9] at h
  obtain ⟨p10, b10, h10, h⟩ := Decoder.bind_some h
  obtain ⟨e10, c10, d10⟩ := Byter.getInt32Value_some h10
  rw [e10] at h
  obtain ⟨p11, b11, h11, h⟩ := Decoder.bind_some h
  obtain ⟨e11, c11, d11⟩ := Byter.getInt32Value_some h11
  rw [e11] at h
  obtain ⟨p12, b12, h12, h⟩ := Decoder.bind_some h
  obtain ⟨e12, c12, d12⟩ := Byter.getInt32Value_some h12
  rw [e12] at h
  obtain ⟨p13, b13, h13, h⟩ := Decoder.bind_some h
  obtain ⟨q13, e13⟩ := Byter.getPos_some h13
  rw [e13] at h
  obtain ⟨ev, e⟩ := Decoder.pure_some h
  simp only [MAX_QPATH, MAX_IDENT] at *
  have hb : b' = { bytearray := b.bytearray, idx := b.idx + 108 } := by
    rw [e]
    congr 1
    omega
  refine ⟨hb, c1, by omega, by rw [ev, q0], ?_⟩
  rw [ev, q13]
  dsimp only
  omega

/-- The counts and offsets of the header are the integers that the buffer holds behind
the identifier, the version and the name, from byte 76 of the header on. -/
theorem header_new_fields {v : MD3_Header} {b b' : Byter} (h : new b = some (v, b')) :
    v.S32_NUM_FRAMES = Js.int32At b.bytearray (b.idx + 76) ∧
    v.S32_NUM_TAGS = Js.int32At b.bytearray (b.idx + 80) ∧
    v.S32_NUM_SURFACES = Js.int32At b.bytearray (b.idx + 84) ∧
    v.S32_OFS_FRAMES = Js.int32At b.bytearray (b.idx + 92) ∧
    v.S32_OFS_TAGS = Js.int32At b.bytearray (b.idx + 96) ∧
    v.S32_OFS_SURFACES = Js.int32At b.bytearray (b.idx + 100) := by
  unfold new at h
  obtain ⟨p0, b0, h0, h⟩ := Decoder.bind_some h
  obtain ⟨q0, e0⟩ := Byter.getPos_some h0
  rw [e0] at h
  obtain ⟨p1, b1, h1, h⟩ := Decoder.bind_some h
  obtain ⟨e1, _, c1, d1⟩ := Byter.getString_some h1
  rw [e1] at h
  obtain ⟨p2, b2, h2, h⟩ := Decoder.bind_some h
  obtain ⟨e2, c2, d2⟩ := Byter.getInt32Value_some h2
  have v2 := Byter.getInt32Value_val h2
  rw [e2] at h
  obtain ⟨p3, b3, h3, h⟩ := Decoder.bind_some h
  obtain ⟨e3, _, c3, d3⟩ := Byter.getString_some h3
  rw [e3] at h
  obtain ⟨p4, b4, h4, h⟩ := Decoder.bind_some h
  obtain ⟨e4, c4, d4⟩ := Byter.getInt32Value_some h4
  have v4 := Byter.getInt32Value_val h4
  rw [e4] at h
  obtain ⟨p5, b5, h5, h⟩ := Decoder.bind_some h
  obtain ⟨e5, c5, d5⟩ := Byter.getInt32Value_some h5
  have v5 := Byter.getInt32Value_val h5
  rw [e5] at h
  obtain ⟨p6, b6, h6, h⟩ := Decoder.bind_some h
  obtain ⟨e6, c6, d6⟩ := Byter.getInt32Value_some h6
  have v6 := Byter.getInt32Value_val h6
  rw [e6] at h
  obtain ⟨p7, b7, h7, h⟩ := Decoder.bind_some h
  obtain ⟨e7, c7, d7⟩ := Byter.getInt32Value_some h7
  have v7 := Byter.getInt32Value_val h7
  rw [e7] at h
  obtain ⟨p8, b8, h8, h⟩ := Decoder.bind_some h
  obtain ⟨e8, c8, d8⟩ := Byter.getInt32Value_some h8
  have v8 := Byter.getInt32Value_val h8
  rw [e8] at h
  obtain ⟨p9, b9, h9, h⟩ := Decoder.bind_some h
  obtain ⟨e9, c9, d9⟩ := Byter.getInt32Value_some h9
  have v9 := Byter.getInt32Value_val h9
  rw [e9] at h
  obtain ⟨p10, b10, h10, h⟩ := Decoder.bind_some h
  obtain ⟨e10, c10, d10⟩ := Byter.getInt32Value_some h10
  have v10 := Byter.getInt32Value_val h10
  rw [e10] at h
  obtain ⟨p11, b11, h11, h⟩ := Decoder.bind_some h
  obtain ⟨e11, c11, d11⟩ := Byter.getInt32Value_some h11
  have v11 := Byter.getInt32Value_val h11
  rw [e11] at h
  obtain ⟨p12, b12, h12, h⟩ := Decoder.bind_some h
  obtain ⟨e12, c12, d12⟩ := Byter.getInt32Value_some h12
  have v12 := Byter.getInt32Value_val h12
  rw [e12] at h
  obtain ⟨p13, b13, h13, h⟩ := Decoder.bind_some h
  obtain ⟨q13, e13⟩ := Byter.getPos_some h13
  rw [e13] at h
  obtain ⟨ev, e⟩ := Decoder.pure_some h
  simp only [MAX_QPATH, MAX_IDENT] at *
  rw [ev]
  dsimp only
  refine ⟨?_, ?_, ?_, ?_, ?_, ?_⟩
  · rw [v5]; congr 1; omega
  · rw [v6]; congr 1; omega
  · rw [v7]; congr 1; omega
  · rw [v9]; congr 1; omega
  · rw [v10]; congr 1; omega
  · rw [v11]; congr 1; omega

end MD3_Header

namespace MD3_TagFrame

variable {K : Type} [LinearOrderedField K]

/-- A tag frame holds `S32_NUM_TAGS` tags and takes 112 bytes for each. -/
theorem tagFrame_new_some {header : MD3_Header} {v : MD3_TagFrame K} {b b' : Byter}
    (h : new header b = some (v, b')) :
    b' = { bytearray := b.bytearray, idx := b.idx + header.S32_NUM_TAGS * 112 } ∧
      0 ≤ header.S32_NUM_TAGS * 112 ∧
      (0 < header.S32_NUM_TAGS * 112 →
        0 ≤ b.idx ∧ b.idx + header.S32_NUM_TAGS * 112 ≤ (b.bytearray.length : Int)) ∧
      (v.tags.length : Int) = header.S32_NUM_TAGS := by
  unfold new at h
  obtain ⟨p0, b0, h0, h⟩ := Decoder.bind_some h
  obtain ⟨q0, e0⟩ := Byter.getPos_some h0
  rw [e0] at h
  obtain ⟨p1, b1, h1, h⟩ := Decoder.bind_some h
  obtain ⟨e1, n1, l1, _, c1⟩ :=
    Decoder.arrayOf_fixed MD3_Tag.new 112 (fun _ => True)
      (fun _ _ _ hh => MD3_Tag.tag_new_some hh) h1
  rw [e1] at h
  obtain ⟨p2, b2, h2, h⟩ := Decoder.bind_some h
  obtain ⟨q2, e2⟩ := Byter.getPos_some h2
  rw [e2] at h
  obtain ⟨ev, e⟩ := Decoder.pure_some h
  refine ⟨e, by omega, ?_, by rw [ev]; exact l1⟩
  intro hpos
  exact (c1 (by omega)).2 (by norm_num)

end MD3_TagFrame

namespace MD3_SurfaceFrame

variable {K : Type} [LinearOrderedField K]

theorem length_unpack (M : JsMath K) (xs : List Int) (l : List Nat) :
    (l.flatMap (unpackVertex M xs)).length = 6 * l.length := by
  induction l with
  | nil => rfl
  | cons i l ih =>
    rw [List.flatMap_cons, List.length_append, ih, List.length_cons]
    simp only [unpackVertex, List.length_cons, List.length_nil]
    omega

/-- A surface frame takes 8 bytes for each vertex of its surface and holds 4 integers
and 6 floats for each. -/
theorem surfaceFrame_new_some {M : JsMath K} {nv : Int} {v : MD3_SurfaceFrame K} {b b' : Byter}
    (h : new M nv b = some (v, b')) :
    b' = { bytearray := b.bytearray, idx := b.idx + nv * 8 } ∧ 0 ≤ nv * 8 ∧
      (0 < nv * 8 → 0 ≤ b.idx ∧ b.idx + nv * 8 ≤ (b.bytearray.length : Int)) ∧
      ((v.vertexbuffer_xyzn.length : Int) = nv * 6 ∧ (v.xyz_normals.length : Int) = nv * 4) := by
  unfold new at h
  dsimp only at h
  obtain ⟨p0, b0, h0, h⟩ := Decoder.bind_some h
  obtain ⟨q0, e0⟩ := Byter.getPos_some h0
  rw [e0] at h
  obtain ⟨p1, b1, h1, h⟩ := Decoder.bind_some h
  obtain ⟨e1, n1, c1, d1, l1⟩ := Byter.getInt16Array_some h1
  rw [e1] at h
  obtain ⟨p2, b2, h2, h⟩ := Decoder.bind_some h
  obtain ⟨q2, e2⟩ := Byter.getPos_some h2
  rw [e2] at h
  obtain ⟨p3, b3, h3, h⟩ := Decoder.bind_some h
  obtain ⟨n3, l3, e3⟩ := Decoder.lift_newArray_some h3
  rw [e3] at h
  obtain ⟨ev, e⟩ := Decoder.pure_some h
  refine ⟨?_, by omega, fun _ => ⟨c1, by omega⟩, ?_, by rw [ev]; exact l1⟩
  · rw [e]
    congr 1
    omega
  · rw [ev]
    dsimp only
    rw [length_unpack, List.length_range]
    have : ((nv.toNat : Nat) : Int) = nv := Int.toNat_of_nonneg (by omega)
    push_cast
    omega

end MD3_SurfaceFrame

namespace MD3_Surface

variable {K : Type} [LinearOrderedField K]

/-- A surface object that the constructor returns starts at the cursor before the call,
leaves the cursor at the end of its last vertex block, and satisfies `ReadFacts` and
`FieldsAt`. -/
theorem surface_new_some {M : JsMath K} {v : MD3_Surface K} {b b' : Byter}
    (h : new M b = some (v, b')) :
    b' = { bytearray := b.bytearray, idx := endOfVertexBlocks v } ∧ v._start_pos = b.idx ∧
      ReadFacts (b.bytearray.length : Int) v ∧ FieldsAt b.bytearray v := by
  unfold new at h
  obtain ⟨p0, b0, h0, h⟩ := Decoder.bind_some h
  obtain ⟨q0, e0⟩ := Byter.getPos_some h0
  rw [e0] at h
  obtain ⟨p1, b1, h1, h⟩ := Decoder.bind_some h
  obtain ⟨e1, _, c1, d1⟩ := Byter.getString_some h1
  rw [e1] at h
  obtain ⟨p2, b2, h2, h⟩ := Decoder.bind_some h
  obtain ⟨e2, _, c2, d2⟩ := Byter.getString_some h2
  rw [e2] at h
  obtain ⟨p3, b3, h3, h⟩ := Decoder.bind_some h
  obtain ⟨e3, c3, d3⟩ := Byter.getInt32Value_some h3
  have v3 := Byter.getInt32Value_val h3
  rw [e3] at h
  obtain ⟨p4, b4, h4, h⟩ := Decoder.bind_some h
  obtain ⟨e4, c4, d4⟩ := Byter.getInt32Value_some h4
  have v4 := Byter.getInt32Value_val h4
  rw [e4] at h
  obtain ⟨p5, b5, h5, h⟩ := Decoder.bind_some h
  obtain ⟨e5, c5, d5⟩ := Byter.getInt32Value_some h5
  have v5 := Byter.getInt32Value_val h5
  rw [e5] at h
  obtain ⟨p6, b6, h6, h⟩ := Decoder.bind_some h
  obtain ⟨e6, c6, d6⟩ := Byter.getInt32Value_some h6
  have v6 := Byter.getInt32Value_val h6
  rw [e6] at h
  obtain ⟨p7, b7, h7, h⟩ := Decoder.bind_some h
  obtain ⟨e7, c7, d7⟩ := Byter.getInt32Value_some h7
  have v7 := Byter.getInt32Value_val h7
  rw [e7] at h
  obtain ⟨p8, b8, h8, h⟩ := Decoder.bind_some h
  obtain ⟨e8, c8, d8⟩ := Byter.getInt32Value_some h8
  have v8 := Byter.getInt32Value_val h8
  rw [e8] at h
  obtain ⟨p9, b9, h9, h⟩ := Decoder.bind_some h
  obtain ⟨e9, c9, d9⟩ := Byter.getInt32Value_some h9
  have v9 := Byter.getInt32Value_val h9
  rw [e9] at h
  obtain ⟨p10, b10, h10, h⟩ := Decoder.bind_some h
  obtain ⟨e10, c10, d10⟩ := Byter.getInt32Value_some h10
  have v10 := Byter.getInt32Value_val h10
  rw [e10] at h
  obtain ⟨p11, b11, h11, h⟩ := Decoder.bind_some h
  obtain ⟨e11, c11, d11⟩ := Byter.getInt32Value_some h11
  have v11 := Byter.getInt32Value_val h11
  rw [e11] at h
  obtain ⟨p12, b12, h12, h⟩ := Decoder.bind_some h
  obtain ⟨e12, c12, d12⟩ := Byter.getInt32Value_some h12
  have v12 := Byter.getInt32Value_val h12
  rw [e12] at h
  obtain ⟨p13, b13, h13, h⟩ := Decoder.bind_some h
  obtain ⟨q13, e13⟩ := Byter.getPos_some h13
  rw [e13] at h
  obtain ⟨p14, b14, h14, h⟩ := Decoder.bind_some h
  have e14 := Byter.setPos_some h14
  rw [e14] at h
  obtain ⟨p15, b15, h15, h⟩ := Decoder.bind_some h
  obtain ⟨e15, n15, l15, _, c15⟩ :=
    Decoder.arrayOf_fixed MD3_Shader.new 68 (fun _ => True)
      (fun _ _ _ hh => MD3_Shader.shader_new_some hh) h15
  rw [e15] at h
  obtain ⟨p16, b16, h16, h⟩ := Decoder.bind_some h
  have e16 := Byter.setPos_some h16
  rw [e16] at h
  dsimp only at h
  obtain ⟨p17, b17, h17, h⟩ := Decoder.bind_some h
  obtain ⟨e17, n17, c17, d17, l17⟩ := Byter.getInt32Array_some h17
  rw [e17] at h
  obtain ⟨p18, b18, h18, h⟩ := Decoder.bind_some h
  obtain ⟨n18, l18, e18⟩ := Decoder.lift_newArray_some h18
  rw [e18] at h
  obtain ⟨p19, b19, h19, h⟩ := Decoder.bind_some h
  have e19 := Byter.setPos_some h19
  rw [e19] at h
  obtain ⟨p20, b20, h20, h⟩ := Decoder.bind_some h
  obtain ⟨e20, n20, c20, d20, l20⟩ := Byter.getFloat32Array_some h20
  rw [e20] at h
  obtain ⟨p21, b21, h21, h⟩ := Decoder.bind_some h
  have e21 := Byter.setPos_some h21
  rw [e21] at h
  obtain ⟨p22, b22, h22, h⟩ := Decoder.bind_some h
  obtain ⟨e22, n22, l22, a22, c22⟩ :=
    Decoder.arrayOf_fixed (MD3_SurfaceFrame.new M p6) (p6 * 8)
      (fun sf => (sf.vertexbuffer_xyzn.length : Int) = p6 * 6 ∧
        (sf.xyz_normals.length : Int) = p6 * 4)
      (fun _ _ _ hh => MD3_SurfaceFrame.surfaceFrame_new_some hh) h22
  rw [e22] at h
  obtain ⟨ev, e⟩ := Decoder.pure_some h
  simp only [MAX_QPATH] at *
  subst ev
  unfold ReadFacts FieldsAt
  dsimp only at *
  refine ⟨?_, q0, ⟨?_, ?_, ?_, ?_, ?_⟩, ?_⟩
  · rw [e]
    simp only [endOfVertexBlocks]
    congr 1
    rw [q0]
    ring
  · refine ⟨by omega, by omega, by omega⟩
  · refine ⟨n15, l15, ?_⟩
    intro hp
    have := (c15 hp).2 (by norm_num)
    refine ⟨by omega, by omega⟩
  · refine ⟨by omega, l17, ?_, by omega, by omega⟩
    rw [List.length_map, List.length_range]
    exact l18
  · refine ⟨by omega, by rw [l20], by omega, by omega⟩
  · refine ⟨n22, l22, a22, ?_⟩
    intro hf hv
    have := (c22 hf).2 (by omega)
    refine ⟨by omega, ?_⟩
    exact this.2
  · rw [q0]
    refine ⟨?_, ?_, ?_, ?_, ?_, ?_, ?_, ?_, ?_⟩
    · rw [v4]; congr 1; omega
    · rw [v5]; congr 1; omega
    · rw [v6]; congr 1; omega
    · rw [v7]; congr 1; omega
    · rw [v8]; congr 1; omega
    · rw [v9]; congr 1; omega
    · rw [v10]; congr 1; omega
    · rw [v11]; congr 1; omega
    · rw [v12]; congr 1; omega

end MD3_Surface

namespace Decoder

/-- The statement `new Array(n)` with its filling loop, over a constructor that records
where it starts and determines where it ends. -/
theorem arrayOf_chain {α : Type} (r : Decoder α) (buf : List Nat) (s e : α → Int)
    (Q : α → Prop)
    (hr : ∀ b v b', b.bytearray = buf → r b = some (v, b') →
      b' = { bytearray := buf, idx := e v } ∧ s v = b.idx ∧ Q v)
    {n : Int} {b b' : Byter} {vs : List α} (hb : b.bytearray = buf)
    (h : arrayOf n r b = some (vs, b')) :
    b'.bytearray = buf ∧ 0 ≤ n ∧ (vs.length : Int) = n ∧ (∀ v ∈ vs, Q v) ∧
      (∀ v, vs[0]? = some v → s v = b.idx) ∧
      (∀ j v1 v2, vs[j]? = some v1 → vs[j + 1]? = some v2 → s v2 = e v1) := by
  obtain ⟨len, b1, hl, h⟩ := andThen_some h
  obtain ⟨h0, hlen, hb1⟩ := lift_newArray_some hl
  rw [hb1] at h
  obtain ⟨e1, hl2, hall, hhead, hchain⟩ := forRange_chain r buf s e Q hr len b vs b' hb h
  exact ⟨e1, h0, by rw [hl2]; exact hlen, hall, hhead, hchain⟩

end Decoder

namespace MD3_File

variable {K : Type} [LinearOrderedField K]

/-- What holds of the fields that `loadFileContent` sets when it returns: the header of
108 bytes and every non-empty section lie inside the buffer, every array has the
declared length, the surfaces are read one after the other, and the counts and offsets
of the header and of every surface are the integers that the buffer holds. -/
theorem loadFileContent_some_full {M : JsMath K} {arraybuffer : List Nat} {file : MD3_File K}
    (h : loadFileContent M arraybuffer = some file) :
    ((108 ≤ (arraybuffer.length : Int)) ∧
    (0 ≤ file.header.S32_NUM_FRAMES ∧
      (file.frames.length : Int) = file.header.S32_NUM_FRAMES ∧
      (0 < file.header.S32_NUM_FRAMES → 0 ≤ file.header.S32_OFS_FRAMES ∧
        file.header.S32_OFS_FRAMES + file.header.S32_NUM_FRAMES * 56
          ≤ (arraybuffer.length : Int))) ∧
    ((file.tag_frames.length : Int) = file.header.S32_NUM_FRAMES ∧
      (∀ tf ∈ file.tag_frames, (tf.tags.length : Int) = file.header.S32_NUM_TAGS) ∧
      (0 < file.header.S32_NUM_FRAMES → 0 ≤ file.header.S32_NUM_TAGS ∧
        (0 < file.header.S32_NUM_TAGS → 0 ≤ file.header.S32_OFS_TAGS ∧
          file.header.S32_OFS_TAGS
            + file.header.S32_NUM_FRAMES * (file.header.S32_NUM_TAGS * 112)
            ≤ (arraybuffer.length : Int)))) ∧
    (0 ≤ file.header.S32_NUM_SURFACES ∧
      (file.surfaces.length : Int) = file.header.S32_NUM_SURFACES ∧
      (∀ s ∈ file.surfaces, MD3_Surface.ReadFacts (arraybuffer.length : Int) s) ∧
      (∀ s, file.surfaces[0]? = some s → s._start_pos = file.header.S32_OFS_SURFACES) ∧
      (∀ j s1 s2, file.surfaces[j]? = some s1 → file.surfaces[j + 1]? = some s2 →
        s2._start_pos = MD3_Surface.endOfVertexBlocks s1))) ∧
    (file.header.S32_NUM_FRAMES = Js.int32At arraybuffer 76 ∧
      file.header.S32_NUM_TAGS = Js.int32At arraybuffer 80 ∧
      file.header.S32_NUM_SURFACES = Js.int32At arraybuffer 84 ∧
      file.header.S32_OFS_FRAMES = Js.int32At arraybuffer 92 ∧
      file.header.S32_OFS_TAGS = Js.int32At arraybuffer 96 ∧
      file.header.S32_OFS_SURFACES = Js.int32At arraybuffer 100) ∧
    (∀ s ∈ file.surfaces, MD3_Surface.FieldsAt arraybuffer s) := by
  unfold loadFileContent at h
  cases hrd : readContent M (Byter.new arraybuffer) with
  | none => rw [hrd] at h; exact absurd h (by simp)
  | some p =>
    obtain ⟨f, b'⟩ := p
    rw [hrd] at h
    simp only [Option.map_some', Option.some.injEq] at h
    subst h
    unfold readContent at hrd
    obtain ⟨hd, b0, h0, hrd⟩ := Decoder.bind_some hrd
    obtain ⟨e0, c0, d0, _, _⟩ := MD3_Header.header_new_some h0
    have hfields := MD3_Header.header_new_fields h0
    rw [e0] at hrd
    obtain ⟨u1, b1, h1, hrd⟩ := Decoder.bind_some hrd
    have e1 := Byter.setPos_some h1
    rw [e1] at hrd
    obtain ⟨frames, b2, h2, hrd⟩ := Decoder.bind_some hrd
    obtain ⟨e2, n2, l2, _, c2⟩ :=
      Decoder.arrayOf_fixed MD3_Frame.new 56 (fun _ => True)
        (fun _ _ _ hh => MD3_Frame.frame_new_some hh) h2
    rw [e2] at hrd
    obtain ⟨u3, b3, h3, hrd⟩ := Decoder.bind_some hrd
    have e3 := Byter.setPos_some h3
    rw [e3] at hrd
    obtain ⟨tag_frames, b4, h4, hrd⟩ := Decoder.bind_some hrd
    obtain ⟨e4, n4, l4, a4, c4⟩ :=
      Decoder.arrayOf_fixed (MD3_TagFrame.new hd) (hd.S32_NUM_TAGS * 112)
        (fun tf => (tf.tags.length : Int) = hd.S32_NUM_TAGS)
        (fun _ _ _ hh => MD3_TagFrame.tagFrame_new_some hh) h4
    rw [e4] at hrd
    obtain ⟨u5, b5, h5, hrd⟩ := Decoder.bind_some hrd
    have e5 := Byter.setPos_some h5
    rw [e5] at hrd
    obtain ⟨surfaces, b6, h6, hrd⟩ := Decoder.bind_some hrd
    obtain ⟨e6, n6, l6, a6, hd6, ch6⟩ :=
      Decoder.arrayOf_chain (MD3_Surface.new M) arraybuffer
        (fun s => s._start_pos) MD3_Surface.endOfVertexBlocks
        (fun s => MD3_Surface.ReadFacts (arraybuffer.length : Int) s ∧
          MD3_Surface.FieldsAt arraybuffer s)
        (fun b v b' hb hh => by
          obtain ⟨x1, x2, x3, x4⟩ := MD3_Surface.surface_new_some hh
          rw [hb] at x1 x3 x4
          exact ⟨x1, x2, x3, x4⟩)
        (rfl : ({ bytearray := arraybuffer, idx := hd.S32_OFS_SURFACES } : Byter).bytearray
          = arraybuffer) h6
    obtain ⟨ev, _⟩ := Decoder.pure_some hrd
    subst ev
    simp only [Byter.new] at *
    refine ⟨⟨by omega, ⟨n2, l2, ?_⟩, ⟨l4, a4, ?_⟩,
      ⟨n6, l6, fun s hs => (a6 s hs).1, hd6, ch6⟩⟩, ?_, fun s hs => (a6 s hs).2⟩
    · intro hp
      exact (c2 hp).2 (by norm_num)
    · intro hp
      refine ⟨by have := (c4 hp).1; omega, ?_⟩
      intro ht
      exact (c4 hp).2 (by omega)
    · simpa using hfields

/-- What holds of the fields that `loadFileContent` sets when it returns: the header of
108 bytes and every non-empty section lie inside the buffer, every array has the
declared length, and the surfaces are read one after the other. -/
theorem loadFileContent_some {M : JsMath K} {arraybuffer : List Nat} {file : MD3_File K}
    (h : loadFileContent M arraybuffer = some file) :
    (108 ≤ (arraybuffer.length : Int)) ∧
    (0 ≤ file.header.S32_NUM_FRAMES ∧
      (file.frames.length : Int) = file.header.S32_NUM_FRAMES ∧
      (0 < file.header.S32_NUM_FRAMES → 0 ≤ file.header.S32_OFS_FRAMES ∧
        file.header.S32_OFS_FRAMES + file.header.S32_NUM_FRAMES * 56
          ≤ (arraybuffer.length : Int))) ∧
    ((file.tag_frames.length : Int) = file.header.S32_NUM_FRAMES ∧
      (∀ tf ∈ file.tag_frames, (tf.tags.length : Int) = file.header.S32_NUM_TAGS) ∧
      (0 < file.header.S32_NUM_FRAMES → 0 ≤ file.header.S32_NUM_TAGS ∧
        (0 < file.header.S32_NUM_TAGS → 0 ≤ file.header.S32_OFS_TAGS ∧
          file.header.S32_OFS_TAGS
            + file.header.S32_NUM_FRAMES * (file.header.S32_NUM_TAGS * 112)
            ≤ (arraybuffer.length : Int)))) ∧
    (0 ≤ file.header.S32_NUM_SURFACES ∧
      (file.surfaces.length : Int) = file.header.S32_NUM_SURFACES ∧
      (∀ s ∈ file.surfaces, MD3_Surface.ReadFacts (arraybuffer.length : Int) s) ∧
      (∀ s, file.surfaces[0]? = some s → s._start_pos = file.header.S32_OFS_SURFACES) ∧
      (∀ j s1 s2, file.surfaces[j]? = some s1 → file.surfaces[j + 1]? = some s2 →
        s2._start_pos = MD3_Surface.endOfVertexBlocks s1)) :=
  (loadFileContent_some_full h).1

end MD3_File

/-! ## Theorems about `MD3_File.loadFileContent` -/

set_option maxRecDepth 100000

namespace MD3_File

variable {K : Type} [LinearOrderedField K]

/-- The well-formed sample file is read without an exception. -/
theorem sampleBuffer_loads :
    (loadFileContent
      ({ hypot := fun a b c => Real.sqrt (a * a + b * b + c * c), sin := Real.sin,
         cos := Real.cos, PI := Real.pi } : JsMath ℝ) (sampleBuffer 1 1)).isSome = true := by
  decide!

/-- The sample file of two surfaces is read without an exception, also when its surface
headers declare `S32_OFS_END = 0`. -/
theorem twoSurfaceBuffer_loads :
    (loadFileContent
      ({ hypot := fun a b c => Real.sqrt (a * a + b * b + c * c), sin := Real.sin,
         cos := Real.cos, PI := Real.pi } : JsMath ℝ) (twoSurfaceBuffer 0)).isSome = true := by
  decide!

/-- C21, as stated, fails: the buffer `sampleBuffer 1 2` has a header that declares one
frame and a surface header that declares two, with two vertex blocks behind it.
`loadFileContent` reads it without an exception, and the surface has two surface frames
while `frames` has one element. -/
theorem surface_frames_length_counterexample :
    (loadFileContent
      ({ hypot := fun a b c => Real.sqrt (a * a + b * b + c * c), sin := Real.sin,
         cos := Real.cos, PI := Real.pi } : JsMath ℝ) (sampleBuffer 1 2)).map
      (fun f => (f.frames.length, f.surfaces.map (fun s => s.surface_frames.length)))
    = some (1, [2]) := by
  decide!

/-- C21, amended: for every buffer that `loadFileContent` reads without an exception,
the length of `surface_frames` of every surface is the `S32_NUM_FRAMES` of that
surface's own header; it equals `frames.length` exactly when that field equals the
`S32_NUM_FRAMES` of the file header, which the reader does not check. -/
theorem surface_frames_length (M : JsMath K) (arraybuffer : List Nat) (file : MD3_File K)
    (h : loadFileContent M arraybuffer = some file) :
    ∀ s ∈ file.surfaces,
      (s.surface_frames.length : Int) = s.S32_NUM_FRAMES ∧
      (s.surface_frames.length = file.frames.length ↔
        s.S32_NUM_FRAMES = file.header.S32_NUM_FRAMES) := by
  obtain ⟨_, ⟨_, hf, _⟩, _, _, _, hs, _⟩ := loadFileContent_some h
  intro s hmem
  have h1 := (hs s hmem).2.2.2.2.2.1
  refine ⟨h1, ?_⟩
  constructor
  · intro heq
    rw [← h1, ← hf, heq]
  · intro heq
    have : (s.surface_frames.length : Int) = (file.frames.length : Int) := by
      rw [h1, hf, heq]
    exact_mod_cast this

/-- Witness for C21 (amended): the well-formed sample file. -/
theorem surface_frames_length_witness :
    ∃ file : MD3_File ℝ,
      loadFileContent
        ({ hypot := fun a b c => Real.sqrt (a * a + b * b + c * c), sin := Real.sin,
           cos := Real.cos, PI := Real.pi } : JsMath ℝ) (sampleBuffer 1 1) = some file ∧
      ∀ s ∈ file.surfaces,
        (s.surface_frames.length : Int) = s.S32_NUM_FRAMES ∧
        (s.surface_frames.length = file.frames.length ↔
          s.S32_NUM_FRAMES = file.header.S32_NUM_FRAMES) := by
  obtain ⟨file, hf⟩ := Option.isSome_iff_exists.mp sampleBuffer_loads
  exact ⟨file, hf, surface_frames_length _ _ file hf⟩

/-- C22: for every buffer that `loadFileContent` reads without an exception the lengths
of the arrays are the counts declared in the file. The counts of the header are the
integers at bytes 76, 80 and 84 of the buffer and those of a surface the integers at
bytes 80 and 84 behind its start: `frames` and `tag_frames` have `S32_NUM_FRAMES`
elements, every tag frame holds `S32_NUM_TAGS` tags, `surfaces` has `S32_NUM_SURFACES`
elements, and in every surface both index lists have `3 * S32_NUM_TRIANGLES` entries,
the texture coordinates `2 * S32_NUM_VERTS` floats and the vertex buffer of every
surface frame `6 * S32_NUM_VERTS` floats. -/
theorem loadFileContent_counts (M : JsMath K) (arraybuffer : List Nat) (file : MD3_File K)
    (h : loadFileContent M arraybuffer = some file) :
    (file.header.S32_NUM_FRAMES = Js.int32At arraybuffer 76 ∧
      file.header.S32_NUM_TAGS = Js.int32At arraybuffer 80 ∧
      file.header.S32_NUM_SURFACES = Js.int32At arraybuffer 84) ∧
    ((file.frames.length : Int) = file.header.S32_NUM_FRAMES ∧
      (file.tag_frames.length : Int) = file.header.S32_NUM_FRAMES ∧
      file.frames.length = file.tag_frames.length) ∧
    (∀ tf ∈ file.tag_frames, (tf.tags.length : Int) = file.header.S32_NUM_TAGS) ∧
    ((file.surfaces.length : Int) = file.header.S32_NUM_SURFACES) ∧
    (∀ s ∈ file.surfaces,
      (s.S32_NUM_TRIANGLES = Js.int32At arraybuffer (s._start_pos + 84) ∧
        s.S32_NUM_VERTS = Js.int32At arraybuffer (s._start_pos + 80)) ∧
      (s.S32_3_INDICES.length : Int) = 3 * s.S32_NUM_TRIANGLES ∧
      (s.Uint16_3_INDICES.length : Int) = 3 * s.S32_NUM_TRIANGLES ∧
      (s.S32_2_ST.length : Int) = 2 * s.S32_NUM_VERTS ∧
      (∀ sf ∈ s.surface_frames,
        (sf.vertexbuffer_xyzn.length : Int) = 6 * s.S32_NUM_VERTS)) := by
  obtain ⟨⟨_, ⟨_, hf, _⟩, ⟨ht, htags, _⟩, _, hsl, hs, _⟩, ⟨f1, f2, f3, _⟩, hsf⟩ :=
    loadFileContent_some_full h
  refine ⟨⟨f1, f2, f3⟩, ⟨hf, ht, ?_⟩, htags, hsl, ?_⟩
  · have : (file.frames.length : Int) = (file.tag_frames.length : Int) := by rw [hf, ht]
    exact_mod_cast this
  · intro s hmem
    obtain ⟨_, _, ⟨_, t1, t2, _⟩, ⟨_, st, _⟩, ⟨_, _, hsf2, _⟩⟩ := hs s hmem
    obtain ⟨_, _, g3, g4, _⟩ := hsf s hmem
    refine ⟨⟨g4, g3⟩, by rw [t1]; ring, by rw [t2]; ring, by rw [st]; ring, ?_⟩
    intro sf hsfm
    rw [(hsf2 sf hsfm).1]
    ring

/-- The sample file of two frames is read without an exception. -/
theorem sampleBuffer_two_loads :
    (loadFileContent
      ({ hypot := fun a b c => Real.sqrt (a * a + b * b + c * c), sin := Real.sin,
         cos := Real.cos, PI := Real.pi } : JsMath ℝ) (sampleBuffer 2 2)).isSome = true := by
  decide!

/-- The lengths of the arrays read from the sample file of two frames: 2 frames, 2 tag
frames of 1 tag, and 1 surface with 3 indices in both lists, 6 texture coordinates and
2 surface frames of 18 floats. -/
theorem sampleBuffer_two_lengths :
    (loadFileContent
      ({ hypot := fun a b c => Real.sqrt (a * a + b * b + c * c), sin := Real.sin,
         cos := Real.cos, PI := Real.pi } : JsMath ℝ) (sampleBuffer 2 2)).map
      (fun f => (f.frames.length, f.tag_frames.map (fun tf => tf.tags.length)))
      = some (2, [1, 1]) ∧
    (loadFileContent
      ({ hypot := fun a b c => Real.sqrt (a * a + b * b + c * c), sin := Real.sin,
         cos := Real.cos, PI := Real.pi } : JsMath ℝ) (sampleBuffer 2 2)).map
      (fun f => f.surfaces.map (fun s =>
        [s.S32_3_INDICES.length, s.Uint16_3_INDICES.length, s.S32_2_ST.length]))
      = some [[3, 3, 6]] ∧
    (loadFileContent
      ({ hypot := fun a b c => Real.sqrt (a * a + b * b + c * c), sin := Real.sin,
         cos := Real.cos, PI := Real.pi } : JsMath ℝ) (sampleBuffer 2 2)).map
      (fun f => f.surfaces.map (fun s =>
        s.surface_frames.map (fun sf => sf.vertexbuffer_xyzn.length)))
      = some [[18, 18]] := by
  decide!

/-- Witness for C22: the sample file of two frames, one tag and one surface of one
triangle and three vertices. Its bytes 76, 80 and 84 hold 2, 1 and 1, and the arrays
read from it have 2 frames, 2 tag frames of 1 tag, 1 surface, 3 indices, 6 texture
coordinates and 18 floats in each of the 2 vertex buffers. -/
theorem loadFileContent_counts_witness :
    ∃ file : MD3_File ℝ,
      loadFileContent
        ({ hypot := fun a b c => Real.sqrt (a * a + b * b + c * c), sin := Real.sin,
           cos := Real.cos, PI := Real.pi } : JsMath ℝ) (sampleBuffer 2 2) = some file ∧
      (Js.int32At (sampleBuffer 2 2) 76 = 2 ∧ Js.int32At (sampleBuffer 2 2) 80 = 1 ∧
        Js.int32At (sampleBuffer 2 2) 84 = 1) ∧
      (file.header.S32_NUM_FRAMES = 2 ∧ file.header.S32_NUM_TAGS = 1 ∧
        file.header.S32_NUM_SURFACES = 1) ∧
      ((file.frames.length : Int) = file.header.S32_NUM_FRAMES ∧
        (file.surfaces.length : Int) = file.header.S32_NUM_SURFACES) ∧
      (file.frames.length, file.tag_frames.map (fun tf => tf.tags.length)) = (2, [1, 1]) ∧
      file.surfaces.map (fun s =>
        [s.S32_3_INDICES.length, s.Uint16_3_INDICES.length, s.S32_2_ST.length])
        = [[3, 3, 6]] ∧
      file.surfaces.map (fun s =>
        s.surface_frames.map (fun sf => sf.vertexbuffer_xyzn.length)) = [[18, 18]] := by
  obtain ⟨file, hf⟩ := Option.isSome_iff_exists.mp sampleBuffer_two_loads
  obtain ⟨l1, l2, l3⟩ := sampleBuffer_two_lengths
  rw [hf] at l1 l2 l3
  have hc := loadFileContent_counts _ _ file hf
  have hb : Js.int32At (sampleBuffer 2 2) 76 = 2 ∧ Js.int32At (sampleBuffer 2 2) 80 = 1 ∧
      Js.int32At (sampleBuffer 2 2) 84 = 1 := by decide!
  refine ⟨file, hf, hb, ⟨?_, ?_, ?_⟩, ⟨hc.2.1.1, hc.2.2.2.1⟩, Option.some.inj l1,
    Option.some.inj l2, Option.some.inj l3⟩
  · rw [hc.1.1, hb.1]
  · rw [hc.1.2.1, hb.2.1]
  · rw [hc.1.2.2, hb.2.2]

/-- C26: `loadFileContent` throws for every truncated buffer. Said of a buffer that it
reads without an exception: the buffer holds the 108 bytes of the header, and every
section with at least one record that the header or a surface declares ends inside the
buffer: the frame bounds, the tag frames, and for every surface its header, its shaders,
its triangle indices, its texture coordinates and its vertex blocks. -/
theorem loadFileContent_inside (M : JsMath K) (arraybuffer : List Nat) (file : MD3_File K)
    (h : loadFileContent M arraybuffer = some file) :
    (108 ≤ (arraybuffer.length : Int)) ∧
    (0 < file.header.S32_NUM_FRAMES →
      file.header.S32_OFS_FRAMES + file.header.S32_NUM_FRAMES * 56
        ≤ (arraybuffer.length : Int)) ∧
    (0 < file.header.S32_NUM_FRAMES → 0 < file.header.S32_NUM_TAGS →
      file.header.S32_OFS_TAGS + file.header.S32_NUM_FRAMES * file.header.S32_NUM_TAGS * 112
        ≤ (arraybuffer.length : Int)) ∧
    (∀ s ∈ file.surfaces,
      (s._start_pos + 108 ≤ (arraybuffer.length : Int)) ∧
      (0 < s.S32_NUM_SHADERS →
        s._start_pos + s.S32_OFS_SHADERS + s.S32_NUM_SHADERS * 68
          ≤ (arraybuffer.length : Int)) ∧
      (s._start_pos + s.S32_OFS_TRIANGLES + s.S32_NUM_TRIANGLES * 12
          ≤ (arraybuffer.length : Int)) ∧
      (s._start_pos + s.S32_OFS_ST + s.S32_NUM_VERTS * 8 ≤ (arraybuffer.length : Int)) ∧
      (0 < s.S32_NUM_FRAMES → 0 < s.S32_NUM_VERTS →
        s._start_pos + s.S32_OFS_XYZNORMAL + s.S32_NUM_FRAMES * s.S32_NUM_VERTS * 8
          ≤ (arraybuffer.length : Int))) := by
  obtain ⟨h108, ⟨_, _, hfr⟩, ⟨_, _, htg⟩, _, _, hs, _⟩ := loadFileContent_some h
  refine ⟨h108, fun hp => (hfr hp).2, ?_, ?_⟩
  · intro hp ht
    have := ((htg hp).2 ht).2
    rw [mul_assoc]
    exact this
  · intro s hmem
    obtain ⟨⟨_, a1, _⟩, ⟨_, _, a2⟩, ⟨_, _, _, _, a3⟩, ⟨_, _, _, a4⟩, ⟨_, _, _, a5⟩⟩ :=
      hs s hmem
    refine ⟨a1, fun hp => (a2 hp).2, a3, a4, ?_⟩
    intro hp hv
    have := (a5 hp hv).2
    rw [mul_assoc]
    exact this

/-- Witness for C26: the well-formed sample file is read and lies inside its 512 bytes;
the same file without its last byte is not read. -/
theorem loadFileContent_inside_witness :
    (∃ file : MD3_File ℝ,
      loadFileContent
        ({ hypot := fun a b c => Real.sqrt (a * a + b * b + c * c), sin := Real.sin,
           cos := Real.cos, PI := Real.pi } : JsMath ℝ) (sampleBuffer 1 1) = some file ∧
      (108 ≤ ((sampleBuffer 1 1).length : Int)) ∧ (sampleBuffer 1 1).length = 512 ∧
      (∀ s ∈ file.surfaces,
        s._start_pos + s.S32_OFS_ST + s.S32_NUM_VERTS * 8
          ≤ ((sampleBuffer 1 1).length : Int))) ∧
    (loadFileContent
        ({ hypot := fun a b c => Real.sqrt (a * a + b * b + c * c), sin := Real.sin,
           cos := Real.cos, PI := Real.pi } : JsMath ℝ)
        ((sampleBuffer 1 1).take 511)).isSome = false := by
  refine ⟨?_, by decide!⟩
  obtain ⟨file, hf⟩ := Option.isSome_iff_exists.mp sampleBuffer_loads
  exact ⟨file, hf, (loadFileContent_inside _ _ file hf).1, by decide,
    fun s hs => ((loadFileContent_inside _ _ file hf).2.2.2 s hs).2.2.2.1⟩

/-- C30: in a file that `loadFileContent` reads without an exception, the first surface
is read at the `S32_OFS_SURFACES` of the header, and the header of surface `j + 1` is
read at the cursor that surface `j` leaves, which is
`start_j + S32_OFS_XYZNORMAL_j + S32_NUM_FRAMES_j * S32_NUM_VERTS_j * 8`, the end of the
last vertex block of surface `j`; `S32_OFS_END` does not occur in it. -/
theorem loadFileContent_surface_cursor (M : JsMath K) (arraybuffer : List Nat)
    (file : MD3_File K) (h : loadFileContent M arraybuffer = some file) :
    (∀ s, file.surfaces[0]? = some s → s._start_pos = file.header.S32_OFS_SURFACES) ∧
    (∀ j s1 s2, file.surfaces[j]? = some s1 → file.surfaces[j + 1]? = some s2 →
      s2._start_pos
        = s1._start_pos + s1.S32_OFS_XYZNORMAL + s1.S32_NUM_FRAMES * s1.S32_NUM_VERTS * 8) := by
  obtain ⟨_, _, _, _, _, _, hhead, hchain⟩ := loadFileContent_some h
  exact ⟨hhead, hchain⟩

/-- Witness for C30: the sample file of two surfaces of 124 bytes whose headers declare
`S32_OFS_END = 0`; the surfaces are read at 164 and at 288. -/
theorem loadFileContent_surface_cursor_witness :
    (∃ file : MD3_File ℝ,
      loadFileContent
        ({ hypot := fun a b c => Real.sqrt (a * a + b * b + c * c), sin := Real.sin,
           cos := Real.cos, PI := Real.pi } : JsMath ℝ) (twoSurfaceBuffer 0) = some file ∧
      (∀ s, file.surfaces[0]? = some s → s._start_pos = file.header.S32_OFS_SURFACES) ∧
      (∀ j s1 s2, file.surfaces[j]? = some s1 → file.surfaces[j + 1]? = some s2 →
        s2._start_pos
          = s1._start_pos + s1.S32_OFS_XYZNORMAL
            + s1.S32_NUM_FRAMES * s1.S32_NUM_VERTS * 8)) ∧
    (loadFileContent
        ({ hypot := fun a b c => Real.sqrt (a * a + b * b + c * c), sin := Real.sin,
           cos := Real.cos, PI := Real.pi } : JsMath ℝ) (twoSurfaceBuffer 0)).map
        (fun f => f.surfaces.map (fun s => (s._start_pos, s.S32_OFS_END)))
      = some [(164, 0), (288, 0)] := by
  refine ⟨?_, by decide!⟩
  obtain ⟨file, hf⟩ := Option.isSome_iff_exists.mp twoSurfaceBuffer_loads
  exact ⟨file, hf, loadFileContent_surface_cursor _ _ file hf⟩

end MD3_File
